import Mathlib

/-!
# Docker volume driver isolator: mount ledger, prepare / cleanup / recover

A shallow embedding of `isolator/docker_volume_driver_isolator.{hpp,cpp}`.

* `std::string` is `String`; every string operation goes through the list of characters,
  a character standing for a byte of the C++ string.
* `multihashmap<K,V>` and `hashmap<K,V>` (stout) are association lists; the list order
  stands for the container's iteration order, `put` on a multihashmap appends, `put` on a
  hashmap erases the key and appends.  The real iteration order is unspecified, so the
  statements below speak of membership, counts and permutations.
* `process::Owned<ExternalMount>` is a value of `ExternalMount`: sharing a pointer is
  sharing an equal record (no record is mutated after it entered a container).
* The outside world of one lifecycle call is a `Host`: whether `system(NULL)` finds a
  command processor while a given record is handled, what `os::shell` answers to a
  command line, and what the checkpoint write answers.
* Every lifecycle call returns an `Outcome`: the future it resolves to, the store
  `infos` afterwards, the record list handed to `state::checkpoint` (if it was called)
  and the `mount` / `unmount` invocations in order.
-/

namespace DockerVolumeDriverIsolator

/-! ## Constants of the header -/

def DVDCLI_MOUNT_CMD : String := "/usr/bin/dvdcli mount"
def DVDCLI_UNMOUNT_CMD : String := "/usr/bin/dvdcli unmount"
def VOL_NAME_CMD_OPTION : String := "--volumename="
def VOL_DRIVER_CMD_OPTION : String := "--volumedriver="
def VOL_DRIVER_DEFAULT : String := "rexray"
def VOL_NAME_ENV_VAR_NAME : String := "DVDI_VOLUME_NAME"
def VOL_DRIVER_ENV_VAR_NAME : String := "DVDI_VOLUME_DRIVER"
def VOL_OPTS_ENV_VAR_NAME : String := "DVDI_VOLUME_OPTS"
def JSON_VOLS_ENV_VAR_NAME : String := "DVDI_VOLS_JSON_ARRAY"

/-- The 26 entries of `prohibitedchars` (cpp 68-74), in source order:
percent, slash, colon, semicolon, NUL, less, greater, bar, backtick, dollar, single quote,
question mark, caret, ampersand, space, opening brace, double quote, closing brace,
opening bracket, closing bracket, newline, tab, vertical tab, backspace, carriage return,
backslash. -/
def prohibitedchars : List Char :=
  ['%', '/', ':', ';', Char.ofNat 0,
   '<', '>', '|', Char.ofNat 96, '$', Char.ofNat 39,
   '?', '^', '&', ' ', Char.ofNat 123, Char.ofNat 34,
   Char.ofNat 125, '[', ']', Char.ofNat 10, Char.ofNat 9, Char.ofNat 11, Char.ofNat 8,
   Char.ofNat 13, Char.ofNat 92]

def NUM_PROHIBITED : Nat := 26

/-! ## Data model -/

/-- The protobuf message `ExternalMount` (declared in `interface.hpp`): five string fields. -/
structure ExternalMount where
  containerid : String
  volumedriver : String
  volumename : String
  options : String
  mountpoint : String
deriving DecidableEq, Repr

/-- Mesos `ContainerID`: a message with one string field `value`; equality and hashing
go through `value`. -/
structure ContainerID where
  value : String
deriving DecidableEq, Repr

/-- Mesos `stringify(containerId)`: the stream operator prints `value`. -/
def stringify (containerId : ContainerID) : String := containerId.value

/-- The type `containermountmap`, `multihashmap<ContainerID, Owned<ExternalMount>>`. -/
abbrev containermountmap := List (ContainerID × ExternalMount)

/-- The `libprocess` future as far as this file uses it: a value or `Failure(message)`. -/
inductive Future (α : Type) where
  | ready (a : α)
  | failed (message : String)
deriving DecidableEq, Repr

/-- An invocation of one of the two executor methods. -/
inductive Call where
  | mount (em : ExternalMount)
  | unmount (em : ExternalMount)
deriving DecidableEq, Repr

/-- The outside world during one lifecycle call. `system em` is the answer of
`system(NULL)` while `em` is being mounted or unmounted (each call handles a record at
most once), `shell` is `os::shell` on a formatted command line (`Except.error` is
`Try::isError`), `checkpoint` is the answer of `state::checkpoint` (`true` for success). -/
structure Host where
  system : ExternalMount → Bool
  shell : String → Except String String
  checkpoint : List ExternalMount → Bool

/-- What a lifecycle call did. -/
structure Outcome (α : Type) where
  future : Future α
  infos : containermountmap
  checkpointed : Option (List ExternalMount)
  calls : List Call

/-! ## Library functions the source calls (Boost, stout, libc) -/

/-- `boost::to_lower_copy` in the classic locale: `A`-`Z` are lowered, the rest is kept. -/
def to_lower_copy (s : String) : String := String.mk (s.data.map Char.toLower)

/-- The update step of `boost::hash_combine` on `std::size_t` (64 bit) with the hash value
`v` of the combined item: `seed ^= v + 0x9e3779b9 + (seed << 6) + (seed >> 2)`. -/
@[irreducible]
def hash_combine_value (seed v : Nat) : Nat :=
  Nat.xor seed ((v + 0x9e3779b9 + (seed <<< 6) % 2 ^ 64 + (seed >>> 2)) % 2 ^ 64)

/-- `boost::hash_value(char)`: the `char` converted to `std::size_t`. `char` is signed on
the platforms Mesos is built for, so a byte above 127 is sign-extended. -/
def hash_value (byte : Nat) : Nat := if byte < 128 then byte else 2 ^ 64 - 256 + byte

/-- The bytes a `std::string` holds for the characters `cs` (UTF-8). -/
def bytes (cs : List Char) : List Nat :=
  cs.flatMap (fun c => (String.utf8EncodeChar c).map UInt8.toNat)

/-- `boost::hash_range` over the bytes of a string, each combined by `hash_combine` with
its `hash_value`. The combining step is the one of the Boost releases before 1.56, which
Mesos bundled when this module was written. -/
def hash_range (cs : List Char) : Nat :=
  (bytes cs).foldl (fun seed byte => hash_combine_value seed (hash_value byte)) 0

/-- `boost::hash_combine(seed, s)` for a `std::string`. -/
def hash_combine (seed : Nat) (s : String) : Nat :=
  hash_combine_value seed (hash_range s.data)

/-- `strings::startsWith(s, pre)` of stout. -/
def startsWith (s pre : String) : Bool := pre.data.isPrefixOf s.data

/-- The characters stout's `strings::trim` strips: space, tab, newline, carriage return. -/
def WHITESPACE : List Char := [' ', Char.ofNat 9, Char.ofNat 10, Char.ofNat 13]

/-- `strings::trim(s)` of stout: strips `WHITESPACE` from both ends. -/
def trim (s : String) : String :=
  String.mk ((((s.data.dropWhile (fun c => WHITESPACE.contains c)).reverse).dropWhile
    (fun c => WHITESPACE.contains c)).reverse)

/-- What `printf`'s `%s` reads from `s.c_str()`: the characters before the first NUL. -/
def c_str (s : String) : String := String.mk (s.data.takeWhile (fun c => c != Char.ofNat 0))

/-- `isdigit` of libc. -/
def isdigit (c : Char) : Bool := c.isDigit

/-- `std::atoi` on a one-character string holding a digit. -/
def atoi_digit (c : Char) : Nat := c.toNat - '0'.toNat

/-! ## Identity, validation and the two executor methods -/

abbrev ExternalMountID := Nat

/-- Header lines 141-148. -/
@[irreducible]
def getExternalMountId (em : ExternalMount) : ExternalMountID :=
  let seed := 0
  let s1 := to_lower_copy em.volumedriver
  let s2 := to_lower_copy em.volumename
  let seed := hash_combine seed s1
  let seed := hash_combine seed s2
  seed

/-- Cpp lines 387-391: `s.find_first_of(prohibitedchars, 0, NUM_PROHIBITED) != npos`. -/
def containsProhibitedChars (s : String) : Bool :=
  s.data.any (fun c => (prohibitedchars.take NUM_PROHIBITED).contains c)

/-- The command line of `os::shell("%s %s%s %s%s ", ...)` in `unmount`. -/
def unmountCommand (em : ExternalMount) : String :=
  DVDCLI_UNMOUNT_CMD ++ " " ++ VOL_DRIVER_CMD_OPTION ++ c_str em.volumedriver ++ " " ++
    VOL_NAME_CMD_OPTION ++ c_str em.volumename ++ " "

/-- The command line of `os::shell("%s %s%s %s%s %s", ...)` in `mount`. -/
def mountCommand (em : ExternalMount) : String :=
  DVDCLI_MOUNT_CMD ++ " " ++ VOL_DRIVER_CMD_OPTION ++ c_str em.volumedriver ++ " " ++
    VOL_NAME_CMD_OPTION ++ c_str em.volumename ++ " " ++ c_str em.options

/-- Cpp lines 302-338: `false` only when no command processor is available. -/
def unmount (host : Host) (em : ExternalMount) : Bool :=
  if host.system em then
    match host.shell (unmountCommand em) with
    | .error _ => true
    | .ok _ => true
  else
    false

/-- Cpp lines 341-385: the trimmed output of the mount command, or the empty string. -/
def mount (host : Host) (em : ExternalMount) : String :=
  if host.system em then
    match host.shell (mountCommand em) with
    | .error _ => ""
    | .ok out => if (trim out).data.isEmpty then "" else trim out
  else
    ""

/-! ## prepare -/

/-- One entry of `executorInfo.command().environment().variables()`. -/
structure Variable where
  name : String
  value : String
deriving DecidableEq, Repr

def ARRAY_SIZE : Nat := 10

/-- The three `std::array<std::string, ARRAY_SIZE>` of `prepare` (cpp 425-427). -/
structure Slots where
  deviceDriverNames : List String
  volumeNames : List String
  mountOptions : List String
deriving DecidableEq, Repr

/-- The arrays as declared: ten empty strings each. -/
def emptySlots : Slots :=
  ⟨List.replicate ARRAY_SIZE "", List.replicate ARRAY_SIZE "", List.replicate ARRAY_SIZE ""⟩

/-- The index computation the source repeats for the three variable families
(cpp 449-461, 475-487, 499-513): the unsuffixed name is slot 0, one more character that
is a digit and whose `atoi` is not 0 is that slot, everything else fills no slot. -/
def slotIndex (name : String) (prefixLength : Nat) : Option Nat :=
  if name.data.length = prefixLength then
    some 0
  else if name.data.length = prefixLength + 1 then
    let digit := name.data.getD prefixLength (Char.ofNat 0)
    if isdigit digit then
      let index := atoi_digit digit
      if index ≠ 0 then some index else none
    else
      none
  else
    none

/-- The body of the loop over the environment variables (cpp 431-518); `none` is the
early `return Failure("prepare() failed due to illegal environment variable")`. -/
def parseVariable (slots : Slots) (var : Variable) : Option Slots :=
  if startsWith var.name VOL_NAME_ENV_VAR_NAME then
    if containsProhibitedChars var.value then
      none
    else
      match slotIndex var.name VOL_NAME_ENV_VAR_NAME.data.length with
      | some index => some { slots with volumeNames := slots.volumeNames.set index var.value }
      | none => some slots
  else if startsWith var.name VOL_DRIVER_ENV_VAR_NAME then
    if containsProhibitedChars var.value then
      none
    else
      match slotIndex var.name VOL_DRIVER_ENV_VAR_NAME.data.length with
      | some index =>
        some { slots with deviceDriverNames := slots.deviceDriverNames.set index var.value }
      | none => some slots
  else if startsWith var.name VOL_OPTS_ENV_VAR_NAME then
    if containsProhibitedChars var.value then
      none
    else
      match slotIndex var.name VOL_OPTS_ENV_VAR_NAME.data.length with
      | some index => some { slots with mountOptions := slots.mountOptions.set index var.value }
      | none => some slots
  else
    some slots

/-- The loop over the environment variables (cpp 431-518). -/
def parseVariables : List Variable → Slots → Option Slots
  | [], slots => some slots
  | var :: rest, slots =>
    match parseVariable slots var with
    | none => none
    | some slots1 => parseVariables rest slots1

/-- The three vectors filled by the loop over the slots (cpp 523-529). -/
structure Requests where
  requestedExternalMounts : List ExternalMount
  unconnectedExternalMounts : List ExternalMount
  prevConnectedExternalMounts : List ExternalMount
deriving DecidableEq, Repr

/-- The record built for slot `i` (cpp 540-550); the builder leaves the mountpoint empty. -/
def slotMount (containerId : ContainerID) (slots : Slots) (i : Nat) : ExternalMount :=
  let deviceDriverName := slots.deviceDriverNames.getD i ""
  { containerid := stringify containerId
    volumedriver := if deviceDriverName.data.isEmpty then VOL_DRIVER_DEFAULT else deviceDriverName
    volumename := slots.volumeNames.getD i ""
    options := slots.mountOptions.getD i ""
    mountpoint := "" }

/-- The body of the loop over the slots (cpp 532-589). -/
def requestStep (infos : containermountmap) (containerId : ContainerID) (slots : Slots)
    (acc : Requests) (i : Nat) : Requests :=
  if (slots.volumeNames.getD i "").data.isEmpty then
    acc
  else
    let mount := slotMount containerId slots i
    if acc.requestedExternalMounts.any
        (fun ent => getExternalMountId ent == getExternalMountId mount) then
      acc
    else
      match infos.find? (fun ent => getExternalMountId ent.2 == getExternalMountId mount) with
      | some ent =>
        { requestedExternalMounts := acc.requestedExternalMounts ++ [mount]
          unconnectedExternalMounts := acc.unconnectedExternalMounts
          prevConnectedExternalMounts := acc.prevConnectedExternalMounts ++ [ent.2] }
      | none =>
        { requestedExternalMounts := acc.requestedExternalMounts ++ [mount]
          unconnectedExternalMounts := acc.unconnectedExternalMounts ++ [mount]
          prevConnectedExternalMounts := acc.prevConnectedExternalMounts }

/-- The loop over the slots (cpp 532-589). -/
def buildRequests (infos : containermountmap) (containerId : ContainerID) (slots : Slots) :
    Requests :=
  (List.range ARRAY_SIZE).foldl (requestStep infos containerId slots) ⟨[], [], []⟩

/-- The revert loop (cpp 617-626): it leaves at the first `unmount` that returns `true`. -/
def revertMounts (host : Host) : List ExternalMount → List Call
  | [] => []
  | unmountme :: rest =>
    if unmount host unmountme then
      [Call.unmount unmountme]
    else
      Call.unmount unmountme :: revertMounts host rest

/-- The record built after a successful mount (cpp 602-609). -/
def newmount (containerId : ContainerID) (iter : ExternalMount) (mountpoint : String) :
    ExternalMount :=
  { containerid := stringify containerId
    volumedriver := iter.volumedriver
    volumename := iter.volumename
    options := iter.options
    mountpoint := mountpoint }

/-- The loop over `unconnectedExternalMounts` (cpp 594-629), started with the
`successfulExternalMounts` made so far: the successful mounts (`none` for the early
`return Failure`) and the invocations made. -/
def mountLoop (host : Host) (containerId : ContainerID) :
    List ExternalMount → List ExternalMount → Option (List ExternalMount) × List Call
  | [], successfulExternalMounts => (some successfulExternalMounts, [])
  | iter :: rest, successfulExternalMounts =>
    let mountpoint := mount host iter
    if !mountpoint.data.isEmpty then
      let r := mountLoop host containerId rest
        (successfulExternalMounts ++ [newmount containerId iter mountpoint])
      (r.1, Call.mount iter :: r.2)
    else
      (none, Call.mount iter :: revertMounts host successfulExternalMounts)

/-- The record list handed to `state::checkpoint` by `prepare` and `cleanup`
(cpp 642-646, 730-734): one copy per entry of `infos`. -/
def inUseMountsProtobuf (infos : containermountmap) : List ExternalMount :=
  infos.map Prod.snd

abbrev ContainerPrepareInfo := Unit

/-- Cpp lines 400-651. `environment` is `none` when the command has no environment. The
answer of `state::checkpoint` is not looked at. -/
def prepare (host : Host) (infos : containermountmap) (containerId : ContainerID)
    (environment : Option (List Variable)) : Outcome (Option ContainerPrepareInfo) :=
  match environment with
  | none => ⟨Future.ready none, infos, none, []⟩
  | some vars =>
    match parseVariables vars emptySlots with
    | none =>
      ⟨Future.failed "prepare() failed due to illegal environment variable", infos, none, []⟩
    | some slots =>
      let requests := buildRequests infos containerId slots
      match mountLoop host containerId requests.unconnectedExternalMounts [] with
      | (none, calls) =>
        ⟨Future.failed "prepare() failed during mount attempt", infos, none, calls⟩
      | (some successfulExternalMounts, calls) =>
        let infos1 := infos ++ requests.prevConnectedExternalMounts.map (fun m => (containerId, m))
        let infos2 := infos1 ++ successfulExternalMounts.map (fun m => (containerId, m))
        let _written := host.checkpoint (inUseMountsProtobuf infos2)
        ⟨Future.ready none, infos2, some (inUseMountsProtobuf infos2), calls⟩

/-! ## cleanup -/

/-- The inner loop of `cleanup` (cpp 704-715), started with `mountCount`: it leaves as
soon as the count exceeds 1. -/
def countUsers (iter : ExternalMount) : containermountmap → Nat → Nat
  | [], mountCount => mountCount
  | elem :: rest, mountCount =>
    if getExternalMountId iter == getExternalMountId elem.2 then
      if mountCount + 1 > 1 then mountCount + 1 else countUsers iter rest (mountCount + 1)
    else
      countUsers iter rest mountCount

/-- The loop over `mountsList` (cpp 703-724): `false` is the early `return Failure`. -/
def unmountLoop (host : Host) (infos : containermountmap) : List ExternalMount → Bool × List Call
  | [] => (true, [])
  | iter :: rest =>
    if countUsers iter infos 0 = 1 then
      if !unmount host iter then
        (false, [Call.unmount iter])
      else
        let r := unmountLoop host infos rest
        (r.1, Call.unmount iter :: r.2)
    else
      unmountLoop host infos rest

/-- `infos.get(containerId)`. -/
def mountsOf (infos : containermountmap) (containerId : ContainerID) : List ExternalMount :=
  (infos.filter (fun ent => ent.1 == containerId)).map Prod.snd

/-- Cpp lines 687-739. -/
def cleanup (host : Host) (infos : containermountmap) (containerId : ContainerID) :
    Outcome Unit :=
  if !(infos.any (fun ent => ent.1 == containerId)) then
    ⟨Future.ready (), infos, none, []⟩
  else
    let mountsList := mountsOf infos containerId
    match unmountLoop host infos mountsList with
    | (false, calls) =>
      ⟨Future.failed "cleanup() failed during unmount attempt", infos, none, calls⟩
    | (true, calls) =>
      let infos1 := infos.filter (fun ent => ent.1 != containerId)
      let _written := host.checkpoint (inUseMountsProtobuf infos1)
      ⟨Future.ready (), infos1, some (inUseMountsProtobuf infos1), calls⟩

/-! ## recover -/

/-- What `recover` finds at `mountPbFilename`: no file, a file that does not parse, or the
parsed `ExternalMountList`. -/
inductive MountFile where
  | absent
  | invalid
  | parsed (mountlist : List ExternalMount)
deriving DecidableEq, Repr

/-- The type `externalmountmap`, `hashmap<ExternalMountID, Owned<ExternalMount>>`. -/
abbrev externalmountmap := List (ExternalMountID × ExternalMount)

/-- `hashmap::erase(key)`. -/
def externalmountmap.erase (m : externalmountmap) (id : ExternalMountID) : externalmountmap :=
  m.filter (fun ent => ent.1 != id)

/-- `hashmap::put(key, value)` of stout: erase the key, insert the pair. -/
def externalmountmap.put (m : externalmountmap) (id : ExternalMountID) (em : ExternalMount) :
    externalmountmap :=
  m.erase id ++ [(id, em)]

/-- The two `set_...(std::string(""))` of cpp 209-219. -/
def scrub (mount : ExternalMount) : ExternalMount :=
  let mount1 :=
    if containsProhibitedChars mount.volumedriver then { mount with volumedriver := "" } else mount
  let mount2 :=
    if containsProhibitedChars mount1.volumename then { mount1 with volumename := "" } else mount1
  mount2

/-- The body of the loop over the parsed list (cpp 199-229): the loop-local `mount` as the
iteration leaves it, and the key put into `originalContainerMounts`, if any. The value put
with the key is `Owned<ExternalMount>(&mount)`, the address of the loop-local, not a copy
of the record. A message that was just parsed serializes, so `bSerialize` is `true`. -/
def recoverMount (mount : ExternalMount) : ExternalMount × Option String :=
  let bSerialize := true
  if bSerialize then
    let mount2 := scrub mount
    if !mount2.containerid.data.isEmpty && !mount2.volumename.data.isEmpty then
      (mount2, some mount2.containerid)
    else
      (mount2, none)
  else
    (mount, none)

/-- The loop of cpp 199-229 on the keys put so far and the object at the address of the
loop-local `mount` (`none` before the first iteration). -/
def recoverLoop : List ExternalMount → List String × Option ExternalMount →
    List String × Option ExternalMount
  | [], acc => acc
  | mount :: rest, acc =>
    match (recoverMount mount).2 with
    | some key => recoverLoop rest (acc.1 ++ [key], some (recoverMount mount).1)
    | none => recoverLoop rest (acc.1, some (recoverMount mount).1)

/-- The multihashmap `originalContainerMounts` as the code after the loop reads it
(cpp 245-267, 290-294). Every value of the map is the same pointer, the address of the
loop-local `mount`, whose lifetime ended with its iteration; a read through it after the
loop is taken to find the object as the last iteration left it, so every key is paired
with the last record of the list, as scrubbed. -/
def originalContainerMounts (mountlist : List ExternalMount) : List (String × ExternalMount) :=
  match recoverLoop mountlist ([], none) with
  | (keys, some mount) => keys.map (fun key => (key, mount))
  | (_, none) => []

/-- The loop of cpp 245-247. -/
def legacyMountsOf (original : List (String × ExternalMount)) : externalmountmap :=
  original.foldl (fun legacyMounts elem =>
    legacyMounts.put (getExternalMountId elem.2) elem.2) []

/-- The inner loop of cpp 261-267 over `mountsForContainer`. -/
def reattach (containerId : ContainerID) :
    List ExternalMount → containermountmap × externalmountmap →
      containermountmap × externalmountmap
  | [], acc => acc
  | iter :: rest, acc =>
    reattach containerId rest
      (acc.1 ++ [(containerId, iter)], acc.2.put (getExternalMountId iter) iter)

/-- The loop over `states` (cpp 249-269) on the pair `(infos, inUseMounts)`. -/
def recoverStates (original : List (String × ExternalMount)) :
    List ContainerID → containermountmap × externalmountmap →
      containermountmap × externalmountmap
  | [], acc => acc
  | state :: rest, acc =>
    if original.any (fun elem => elem.1 == state.value) then
      let mountsForContainer :=
        (original.filter (fun elem => elem.1 == state.value)).map Prod.snd
      recoverStates original rest (reattach state mountsForContainer acc)
    else
      recoverStates original rest acc

/-- The loop of cpp 284-286. -/
def eraseInUse (legacyMounts inUseMounts : externalmountmap) : externalmountmap :=
  inUseMounts.foldl (fun legacy iter => legacy.erase iter.1) legacyMounts

/-- The loop of cpp 290-294: `false` is the early `return Failure`. -/
def unmountOrphans (host : Host) : List ExternalMount → Bool × List Call
  | [] => (true, [])
  | iter :: rest =>
    if !unmount host iter then
      (false, [Call.unmount iter])
    else
      let r := unmountOrphans host rest
      (r.1, Call.unmount iter :: r.2)

/-- Cpp lines 139-297. `stateErrors` is `state.errors` of the slave state recovery,
`file` is what is found at `mountPbFilename`, `states` are the container ids of the
`ContainerState` list (the `orphans` argument is not read). The checkpoint is written
from `inUseMounts` before the orphans are unmounted. The outcome is what `recover` has done
when it reaches its `return`; the release of the `Owned` pointers held by its local maps,
which follows, is not part of it (see `releasedPointers`). -/
def recover (host : Host) (infos : containermountmap) (stateErrors : Nat) (file : MountFile)
    (states : List ContainerID) : Outcome Unit :=
  if stateErrors ≠ 0 then
    ⟨Future.ready (), infos, none, []⟩
  else
    match file with
    | MountFile.absent => ⟨Future.ready (), infos, none, []⟩
    | MountFile.invalid => ⟨Future.ready (), infos, none, []⟩
    | MountFile.parsed mountlist =>
      let original := originalContainerMounts mountlist
      let legacyMounts := legacyMountsOf original
      let rebuilt := recoverStates original states (infos, [])
      let inUseMounts := rebuilt.2
      let inUseMountsProtobuf := inUseMounts.map Prod.snd
      let _written := host.checkpoint inUseMountsProtobuf
      let orphans := eraseInUse legacyMounts inUseMounts
      match unmountOrphans host (orphans.map Prod.snd) with
      | (false, calls) =>
        ⟨Future.failed "recover() failed during unmount attempt", rebuilt.1,
          some inUseMountsProtobuf, calls⟩
      | (true, calls) => ⟨Future.ready (), rebuilt.1, some inUseMountsProtobuf, calls⟩

/-! ## Notions used by the statements -/

/-- The live reference count of an identity: the number of `(workload, record)` entries
of the store whose record has that identity. -/
def referenceCount (infos : containermountmap) (id : ExternalMountID) : Nat :=
  infos.countP (fun ent => getExternalMountId ent.2 == id)

/-- The stores reachable from the empty store by `prepare` and `cleanup` calls, under any
behaviour of the outside world. -/
inductive Reachable : containermountmap → Prop where
  | empty : Reachable []
  | prepare (host : Host) (infos : containermountmap) (containerId : ContainerID)
      (environment : Option (List Variable)) :
      Reachable infos → Reachable (prepare host infos containerId environment).infos
  | cleanup (host : Host) (infos : containermountmap) (containerId : ContainerID) :
      Reachable infos → Reachable (cleanup host infos containerId).infos

/-- The model of the physically mounted identities: an identity enters when `mount`
returns a non-empty mountpoint for it and leaves when `unmount` is invoked for it. -/
def mountedAfter (host : Host) : List Call → List ExternalMountID → List ExternalMountID
  | [], mounted => mounted
  | Call.mount em :: rest, mounted =>
    if (mount host em).data.isEmpty then
      mountedAfter host rest mounted
    else
      mountedAfter host rest (getExternalMountId em :: mounted)
  | Call.unmount em :: rest, mounted =>
    mountedAfter host rest (mounted.filter (fun id => id != getExternalMountId em))

/-- The kept records of a parsed checkpoint, those for which the loop of `recover` puts an
entry: scrubbed, and with a non-empty container id and volume name afterwards. -/
def retained (mountlist : List ExternalMount) : List ExternalMount :=
  (mountlist.map scrub).filter (fun m => decide (m.containerid ≠ "" ∧ m.volumename ≠ ""))

/-! ## Concrete scenarios -/

/-- A host with a command processor whose mount command prints a mountpoint for every
volume except the volume named `c`, for which it prints nothing. -/
def hostFailingOnC : Host :=
  { system := fun _ => true
    shell := fun cmd =>
      if cmd = "/usr/bin/dvdcli mount --volumedriver=rexray --volumename=c " then
        Except.ok ""
      else
        Except.ok "/var/lib/rexray/volumes/x\n"
    checkpoint := fun _ => true }

/-- A host with a command processor whose commands all succeed. -/
def hostAllOk : Host :=
  { system := fun _ => true
    shell := fun _ => Except.ok "/var/lib/rexray/volumes/x\n"
    checkpoint := fun _ => true }

/-- A host without a command processor. -/
def hostNoShell : Host :=
  { system := fun _ => false
    shell := fun _ => Except.error "no shell"
    checkpoint := fun _ => true }

def w1 : ContainerID := ⟨"w1"⟩
def w2 : ContainerID := ⟨"w2"⟩

/-- Three volumes `a`, `b`, `c` in slots 0, 1, 2. -/
def envABC : List Variable :=
  [⟨"DVDI_VOLUME_NAME", "a"⟩, ⟨"DVDI_VOLUME_NAME1", "b"⟩, ⟨"DVDI_VOLUME_NAME2", "c"⟩]

/-- Two volumes `a`, `c` in slots 0, 1. -/
def envAC : List Variable :=
  [⟨"DVDI_VOLUME_NAME", "a"⟩, ⟨"DVDI_VOLUME_NAME1", "c"⟩]

def reqA : ExternalMount := ⟨"w1", "rexray", "a", "", ""⟩
def reqB : ExternalMount := ⟨"w1", "rexray", "b", "", ""⟩
def reqC : ExternalMount := ⟨"w1", "rexray", "c", "", ""⟩
def mountedA : ExternalMount := ⟨"w1", "rexray", "a", "", "/var/lib/rexray/volumes/x"⟩
def mountedB : ExternalMount := ⟨"w1", "rexray", "b", "", "/var/lib/rexray/volumes/x"⟩

/-- A store in which `w1` holds the two unshared volumes `a` and `b`. -/
def storeAB : containermountmap := [(w1, mountedA), (w1, mountedB)]

/-- One volume `v` in slot 0. -/
def envV : List Variable := [⟨"DVDI_VOLUME_NAME", "v"⟩]

/-- The record of volume `v` as mounted for `w1`. -/
def mountedV : ExternalMount := ⟨"w1", "rexray", "v", "", "/var/lib/rexray/volumes/x"⟩

/-- The store after `w1` prepared `v`. -/
def storeV1 : containermountmap := (prepare hostAllOk [] w1 (some envV)).infos

/-- The store after `w1` and then `w2` prepared `v`. -/
def storeV12 : containermountmap := (prepare hostAllOk storeV1 w2 (some envV)).infos

/-- A checkpoint in which `w1` and `w2` each own a record of volume `v`. -/
def checkpointTwoOwners : List ExternalMount :=
  [⟨"w1", "rexray", "v", "", "/var/lib/rexray/volumes/x"⟩,
   ⟨"w2", "rexray", "v", "", "/var/lib/rexray/volumes/x"⟩]

/-- A well-formed `externalmountmap`: every key occurs once and is the identity of the
record stored under it. -/
def KeyedById (m : externalmountmap) : Prop :=
  (m.map Prod.fst).Nodup ∧ ∀ ent ∈ m, getExternalMountId ent.2 = ent.1

/-- What the loop over the slots keeps true of its three vectors: a previously connected
record is a record of the store, an unconnected record is requested, its identity is not
in the store and differs from the other unconnected ones, and every requested record is
unconnected or has its identity among the previously connected ones. -/
structure RequestsOk (infos : containermountmap) (acc : Requests) : Prop where
  prev_in : ∀ m ∈ acc.prevConnectedExternalMounts, ∃ c, (c, m) ∈ infos
  unc_fresh : ∀ m ∈ acc.unconnectedExternalMounts, ∀ ent ∈ infos,
    getExternalMountId ent.2 ≠ getExternalMountId m
  unc_req : ∀ m ∈ acc.unconnectedExternalMounts, m ∈ acc.requestedExternalMounts
  unc_inj : ∀ a ∈ acc.unconnectedExternalMounts, ∀ b ∈ acc.unconnectedExternalMounts,
    getExternalMountId a = getExternalMountId b → a = b
  req_cov : ∀ m ∈ acc.requestedExternalMounts, m ∈ acc.unconnectedExternalMounts ∨
    ∃ r ∈ acc.prevConnectedExternalMounts, getExternalMountId r = getExternalMountId m

/-- Entries of equal identity hold equal records. -/
def Coherent (infos : containermountmap) : Prop :=
  ∀ e1 ∈ infos, ∀ e2 ∈ infos,
    getExternalMountId e1.2 = getExternalMountId e2.2 → e1.2 = e2.2

/-- Volume `V` (the `v` of `w1` in upper case) in slot 0 and volume `c` in slot 1. -/
def envVC : List Variable :=
  [⟨"DVDI_VOLUME_NAME", "V"⟩, ⟨"DVDI_VOLUME_NAME1", "c"⟩]

/-- The arrays `prepare` fills from `envVC`. -/
def slotsVC : Slots :=
  { deviceDriverNames := ["", "", "", "", "", "", "", "", "", ""]
    volumeNames := ["V", "c", "", "", "", "", "", "", "", ""]
    mountOptions := ["", "", "", "", "", "", "", "", "", ""] }

/-- A store in which `w1` holds `a` and `w2` holds `b`. -/
def storeA1B2 : containermountmap :=
  [(w1, mountedA), (w2, ⟨"w2", "rexray", "b", "", "/var/lib/rexray/volumes/x"⟩)]

/-- An environment whose third variable, a driver for slot 2, has a `$` in its value. -/
def envBadDriver : List Variable :=
  [⟨"DVDI_VOLUME_NAME", "a"⟩, ⟨"DVDI_VOLUME_NAME2", "b"⟩, ⟨"DVDI_VOLUME_DRIVER2", "rex$ray"⟩]

/-- A host whose commands all succeed and whose checkpoint write reports an error. -/
def hostCheckpointFails : Host :=
  { system := fun _ => true
    shell := fun _ => Except.ok "/var/lib/rexray/volumes/x\n"
    checkpoint := fun _ => false }

/-- The record of volume `u` as checkpointed for `w2`. -/
def orphanU : ExternalMount := ⟨"w2", "rexray", "u", "", "/var/lib/rexray/volumes/x"⟩

/-- One volume `volaz` in slot 0. -/
def envVolaz : List Variable := [⟨"DVDI_VOLUME_NAME", "volaz"⟩]

/-- One volume `volb9` in slot 0. -/
def envVolb9 : List Variable := [⟨"DVDI_VOLUME_NAME", "volb9"⟩]

/-- The record of volume `volaz` as mounted for `w1`. -/
def mountedVolaz : ExternalMount := ⟨"w1", "rexray", "volaz", "", "/var/lib/rexray/volumes/x"⟩

/-- The prohibited set as the specification lists it, by character code: percent, slash,
colon, semicolon, NUL, less, greater, bar, backtick, dollar, single quote, question mark,
caret, ampersand, space, opening brace, double quote, closing brace, opening bracket,
closing bracket, newline, tab, vertical tab, backspace, carriage return, backslash. -/
def specProhibited : List Char :=
  [37, 47, 58, 59, 0, 60, 62, 124, 96, 36, 39, 63, 94, 38, 32, 123, 34, 125, 91, 93, 10, 9, 11,
    8, 13, 92].map Char.ofNat

/-- An environment with one clean volume and an options variable, for a slot without a
volume name, that holds two options separated by a space. -/
def envBadOpts : List Variable :=
  [⟨"DVDI_VOLUME_NAME", "a"⟩, ⟨"DVDI_VOLUME_OPTS3", "size=5 iops=100"⟩]

/-- A host with a command processor whose mount command prints a padded mountpoint. -/
def hostPadded : Host :=
  { system := fun _ => true
    shell := fun _ => Except.ok "  /var/lib/rexray/volumes/a \n"
    checkpoint := fun _ => true }

/-- A host with a command processor whose commands all report an error. -/
def hostShellError : Host :=
  { system := fun _ => true
    shell := fun _ => Except.error "exit status 1"
    checkpoint := fun _ => true }

/-- The fields a command line carries are free of prohibited characters: driver, name and
options for a mount, driver and name for an unmount. -/
def CleanCall : Call → Prop
  | Call.mount em =>
    containsProhibitedChars em.volumedriver = false ∧
      containsProhibitedChars em.volumename = false ∧
      containsProhibitedChars em.options = false
  | Call.unmount em =>
    containsProhibitedChars em.volumedriver = false ∧
      containsProhibitedChars em.volumename = false

/-- Every record of the store has a driver and a name free of prohibited characters. -/
def CleanStore (infos : containermountmap) : Prop :=
  ∀ ent ∈ infos, containsProhibitedChars ent.2.volumedriver = false ∧
    containsProhibitedChars ent.2.volumename = false

/-- Every string of the three arrays is free of prohibited characters. -/
def CleanSlots (slots : Slots) : Prop :=
  (∀ s ∈ slots.deviceDriverNames, containsProhibitedChars s = false) ∧
    (∀ s ∈ slots.volumeNames, containsProhibitedChars s = false) ∧
    (∀ s ∈ slots.mountOptions, containsProhibitedChars s = false)

/-- The character of the decimal digit `n`. -/
def digitChar (n : Nat) : Char := Char.ofNat (48 + n)

/-- In the words of the specification: slot 0 of a family is filled by the unsuffixed
variable, slot `N` in 1..9 by the variable with the single digit suffix `N`. -/
def slotVariableName (family : String) (i : Nat) : String :=
  if i = 0 then family else family ++ String.mk [digitChar i]

/-- In the words of the specification: what slot `i` of a family holds after the
environment was read, the value of the last variable that fills it, or the empty string. -/
def referenceSlotValue (vars : List Variable) (family : String) (i : Nat) : String :=
  vars.foldl (fun acc v => if v.name = slotVariableName family i then v.value else acc) ""

/-- In the words of the specification: for the slots 0..9 in ascending order with a
non-empty volume name, the triple of the driver (the default when empty), the name and
the options of the slot. -/
def referenceCandidates (vars : List Variable) : List (String × String × String) :=
  (List.range 10).filterMap (fun i =>
    if referenceSlotValue vars "DVDI_VOLUME_NAME" i = "" then
      none
    else
      some
        (if referenceSlotValue vars "DVDI_VOLUME_DRIVER" i = "" then "rexray"
          else referenceSlotValue vars "DVDI_VOLUME_DRIVER" i,
          referenceSlotValue vars "DVDI_VOLUME_NAME" i,
          referenceSlotValue vars "DVDI_VOLUME_OPTS" i))

/-- The records the loop over the slots builds (cpp 532-550), one for every slot with a
non-empty volume name in ascending order, before the duplicate check of cpp 552-568. -/
def candidateMounts (containerId : ContainerID) (slots : Slots) : List ExternalMount :=
  ((List.range ARRAY_SIZE).filter (fun i => !(slots.volumeNames.getD i "").data.isEmpty)).map
    (slotMount containerId slots)

/-- The three arrays keep their ten entries. -/
def WellSized (slots : Slots) : Prop :=
  slots.deviceDriverNames.length = ARRAY_SIZE ∧ slots.volumeNames.length = ARRAY_SIZE ∧
    slots.mountOptions.length = ARRAY_SIZE

/-- An environment that names slot 0 twice, fills slots 2 and 3, and carries variables
that fill no slot (suffix `0`, a letter suffix, a two-digit suffix). -/
def envMixed : List Variable :=
  [⟨"DVDI_VOLUME_NAME", "old"⟩, ⟨"DVDI_VOLUME_NAME3", "c"⟩, ⟨"DVDI_VOLUME_DRIVER3", "nfs"⟩,
   ⟨"DVDI_VOLUME_NAME0", "zero"⟩, ⟨"DVDI_VOLUME_NAMEx", "letter"⟩,
   ⟨"DVDI_VOLUME_NAME12", "long"⟩, ⟨"DVDI_VOLUME_NAME2", "b"⟩, ⟨"DVDI_VOLUME_OPTS2", "size=5"⟩,
   ⟨"DVDI_VOLUME_NAME", "a"⟩, ⟨"PATH", "/usr/bin"⟩]

/-- The number of records of identity `id` in one of the vectors of a request. -/
def identityCount (l : List ExternalMount) (id : ExternalMountID) : Nat :=
  l.countP (fun m => getExternalMountId m == id)

/-- The number of `mount` invocations for records of identity `id`. -/
def mountCallsOf (calls : List Call) (id : ExternalMountID) : Nat :=
  calls.countP (fun c =>
    match c with
    | Call.mount em => getExternalMountId em == id
    | Call.unmount _ => false)

/-- Volume `V` with an option in slot 0 and the same volume, written `v`, in slot 1. -/
def envDupShared : List Variable :=
  [⟨"DVDI_VOLUME_NAME", "V"⟩, ⟨"DVDI_VOLUME_OPTS", "size=5"⟩, ⟨"DVDI_VOLUME_NAME1", "v"⟩]

/-- The arrays `prepare` fills from `envDupShared`. -/
def slotsDupShared : Slots :=
  { deviceDriverNames := ["", "", "", "", "", "", "", "", "", ""]
    volumeNames := ["V", "v", "", "", "", "", "", "", "", ""]
    mountOptions := ["size=5", "", "", "", "", "", "", "", "", ""] }

/-- One volume named three times, as `V`, `v` and `v`, with three different options. -/
def envTriple : List Variable :=
  [⟨"DVDI_VOLUME_NAME", "V"⟩, ⟨"DVDI_VOLUME_OPTS", "size=1"⟩,
   ⟨"DVDI_VOLUME_NAME1", "v"⟩, ⟨"DVDI_VOLUME_OPTS1", "size=2"⟩,
   ⟨"DVDI_VOLUME_NAME2", "v"⟩, ⟨"DVDI_VOLUME_OPTS2", "size=3"⟩]

/-- The arrays `prepare` fills from `envTriple`. -/
def slotsTriple : Slots :=
  { deviceDriverNames := ["", "", "", "", "", "", "", "", "", ""]
    volumeNames := ["V", "v", "v", "", "", "", "", "", "", ""]
    mountOptions := ["size=1", "size=2", "size=3", "", "", "", "", "", "", ""] }

/-- The keys of `originalContainerMounts` whose `Owned` pointer is copied into `infos` by
no iteration of cpp 249-269, their container not being listed in `states`. When `recover`
leaves, its local maps are destroyed, and an `Owned` of which no copy is left deletes its
pointer: here the address of the loop-local `mount`, an object on the stack that was
destroyed before. -/
def releasedPointers (mountlist : List ExternalMount) (states : List ContainerID) :
    List String :=
  ((originalContainerMounts mountlist).map Prod.fst).filter
    (fun key => !states.any (fun state => state.value == key))

/-! ## Theorems -/

theorem isEmpty_data_iff (s : String) : s.data.isEmpty = true ↔ s = "" := by
  cases s with
  | mk l => cases l <;> simp [String.ext_iff]

/-- C1 (code defect): with volumes `a`, `b`, `c` requested on the empty store, `a` and `b`
mounted and the mount of `c` failing, `prepare` fails after invoking `unmount` for the
record of `a` only; the successfully mounted record of `b` is never unmounted. -/
theorem C1_revert_leaves_second_mount :
    (prepare hostFailingOnC [] w1 (some envABC)).calls =
        [Call.mount reqA, Call.mount reqB, Call.mount reqC, Call.unmount mountedA] ∧
      mount hostFailingOnC reqA ≠ "" ∧ mount hostFailingOnC reqB ≠ "" ∧
      mount hostFailingOnC reqC = "" ∧
      unmount hostFailingOnC mountedA = true ∧
      Call.unmount mountedB ∉ (prepare hostFailingOnC [] w1 (some envABC)).calls ∧
      (prepare hostFailingOnC [] w1 (some envABC)).future =
        Future.failed "prepare() failed during mount attempt" := by
  decide!

/-- The revert loop invokes `unmount` once and leaves when that first `unmount` returns
`true`, however many mounts were made. -/
theorem revertMounts_of_first_true (host : Host) (unmountme : ExternalMount)
    (rest : List ExternalMount) (h : unmount host unmountme = true) :
    revertMounts host (unmountme :: rest) = [Call.unmount unmountme] := by
  rw [revertMounts, if_pos h]

/-- A failing mount ends the mount loop with the early failure. -/
theorem mountLoop_none_of_failed (host : Host) (containerId : ContainerID)
    (l : List ExternalMount) (em : ExternalMount) (hfail : mount host em = "") :
    ∀ successful, Call.mount em ∈ (mountLoop host containerId l successful).2 →
      (mountLoop host containerId l successful).1 = none := by
  induction l with
  | nil => intro successful h; simp [mountLoop] at h
  | cons iter rest ih =>
    intro successful h
    by_cases hm : (mount host iter).data.isEmpty = true
    · simp [mountLoop, hm]
    · simp only [mountLoop, hm] at h ⊢
      simp only [Bool.not_false, if_true, List.mem_cons, Call.mount.injEq] at h ⊢
      rcases h with h | h
      · subst h
        exact absurd ((isEmpty_data_iff _).2 hfail) hm
      · exact ih _ h

/-- C2: if a mount attempted during `prepare` returns the empty mountpoint, `prepare`
returns the failure, the store is the one before the call and no checkpoint is
written. -/
theorem C2_prepare_all_or_nothing (host : Host) (infos : containermountmap)
    (containerId : ContainerID) (environment : Option (List Variable)) (em : ExternalMount)
    (hcall : Call.mount em ∈ (prepare host infos containerId environment).calls)
    (hfail : mount host em = "") :
    (prepare host infos containerId environment).future =
        Future.failed "prepare() failed during mount attempt" ∧
      (prepare host infos containerId environment).infos = infos ∧
      (prepare host infos containerId environment).checkpointed = none := by
  cases environment with
  | none => simp [prepare] at hcall
  | some vars =>
    unfold prepare at hcall ⊢
    cases hp : parseVariables vars emptySlots with
    | none => simp [hp] at hcall
    | some slots =>
      simp only [hp] at hcall ⊢
      have hnone := mountLoop_none_of_failed host containerId
        (buildRequests infos containerId slots).unconnectedExternalMounts em hfail []
      cases hm : mountLoop host containerId
          (buildRequests infos containerId slots).unconnectedExternalMounts [] with
      | mk res calls =>
        rw [hm] at hcall hnone
        cases res with
        | none => simp
        | some successful =>
          simp only at hcall
          simpa using hnone hcall

theorem C2_prepare_all_or_nothing_witness :
    Call.mount reqC ∈ (prepare hostFailingOnC [] w1 (some envAC)).calls ∧
      mount hostFailingOnC reqC = "" ∧
      (prepare hostFailingOnC [] w1 (some envAC)).future =
        Future.failed "prepare() failed during mount attempt" ∧
      (prepare hostFailingOnC [] w1 (some envAC)).infos = [] ∧
      (prepare hostFailingOnC [] w1 (some envAC)).checkpointed = none :=
  ⟨by decide!, by decide!,
    C2_prepare_all_or_nothing hostFailingOnC [] w1 (some envAC) reqC (by decide!) (by decide!)⟩

/-- A hard-failing unmount ends the loop of `cleanup` with the early failure. -/
theorem unmountLoop_false_of_failed (host : Host) (infos : containermountmap)
    (em : ExternalMount) (hfail : unmount host em = false) :
    ∀ l, Call.unmount em ∈ (unmountLoop host infos l).2 → (unmountLoop host infos l).1 = false := by
  intro l
  induction l with
  | nil => intro h; simp [unmountLoop] at h
  | cons iter rest ih =>
    intro h
    unfold unmountLoop at h ⊢
    by_cases hc : countUsers iter infos 0 = 1
    · by_cases hu : unmount host iter = true
      · simp only [hc, hu, if_true, Bool.not_true, Bool.false_eq_true, if_false, List.mem_cons,
          Call.unmount.injEq] at h ⊢
        rcases h with h | h
        · subst h; simp [hfail] at hu
        · simpa using ih h
      · simp [hc, hu]
    · simp only [hc, if_false] at h ⊢
      exact ih h

/-- C10: if an `unmount` invoked by `cleanup` reports the hard failure, `cleanup` returns
the failure, the store is the one before the call and no checkpoint is written. -/
theorem C10_cleanup_hard_failure (host : Host) (infos : containermountmap)
    (containerId : ContainerID) (em : ExternalMount)
    (hcall : Call.unmount em ∈ (cleanup host infos containerId).calls)
    (hfail : unmount host em = false) :
    (cleanup host infos containerId).future =
        Future.failed "cleanup() failed during unmount attempt" ∧
      (cleanup host infos containerId).infos = infos ∧
      (cleanup host infos containerId).checkpointed = none := by
  unfold cleanup at hcall ⊢
  by_cases hc : infos.any (fun ent => ent.1 == containerId) = true
  · simp only [hc, Bool.not_true] at hcall ⊢
    have hl := unmountLoop_false_of_failed host infos em hfail (mountsOf infos containerId)
    cases hm : unmountLoop host infos (mountsOf infos containerId) with
    | mk ok calls =>
      rw [hm] at hcall hl
      cases ok with
      | false => simp
      | true =>
        simp only [Bool.false_eq_true, if_false] at hcall
        simpa using hl hcall
  · simp [hc] at hcall

theorem C10_cleanup_hard_failure_witness :
    Call.unmount mountedA ∈ (cleanup hostNoShell storeAB w1).calls ∧
      unmount hostNoShell mountedA = false ∧
      (cleanup hostNoShell storeAB w1).future =
        Future.failed "cleanup() failed during unmount attempt" ∧
      (cleanup hostNoShell storeAB w1).infos = storeAB ∧
      (cleanup hostNoShell storeAB w1).checkpointed = none :=
  ⟨by decide!, by decide!,
    C10_cleanup_hard_failure hostNoShell storeAB w1 mountedA (by decide!) (by decide!)⟩

/-- C4 (code defect): `w1` prepares `v`, `w2` prepares the same `v`, `w1` is cleaned up;
all three calls succeed and leave `w2` holding `v`. Loading the checkpoint of the last
call with `w2` alive unmounts `v` and rebuilds an empty store: the shared record still
names `w1` as its container. -/
theorem C4_restart_loses_shared_entry :
    (prepare hostAllOk [] w1 (some envV)).future = Future.ready none ∧
      (prepare hostAllOk storeV1 w2 (some envV)).future = Future.ready none ∧
      (cleanup hostAllOk storeV12 w1).future = Future.ready () ∧
      (cleanup hostAllOk storeV12 w1).infos = [(w2, mountedV)] ∧
      (cleanup hostAllOk storeV12 w1).checkpointed = some [mountedV] ∧
      (recover hostAllOk [] 0 (MountFile.parsed [mountedV]) [w2]).calls =
        [Call.unmount mountedV] ∧
      (recover hostAllOk [] 0 (MountFile.parsed [mountedV]) [w2]).infos = [] := by
  decide!

/-- C5 (code defect): after the failed `prepare` of `a`, `b`, `c` on the empty store
(`c` does not mount), the identity of `b` is mounted in the model although the store
holds no entry at all. -/
theorem C5_mounted_without_entry :
    (prepare hostFailingOnC [] w1 (some envABC)).infos = [] ∧
      getExternalMountId reqB ∈
        mountedAfter hostFailingOnC (prepare hostFailingOnC [] w1 (some envABC)).calls [] ∧
      referenceCount (prepare hostFailingOnC [] w1 (some envABC)).infos
        (getExternalMountId reqB) = 0 := by
  decide!

/-- C9 (code defect): with `w1` and `w2` alive and each owning a record of `v` in the
loaded checkpoint, `recover` rebuilds a store of two entries (both read the record parsed
last) and checkpoints one record; the same happens when the two entries both come back
under `w1`. -/
theorem C9_recover_checkpoint_drops_shared :
    (recover hostAllOk [] 0 (MountFile.parsed checkpointTwoOwners) [w1, w2]).infos =
        [(w1, ⟨"w2", "rexray", "v", "", "/var/lib/rexray/volumes/x"⟩),
         (w2, ⟨"w2", "rexray", "v", "", "/var/lib/rexray/volumes/x"⟩)] ∧
      (recover hostAllOk [] 0 (MountFile.parsed checkpointTwoOwners) [w1, w2]).checkpointed =
        some [⟨"w2", "rexray", "v", "", "/var/lib/rexray/volumes/x"⟩] ∧
      (recover hostAllOk [] 0 (MountFile.parsed [mountedV, mountedV]) [w1, w2]).infos =
        [(w1, mountedV), (w1, mountedV)] ∧
      (recover hostAllOk [] 0 (MountFile.parsed [mountedV, mountedV]) [w1, w2]).checkpointed =
        some [mountedV] := by
  decide!

theorem referenceCount_cons (elem : ContainerID × ExternalMount) (rest : containermountmap)
    (id : ExternalMountID) :
    referenceCount (elem :: rest) id =
      referenceCount rest id + (if getExternalMountId elem.2 = id then 1 else 0) := by
  simp only [referenceCount, List.countP_cons, beq_iff_eq]

/-- The counting loop of `cleanup` computes the reference count, capped at 2. -/
theorem countUsers_eq (iter : ExternalMount) (infos : containermountmap) :
    ∀ n, n ≤ 1 →
      countUsers iter infos n = min (n + referenceCount infos (getExternalMountId iter)) 2 := by
  induction infos with
  | nil =>
    intro n hn
    simp only [countUsers, referenceCount, List.countP_nil]
    omega
  | cons elem rest ih =>
    intro n hn
    rw [countUsers, referenceCount_cons]
    by_cases hid : getExternalMountId elem.2 = getExternalMountId iter
    · rw [if_pos hid, if_pos (by rw [hid]; exact beq_self_eq_true _)]
      by_cases h1 : n + 1 > 1
      · rw [if_pos h1]; omega
      · rw [if_neg h1, ih (n + 1) (by omega)]; omega
    · rw [if_neg hid, if_neg (by rw [beq_iff_eq]; exact fun h => hid h.symm)]
      exact ih n hn

theorem countUsers_one_iff (iter : ExternalMount) (infos : containermountmap) :
    countUsers iter infos 0 = 1 ↔ referenceCount infos (getExternalMountId iter) = 1 := by
  rw [countUsers_eq iter infos 0 (by omega)]
  omega

/-- Every `unmount` of the loop of `cleanup` is for a listed record counted once. -/
theorem unmountLoop_calls (host : Host) (infos : containermountmap) (c : Call) :
    ∀ l, c ∈ (unmountLoop host infos l).2 →
      ∃ em, c = Call.unmount em ∧ em ∈ l ∧ countUsers em infos 0 = 1 := by
  intro l
  induction l with
  | nil => intro h; simp [unmountLoop] at h
  | cons iter rest ih =>
    intro h
    unfold unmountLoop at h
    by_cases hc : countUsers iter infos 0 = 1
    · by_cases hu : unmount host iter = true
      · simp only [hc, hu, if_true, Bool.not_true, Bool.false_eq_true, if_false,
          List.mem_cons] at h
        rcases h with h | h
        · exact ⟨iter, h, List.mem_cons_self _ _, hc⟩
        · obtain ⟨em, h1, h2, h3⟩ := ih h
          exact ⟨em, h1, List.mem_cons_of_mem _ h2, h3⟩
      · simp only [hc, hu, if_true, Bool.not_false, List.mem_singleton] at h
        exact ⟨iter, h, List.mem_cons_self _ _, hc⟩
    · simp only [hc, if_false] at h
      obtain ⟨em, h1, h2, h3⟩ := ih h
      exact ⟨em, h1, List.mem_cons_of_mem _ h2, h3⟩

/-- A loop of `cleanup` that runs to its end unmounted every listed record counted once. -/
theorem unmountLoop_complete (host : Host) (infos : containermountmap) (em : ExternalMount)
    (hcount : countUsers em infos 0 = 1) :
    ∀ l, (unmountLoop host infos l).1 = true → em ∈ l →
      Call.unmount em ∈ (unmountLoop host infos l).2 := by
  intro l
  induction l with
  | nil => intro _ h; simp at h
  | cons iter rest ih =>
    intro hok hmem
    unfold unmountLoop at hok ⊢
    by_cases hc : countUsers iter infos 0 = 1
    · by_cases hu : unmount host iter = true
      · simp only [hc, hu, if_true, Bool.not_true, Bool.false_eq_true, if_false,
          List.mem_cons, Call.unmount.injEq] at hok ⊢
        rcases List.mem_cons.1 hmem with h | h
        · exact Or.inl h
        · exact Or.inr (ih hok h)
      · simp [hc, hu] at hok
    · simp only [hc, if_false] at hok ⊢
      rcases List.mem_cons.1 hmem with h | h
      · subst h; exact absurd hcount hc
      · exact ih hok h

theorem mem_mountsOf (infos : containermountmap) (containerId : ContainerID)
    (em : ExternalMount) : em ∈ mountsOf infos containerId ↔ (containerId, em) ∈ infos := by
  unfold mountsOf
  constructor
  · intro h
    obtain ⟨ent, hent, rfl⟩ := List.mem_map.1 h
    obtain ⟨hin, hkey⟩ := List.mem_filter.1 hent
    have hk : ent.1 = containerId := by simpa using hkey
    rw [← hk]
    exact hin
  · intro h
    exact List.mem_map.2 ⟨(containerId, em), List.mem_filter.2 ⟨h, by simp⟩, rfl⟩

theorem any_of_mem_mountsOf (infos : containermountmap) (containerId : ContainerID)
    (em : ExternalMount) (h : em ∈ mountsOf infos containerId) :
    infos.any (fun ent => ent.1 == containerId) = true := by
  rw [List.any_eq_true]
  exact ⟨(containerId, em), (mem_mountsOf infos containerId em).1 h, by simp⟩

/-- The calls of `cleanup` are the calls of its loop over the records of the workload. -/
theorem cleanup_calls (host : Host) (infos : containermountmap) (containerId : ContainerID)
    (hany : infos.any (fun ent => ent.1 == containerId) = true) :
    (cleanup host infos containerId).calls =
        (unmountLoop host infos (mountsOf infos containerId)).2 ∧
      ((cleanup host infos containerId).future = Future.ready () ↔
        (unmountLoop host infos (mountsOf infos containerId)).1 = true) := by
  unfold cleanup
  simp only [hany, Bool.not_true, Bool.false_eq_true, if_false]
  cases hm : unmountLoop host infos (mountsOf infos containerId) with
  | mk ok calls =>
    cases ok with
    | false => simp
    | true => simp

/-- C6 (amended): for a record held by the workload, `cleanup` invokes `unmount` for it
only if its identity has exactly one entry in the whole store, and, when `cleanup` does
not end on a hard unmount failure, if and only if so; every invocation made is an
`unmount` of a record held by the workload. -/
theorem C6_cleanup_unmount_decision (host : Host) (infos : containermountmap)
    (containerId : ContainerID) (em : ExternalMount)
    (hheld : em ∈ mountsOf infos containerId) :
    (Call.unmount em ∈ (cleanup host infos containerId).calls →
        referenceCount infos (getExternalMountId em) = 1) ∧
      ((cleanup host infos containerId).future = Future.ready () →
        (Call.unmount em ∈ (cleanup host infos containerId).calls ↔
          referenceCount infos (getExternalMountId em) = 1)) ∧
      (∀ c ∈ (cleanup host infos containerId).calls,
        ∃ held, c = Call.unmount held ∧ held ∈ mountsOf infos containerId) := by
  obtain ⟨hcalls, hfut⟩ :=
    cleanup_calls host infos containerId (any_of_mem_mountsOf infos containerId em hheld)
  rw [hcalls, hfut]
  have honly : Call.unmount em ∈ (unmountLoop host infos (mountsOf infos containerId)).2 →
      referenceCount infos (getExternalMountId em) = 1 := by
    intro h
    obtain ⟨em1, h1, _, h3⟩ := unmountLoop_calls host infos _ _ h
    cases h1
    exact (countUsers_one_iff em infos).1 h3
  refine ⟨honly, ?_, ?_⟩
  · intro hok
    exact ⟨honly, fun hcount => unmountLoop_complete host infos em
      ((countUsers_one_iff em infos).2 hcount) _ hok hheld⟩
  · intro c hc
    obtain ⟨em1, h1, h2, _⟩ := unmountLoop_calls host infos _ _ hc
    exact ⟨em1, h1, h2⟩

theorem C6_cleanup_unmount_decision_witness :
    mountedA ∈ mountsOf storeAB w1 ∧
      (Call.unmount mountedA ∈ (cleanup hostAllOk storeAB w1).calls →
        referenceCount storeAB (getExternalMountId mountedA) = 1) ∧
      ((cleanup hostAllOk storeAB w1).future = Future.ready () →
        (Call.unmount mountedA ∈ (cleanup hostAllOk storeAB w1).calls ↔
          referenceCount storeAB (getExternalMountId mountedA) = 1)) ∧
      (∀ c ∈ (cleanup hostAllOk storeAB w1).calls,
        ∃ held, c = Call.unmount held ∧ held ∈ mountsOf storeAB w1) :=
  ⟨by decide!, C6_cleanup_unmount_decision hostAllOk storeAB w1 mountedA (by decide!)⟩

/-- C6 (as stated, refuted): without a command processor `cleanup` of `w1`, which holds
the unshared `a` and `b`, stops at the first hard failure: `b` is held by `w1` and has
exactly one entry in the store, yet `unmount` is not invoked for it. -/
theorem C6_counterexample :
    mountedB ∈ mountsOf storeAB w1 ∧
      referenceCount storeAB (getExternalMountId mountedB) = 1 ∧
      Call.unmount mountedB ∉ (cleanup hostNoShell storeAB w1).calls ∧
      (cleanup hostNoShell storeAB w1).calls = [Call.unmount mountedA] := by
  decide!

/-! ### recover: the rebuilt store -/

theorem reattach_fst (state : ContainerID) :
    ∀ (l : List ExternalMount) (acc : containermountmap × externalmountmap),
      (reattach state l acc).1 = acc.1 ++ l.map (fun m => (state, m)) := by
  intro l
  induction l with
  | nil => intro acc; simp [reattach]
  | cons iter rest ih =>
    intro acc
    rw [reattach, ih]
    simp

theorem recover_parsed_infos (host : Host) (infos : containermountmap)
    (mountlist : List ExternalMount) (states : List ContainerID) :
    (recover host infos 0 (MountFile.parsed mountlist) states).infos =
      (recoverStates (originalContainerMounts mountlist) states (infos, [])).1 := by
  unfold recover
  simp only [ne_eq, not_true_eq_false, if_false]
  split <;> rfl

/-! ### recover: the two identity-keyed maps -/

theorem mem_keys_erase (m : externalmountmap) (id k : ExternalMountID) :
    k ∈ (m.erase id).map Prod.fst ↔ k ≠ id ∧ k ∈ m.map Prod.fst := by
  unfold externalmountmap.erase
  simp only [List.mem_map, List.mem_filter, bne_iff_ne, ne_eq]
  constructor
  · rintro ⟨ent, ⟨hin, hne⟩, rfl⟩
    exact ⟨hne, ent, hin, rfl⟩
  · rintro ⟨hne, ent, hin, rfl⟩
    exact ⟨ent, ⟨hin, hne⟩, rfl⟩

theorem mem_keys_put (m : externalmountmap) (id k : ExternalMountID) (em : ExternalMount) :
    k ∈ (m.put id em).map Prod.fst ↔ k = id ∨ k ∈ m.map Prod.fst := by
  unfold externalmountmap.put
  rw [List.map_append, List.mem_append, mem_keys_erase]
  simp only [List.map_cons, List.map_nil, List.mem_singleton]
  constructor
  · rintro (⟨_, h⟩ | h)
    · exact Or.inr h
    · exact Or.inl h
  · rintro (h | h)
    · exact Or.inr h
    · by_cases hk : k = id
      · exact Or.inr hk
      · exact Or.inl ⟨hk, h⟩

theorem keyedById_erase (m : externalmountmap) (id : ExternalMountID) (h : KeyedById m) :
    KeyedById (m.erase id) := by
  constructor
  · exact List.Nodup.sublist (List.Sublist.map _ (List.filter_sublist _)) h.1
  · intro ent hent
    exact h.2 ent (List.mem_filter.1 hent).1

theorem keyedById_put (m : externalmountmap) (em : ExternalMount) (h : KeyedById m) :
    KeyedById (m.put (getExternalMountId em) em) := by
  have he := keyedById_erase m (getExternalMountId em) h
  constructor
  · unfold externalmountmap.put
    rw [List.map_append, List.nodup_append]
    refine ⟨he.1, List.nodup_singleton _, ?_⟩
    intro k hk1 hk2
    rw [List.map_cons, List.map_nil, List.mem_singleton] at hk2
    exact ((mem_keys_erase m _ k).1 hk1).1 hk2
  · intro ent hent
    unfold externalmountmap.put at hent
    rcases List.mem_append.1 hent with h1 | h1
    · exact he.2 ent h1
    · rw [List.mem_singleton] at h1
      rw [h1]

/-- The keys of `legacyMounts` are the identities of the kept records. -/
theorem legacy_fold (original : List (String × ExternalMount)) :
    ∀ m : externalmountmap, KeyedById m →
      KeyedById (original.foldl (fun legacyMounts elem =>
          legacyMounts.put (getExternalMountId elem.2) elem.2) m) ∧
        ∀ k, k ∈ (original.foldl (fun legacyMounts elem =>
            legacyMounts.put (getExternalMountId elem.2) elem.2) m).map Prod.fst ↔
          (k ∈ m.map Prod.fst ∨ ∃ elem ∈ original, getExternalMountId elem.2 = k) := by
  induction original with
  | nil => intro m hm; exact ⟨hm, fun k => by simp⟩
  | cons elem rest ih =>
    intro m hm
    obtain ⟨h1, h2⟩ := ih _ (keyedById_put m elem.2 hm)
    rw [List.foldl_cons]
    refine ⟨h1, fun k => ?_⟩
    rw [h2 k, mem_keys_put]
    constructor
    · rintro ((h | h) | ⟨e, he, hk⟩)
      · exact Or.inr ⟨elem, List.mem_cons_self _ _, h.symm⟩
      · exact Or.inl h
      · exact Or.inr ⟨e, List.mem_cons_of_mem _ he, hk⟩
    · rintro (h | ⟨e, he, hk⟩)
      · exact Or.inl (Or.inr h)
      · rcases List.mem_cons.1 he with h | h
        · subst h; exact Or.inl (Or.inl hk.symm)
        · exact Or.inr ⟨e, h, hk⟩

theorem countP_key_erase (m : externalmountmap) (id k : ExternalMountID) :
    (m.erase k).countP (fun ent => ent.1 == id) =
      if id = k then 0 else m.countP (fun ent => ent.1 == id) := by
  unfold externalmountmap.erase
  induction m with
  | nil => simp
  | cons ent rest ih =>
    by_cases hk : ent.1 = k
    · have hb : (ent.1 != k) = false := by simpa using hk
      rw [List.filter_cons, hb, if_neg (by simp), ih, List.countP_cons]
      by_cases hid : id = k
      · rw [if_pos hid, if_pos hid]
      · have hne : (ent.1 == id) = false := by
          rw [beq_eq_false_iff_ne, hk]; exact fun h => hid h.symm
        rw [if_neg hid, if_neg hid, hne, if_neg (by simp), Nat.add_zero]
    · have hb : (ent.1 != k) = true := by simpa using hk
      rw [List.filter_cons, hb, if_pos rfl, List.countP_cons, ih, List.countP_cons]
      by_cases hid : id = k
      · have hne : (ent.1 == id) = false := by
          rw [beq_eq_false_iff_ne, hid]; exact hk
        rw [if_pos hid, if_pos hid, hne, if_neg (by simp)]
      · rw [if_neg hid, if_neg hid]

/-- After the loop that erases the keys in use, a key is left as often as before if it
is not in use and not at all if it is. -/
theorem countP_key_eraseInUse (inUseMounts : externalmountmap) (id : ExternalMountID) :
    ∀ legacyMounts : externalmountmap,
      (eraseInUse legacyMounts inUseMounts).countP (fun ent => ent.1 == id) =
        if id ∈ inUseMounts.map Prod.fst then 0
        else legacyMounts.countP (fun ent => ent.1 == id) := by
  unfold eraseInUse
  induction inUseMounts with
  | nil => intro legacyMounts; simp
  | cons iter rest ih =>
    intro legacyMounts
    rw [List.foldl_cons, ih, countP_key_erase, List.map_cons]
    by_cases h1 : id ∈ rest.map Prod.fst
    · rw [if_pos h1, if_pos (List.mem_cons_of_mem _ h1)]
    · by_cases h2 : id = iter.1
      · rw [if_neg h1, if_pos h2, if_pos (h2 ▸ List.mem_cons_self _ _)]
      · have h3 : id ∉ iter.1 :: rest.map Prod.fst := by
          intro h
          rcases List.mem_cons.1 h with h | h
          · exact h2 h
          · exact h1 h
        rw [if_neg h1, if_neg h2, if_neg h3]

theorem eraseInUse_subset (inUseMounts : externalmountmap) :
    ∀ (legacyMounts : externalmountmap) (ent : ExternalMountID × ExternalMount),
      ent ∈ eraseInUse legacyMounts inUseMounts → ent ∈ legacyMounts := by
  unfold eraseInUse
  induction inUseMounts with
  | nil => intro legacyMounts ent h; exact h
  | cons iter rest ih =>
    intro legacyMounts ent h
    rw [List.foldl_cons] at h
    exact (List.mem_filter.1 (ih _ ent h)).1

theorem unmount_of_system (host : Host) (em : ExternalMount) (h : host.system em = true) :
    unmount host em = true := by
  unfold unmount
  rw [if_pos h]
  split <;> rfl

theorem recover_parsed_calls (host : Host) (infos : containermountmap)
    (mountlist : List ExternalMount) (states : List ContainerID) :
    (recover host infos 0 (MountFile.parsed mountlist) states).calls =
      (unmountOrphans host ((eraseInUse (legacyMountsOf (originalContainerMounts mountlist))
        (recoverStates (originalContainerMounts mountlist) states (infos, [])).2).map
          Prod.snd)).2 := by
  unfold recover
  simp only [ne_eq, not_true_eq_false, if_false]
  split <;> (rename_i h; rw [h])

/-! ### prepare: the three vectors -/

/-- The identity only reads the lowered driver and the lowered name. -/
theorem getExternalMountId_congr (a b : ExternalMount)
    (hd : to_lower_copy a.volumedriver = to_lower_copy b.volumedriver)
    (hn : to_lower_copy a.volumename = to_lower_copy b.volumename) :
    getExternalMountId a = getExternalMountId b := by
  unfold getExternalMountId
  rw [hd, hn]

theorem getExternalMountId_newmount (containerId : ContainerID) (iter : ExternalMount)
    (mountpoint : String) :
    getExternalMountId (newmount containerId iter mountpoint) = getExternalMountId iter :=
  getExternalMountId_congr _ _ rfl rfl

theorem requestsOk_empty (infos : containermountmap) : RequestsOk infos ⟨[], [], []⟩ :=
  { prev_in := fun m h => absurd h (List.not_mem_nil m)
    unc_fresh := fun m h => absurd h (List.not_mem_nil m)
    unc_req := fun m h => absurd h (List.not_mem_nil m)
    unc_inj := fun a h => absurd h (List.not_mem_nil a)
    req_cov := fun m h => absurd h (List.not_mem_nil m) }

theorem requestStep_ok (infos : containermountmap) (containerId : ContainerID) (slots : Slots)
    (acc : Requests) (i : Nat) (h : RequestsOk infos acc) :
    RequestsOk infos (requestStep infos containerId slots acc i) := by
  unfold requestStep
  split
  · exact h
  · simp only []
    split
    · exact h
    · rename_i hdup
      have hnew : ∀ ent ∈ acc.requestedExternalMounts,
          getExternalMountId ent ≠ getExternalMountId (slotMount containerId slots i) := by
        intro ent hent heq
        apply hdup
        rw [List.any_eq_true]
        exact ⟨ent, hent, by rw [heq]; exact beq_self_eq_true _⟩
      split
      · rename_i ent hfind
        have hin : ent ∈ infos := List.mem_of_find?_eq_some hfind
        have hid : getExternalMountId ent.2 =
            getExternalMountId (slotMount containerId slots i) := by
          have := List.find?_some hfind
          exact beq_iff_eq.1 this
        exact
          { prev_in := by
              intro m hm
              rcases List.mem_append.1 hm with h1 | h1
              · exact h.prev_in m h1
              · rw [List.mem_singleton] at h1
                subst h1
                exact ⟨ent.1, hin⟩
            unc_fresh := h.unc_fresh
            unc_req := fun m hm => List.mem_append_left _ (h.unc_req m hm)
            unc_inj := h.unc_inj
            req_cov := by
              intro m hm
              rcases List.mem_append.1 hm with h1 | h1
              · rcases h.req_cov m h1 with h2 | ⟨r, hr, hrid⟩
                · exact Or.inl h2
                · exact Or.inr ⟨r, List.mem_append_left _ hr, hrid⟩
              · rw [List.mem_singleton] at h1
                subst h1
                exact Or.inr ⟨ent.2, List.mem_append_right _ (List.mem_singleton.2 rfl), hid⟩ }
      · rename_i hfind
        have hfresh : ∀ ent ∈ infos,
            getExternalMountId ent.2 ≠ getExternalMountId (slotMount containerId slots i) := by
          intro ent hent heq
          have := List.find?_eq_none.1 hfind ent hent
          exact this (by rw [heq]; exact beq_self_eq_true _)
        exact
          { prev_in := h.prev_in
            unc_fresh := by
              intro m hm
              rcases List.mem_append.1 hm with h1 | h1
              · exact h.unc_fresh m h1
              · rw [List.mem_singleton] at h1
                subst h1
                exact hfresh
            unc_req := by
              intro m hm
              rcases List.mem_append.1 hm with h1 | h1
              · exact List.mem_append_left _ (h.unc_req m h1)
              · exact List.mem_append_right _ h1
            unc_inj := by
              intro a ha b hb hab
              rcases List.mem_append.1 ha with h1 | h1
              · rcases List.mem_append.1 hb with h2 | h2
                · exact h.unc_inj a h1 b h2 hab
                · rw [List.mem_singleton] at h2
                  subst h2
                  exact absurd hab (hnew a (h.unc_req a h1))
              · rcases List.mem_append.1 hb with h2 | h2
                · rw [List.mem_singleton] at h1
                  subst h1
                  exact absurd hab.symm (hnew b (h.unc_req b h2))
                · rw [List.mem_singleton] at h1 h2
                  rw [h1, h2]
            req_cov := by
              intro m hm
              rcases List.mem_append.1 hm with h1 | h1
              · rcases h.req_cov m h1 with h2 | h2
                · exact Or.inl (List.mem_append_left _ h2)
                · exact Or.inr h2
              · exact Or.inl (List.mem_append_right _ h1) }

theorem requestStep_mono (infos : containermountmap) (containerId : ContainerID) (slots : Slots)
    (acc : Requests) (i : Nat) (m : ExternalMount) (hm : m ∈ acc.requestedExternalMounts) :
    m ∈ (requestStep infos containerId slots acc i).requestedExternalMounts := by
  unfold requestStep
  split
  · exact hm
  · simp only []
    split
    · exact hm
    · split <;> exact List.mem_append_left _ hm

/-- A slot with a volume name has its identity among the requested records after its
step. -/
theorem requestStep_requested (infos : containermountmap) (containerId : ContainerID)
    (slots : Slots) (acc : Requests) (i : Nat) (hname : slots.volumeNames.getD i "" ≠ "") :
    ∃ m ∈ (requestStep infos containerId slots acc i).requestedExternalMounts,
      getExternalMountId m = getExternalMountId (slotMount containerId slots i) := by
  unfold requestStep
  have hne : ¬ (slots.volumeNames.getD i "").data.isEmpty = true :=
    fun h => hname ((isEmpty_data_iff _).1 h)
  rw [if_neg hne]
  simp only []
  split
  · rename_i hdup
    obtain ⟨ent, hent, heq⟩ := List.any_eq_true.1 hdup
    exact ⟨ent, hent, beq_iff_eq.1 heq⟩
  · split <;> exact ⟨_, List.mem_append_right _ (List.mem_singleton.2 rfl), rfl⟩

theorem foldl_requestStep_ok (infos : containermountmap) (containerId : ContainerID)
    (slots : Slots) :
    ∀ (l : List Nat) (acc : Requests), RequestsOk infos acc →
      RequestsOk infos (l.foldl (requestStep infos containerId slots) acc) := by
  intro l
  induction l with
  | nil => intro acc h; exact h
  | cons i rest ih =>
    intro acc h
    exact ih _ (requestStep_ok infos containerId slots acc i h)

theorem foldl_requestStep_mono (infos : containermountmap) (containerId : ContainerID)
    (slots : Slots) (m : ExternalMount) :
    ∀ (l : List Nat) (acc : Requests), m ∈ acc.requestedExternalMounts →
      m ∈ (l.foldl (requestStep infos containerId slots) acc).requestedExternalMounts := by
  intro l
  induction l with
  | nil => intro acc h; exact h
  | cons i rest ih =>
    intro acc h
    exact ih _ (requestStep_mono infos containerId slots acc i m h)

theorem foldl_requestStep_requested (infos : containermountmap) (containerId : ContainerID)
    (slots : Slots) (i : Nat) (hname : slots.volumeNames.getD i "" ≠ "") :
    ∀ (l : List Nat) (acc : Requests), i ∈ l →
      ∃ m ∈ (l.foldl (requestStep infos containerId slots) acc).requestedExternalMounts,
        getExternalMountId m = getExternalMountId (slotMount containerId slots i) := by
  intro l
  induction l with
  | nil => intro acc h; simp at h
  | cons j rest ih =>
    intro acc h
    rw [List.foldl_cons]
    rcases List.mem_cons.1 h with h1 | h1
    · subst h1
      obtain ⟨m, hm, hid⟩ := requestStep_requested infos containerId slots acc i hname
      exact ⟨m, foldl_requestStep_mono infos containerId slots m rest _ hm, hid⟩
    · exact ih _ h1

theorem buildRequests_ok (infos : containermountmap) (containerId : ContainerID)
    (slots : Slots) : RequestsOk infos (buildRequests infos containerId slots) :=
  foldl_requestStep_ok infos containerId slots _ _ (requestsOk_empty infos)

/-! ### prepare: the mount loop -/

theorem mountLoop_calls_mem (host : Host) (containerId : ContainerID) (em : ExternalMount) :
    ∀ (l successful : List ExternalMount),
      Call.mount em ∈ (mountLoop host containerId l successful).2 → em ∈ l := by
  intro l
  induction l with
  | nil => intro successful h; simp [mountLoop] at h
  | cons iter rest ih =>
    intro successful h
    unfold mountLoop at h
    simp only [] at h
    split at h
    · rcases List.mem_cons.1 h with h1 | h1
      · cases h1; exact List.mem_cons_self _ _
      · exact List.mem_cons_of_mem _ (ih _ h1)
    · rcases List.mem_cons.1 h with h1 | h1
      · cases h1; exact List.mem_cons_self _ _
      · exfalso
        clear ih h
        induction successful with
        | nil => simp [revertMounts] at h1
        | cons u us ihu =>
          unfold revertMounts at h1
          split at h1
          · simp at h1
          · rcases List.mem_cons.1 h1 with h2 | h2
            · cases h2
            · exact ihu h2

/-- A mount loop that meets no failing mount ends with every record mounted. -/
theorem mountLoop_some (host : Host) (containerId : ContainerID) :
    ∀ (l successful : List ExternalMount),
      (∀ em, Call.mount em ∈ (mountLoop host containerId l successful).2 → mount host em ≠ "") →
        (mountLoop host containerId l successful).1 =
          some (successful ++ l.map (fun m => newmount containerId m (mount host m))) := by
  intro l
  induction l with
  | nil => intro successful _; simp [mountLoop]
  | cons iter rest ih =>
    intro successful h
    unfold mountLoop at h ⊢
    simp only [] at h ⊢
    by_cases hm : (mount host iter).data.isEmpty = true
    · exact absurd ((isEmpty_data_iff _).1 hm)
        (h iter (by rw [hm]; exact List.mem_cons_self _ _))
    · have hm1 : (mount host iter).data.isEmpty = false := by simpa using hm
      rw [hm1] at h ⊢
      simp only [Bool.not_false, if_true] at h ⊢
      rw [ih _ (fun em hem => h em (List.mem_cons_of_mem _ hem))]
      simp

theorem mountLoop_result (host : Host) (containerId : ContainerID) :
    ∀ (l successful res : List ExternalMount),
      (mountLoop host containerId l successful).1 = some res →
        res = successful ++ l.map (fun m => newmount containerId m (mount host m)) := by
  intro l
  induction l with
  | nil => intro successful res h; simp [mountLoop] at h; simp [h]
  | cons iter rest ih =>
    intro successful res h
    unfold mountLoop at h
    simp only [] at h
    split at h
    · rw [ih _ _ h]; simp
    · cases h

/-! ### prepare: the store afterwards -/

theorem prepare_parsed (host : Host) (infos : containermountmap) (containerId : ContainerID)
    (vars : List Variable) (slots : Slots) (hparse : parseVariables vars emptySlots = some slots) :
    (prepare host infos containerId (some vars)).calls =
        (mountLoop host containerId
          (buildRequests infos containerId slots).unconnectedExternalMounts []).2 ∧
      ∀ res, (mountLoop host containerId
          (buildRequests infos containerId slots).unconnectedExternalMounts []).1 = some res →
        (prepare host infos containerId (some vars)).future = Future.ready none ∧
          (prepare host infos containerId (some vars)).infos =
            infos ++
              (buildRequests infos containerId slots).prevConnectedExternalMounts.map
                (fun m => (containerId, m)) ++
              res.map (fun m => (containerId, m)) := by
  unfold prepare
  simp only [hparse]
  cases hm : mountLoop host containerId
      (buildRequests infos containerId slots).unconnectedExternalMounts [] with
  | mk r calls =>
    cases r with
    | none => exact ⟨rfl, fun res h => by cases h⟩
    | some successful =>
      refine ⟨rfl, fun res h => ?_⟩
      cases h
      exact ⟨rfl, rfl⟩

/-- Either `prepare` leaves the store as it was, or it appends the previously connected
records and the fresh mounts of the unconnected ones. -/
theorem prepare_infos_cases (host : Host) (infos : containermountmap)
    (containerId : ContainerID) (environment : Option (List Variable)) :
    (prepare host infos containerId environment).infos = infos ∨
      ∃ slots,
        (prepare host infos containerId environment).infos =
          infos ++
            (buildRequests infos containerId slots).prevConnectedExternalMounts.map
              (fun m => (containerId, m)) ++
            ((buildRequests infos containerId slots).unconnectedExternalMounts.map
              (fun m => newmount containerId m (mount host m))).map
                (fun m => (containerId, m)) := by
  cases environment with
  | none => exact Or.inl rfl
  | some vars =>
    cases hparse : parseVariables vars emptySlots with
    | none =>
      left
      unfold prepare
      simp only [hparse]
    | some slots =>
      obtain ⟨_, hres⟩ := prepare_parsed host infos containerId vars slots hparse
      cases hm : (mountLoop host containerId
          (buildRequests infos containerId slots).unconnectedExternalMounts []).1 with
      | none =>
        left
        unfold prepare
        simp only [hparse]
        cases hm2 : mountLoop host containerId
            (buildRequests infos containerId slots).unconnectedExternalMounts [] with
        | mk r calls =>
          rw [hm2] at hm
          cases hm
          rfl
      | some res =>
        right
        refine ⟨slots, ?_⟩
        rw [(hres res hm).2, mountLoop_result host containerId _ [] res hm, List.nil_append]

theorem coherent_prepare (host : Host) (infos : containermountmap)
    (containerId : ContainerID) (environment : Option (List Variable))
    (h : Coherent infos) : Coherent (prepare host infos containerId environment).infos := by
  rcases prepare_infos_cases host infos containerId environment with heq | ⟨slots, heq⟩
  · rw [heq]; exact h
  · rw [heq]
    have hok := buildRequests_ok infos containerId slots
    have hsplit : ∀ e ∈ infos ++
        (buildRequests infos containerId slots).prevConnectedExternalMounts.map
          (fun m => (containerId, m)) ++
        ((buildRequests infos containerId slots).unconnectedExternalMounts.map
          (fun m => newmount containerId m (mount host m))).map (fun m => (containerId, m)),
        (∃ c, (c, e.2) ∈ infos) ∨
          ∃ m ∈ (buildRequests infos containerId slots).unconnectedExternalMounts,
            e.2 = newmount containerId m (mount host m) := by
      intro e he
      rcases List.mem_append.1 he with h1 | h1
      · rcases List.mem_append.1 h1 with h2 | h2
        · exact Or.inl ⟨e.1, h2⟩
        · obtain ⟨m, hm, rfl⟩ := List.mem_map.1 h2
          exact Or.inl (hok.prev_in m hm)
      · obtain ⟨r, hr, rfl⟩ := List.mem_map.1 h1
        obtain ⟨m, hm, rfl⟩ := List.mem_map.1 hr
        exact Or.inr ⟨m, hm, rfl⟩
    intro e1 he1 e2 he2 hid
    rcases hsplit e1 he1 with ⟨c1, h1⟩ | ⟨m1, hm1, h1⟩
    · rcases hsplit e2 he2 with ⟨c2, h2⟩ | ⟨m2, hm2, h2⟩
      · exact h (c1, e1.2) h1 (c2, e2.2) h2 hid
      · exfalso
        rw [h2, getExternalMountId_newmount] at hid
        exact hok.unc_fresh m2 hm2 (c1, e1.2) h1 hid
    · rcases hsplit e2 he2 with ⟨c2, h2⟩ | ⟨m2, hm2, h2⟩
      · exfalso
        rw [h1, getExternalMountId_newmount] at hid
        exact hok.unc_fresh m1 hm1 (c2, e2.2) h2 hid.symm
      · rw [h1, h2, getExternalMountId_newmount, getExternalMountId_newmount] at hid
        rw [h1, h2, hok.unc_inj m1 hm1 m2 hm2 hid]

theorem cleanup_infos_subset (host : Host) (infos : containermountmap)
    (containerId : ContainerID) :
    ∀ e ∈ (cleanup host infos containerId).infos, e ∈ infos := by
  intro e he
  unfold cleanup at he
  split at he
  · exact he
  · simp only [] at he
    split at he
    · exact he
    · exact (List.mem_filter.1 he).1

theorem coherent_of_reachable (infos : containermountmap) (h : Reachable infos) :
    Coherent infos := by
  induction h with
  | empty => intro e1 h1; exact absurd h1 (List.not_mem_nil e1)
  | prepare host infos containerId environment _ ih =>
    exact coherent_prepare host infos containerId environment ih
  | cleanup host infos containerId _ ih =>
    intro e1 h1 e2 h2 hid
    exact ih e1 (cleanup_infos_subset host infos containerId e1 h1) e2
      (cleanup_infos_subset host infos containerId e2 h2) hid

/-- C3 (amended): in a store reachable by `prepare` and `cleanup` calls in which `w1`
holds the record `r1`, let the request of `w2` name in some slot a volume with the driver
and the name of `r1` up to letter case. Then `prepare` for `w2` invokes no mount for that
identity, and if none of the mounts it does invoke (for other volumes) fails, it succeeds
and `w2` gets an entry of that identity with the mountpoint of `r1`. -/
theorem C3_sharing (host : Host) (infos : containermountmap) (w1 w2 : ContainerID)
    (r1 : ExternalMount) (vars : List Variable) (slots : Slots) (i : Nat)
    (hreach : Reachable infos) (hheld : (w1, r1) ∈ infos)
    (hparse : parseVariables vars emptySlots = some slots)
    (hslot : i < ARRAY_SIZE) (hname : slots.volumeNames.getD i "" ≠ "")
    (hdriver : to_lower_copy (slotMount w2 slots i).volumedriver = to_lower_copy r1.volumedriver)
    (hvolume : to_lower_copy (slotMount w2 slots i).volumename = to_lower_copy r1.volumename) :
    (∀ em, Call.mount em ∈ (prepare host infos w2 (some vars)).calls →
        getExternalMountId em ≠ getExternalMountId r1) ∧
      ((∀ em, Call.mount em ∈ (prepare host infos w2 (some vars)).calls → mount host em ≠ "") →
        (prepare host infos w2 (some vars)).future = Future.ready none ∧
          ∃ r2, (w2, r2) ∈ (prepare host infos w2 (some vars)).infos ∧
            getExternalMountId r2 = getExternalMountId r1 ∧ r2.mountpoint = r1.mountpoint) := by
  obtain ⟨hcalls, hres⟩ := prepare_parsed host infos w2 vars slots hparse
  have hok := buildRequests_ok infos w2 slots
  have hid : getExternalMountId (slotMount w2 slots i) = getExternalMountId r1 :=
    getExternalMountId_congr _ _ hdriver hvolume
  rw [hcalls]
  constructor
  · intro em hem heq
    exact hok.unc_fresh em (mountLoop_calls_mem host w2 em _ _ hem) (w1, r1) hheld heq.symm
  · intro hall
    have hsome := mountLoop_some host w2 _ [] hall
    obtain ⟨hfut, hinfos⟩ := hres _ hsome
    refine ⟨hfut, r1, ?_, rfl, rfl⟩
    obtain ⟨m, hm, hmid⟩ := foldl_requestStep_requested infos w2 slots i hname
      (List.range ARRAY_SIZE) ⟨[], [], []⟩ (List.mem_range.2 hslot)
    rcases hok.req_cov m hm with hunc | ⟨r, hr, hrid⟩
    · exact absurd (hmid.trans hid).symm (hok.unc_fresh m hunc (w1, r1) hheld)
    · obtain ⟨c, hc⟩ := hok.prev_in r hr
      have hrr : r = r1 :=
        coherent_of_reachable infos hreach (c, r) hc (w1, r1) hheld (hrid.trans (hmid.trans hid))
      rw [hinfos]
      apply List.mem_append_left
      apply List.mem_append_right
      exact List.mem_map.2 ⟨r, hr, by rw [hrr]⟩

theorem C3_sharing_witness :
    Reachable storeV1 ∧ (w1, mountedV) ∈ storeV1 ∧
      parseVariables envVC emptySlots = some slotsVC ∧
      0 < ARRAY_SIZE ∧ slotsVC.volumeNames.getD 0 "" ≠ "" ∧
      to_lower_copy (slotMount w2 slotsVC 0).volumedriver = to_lower_copy mountedV.volumedriver ∧
      to_lower_copy (slotMount w2 slotsVC 0).volumename = to_lower_copy mountedV.volumename ∧
      (∀ em, Call.mount em ∈ (prepare hostAllOk storeV1 w2 (some envVC)).calls →
        getExternalMountId em ≠ getExternalMountId mountedV) ∧
      ((∀ em, Call.mount em ∈ (prepare hostAllOk storeV1 w2 (some envVC)).calls →
          mount hostAllOk em ≠ "") →
        (prepare hostAllOk storeV1 w2 (some envVC)).future = Future.ready none ∧
          ∃ r2, (w2, r2) ∈ (prepare hostAllOk storeV1 w2 (some envVC)).infos ∧
            getExternalMountId r2 = getExternalMountId mountedV ∧
            r2.mountpoint = mountedV.mountpoint) :=
  ⟨Reachable.prepare hostAllOk [] w1 (some envV) Reachable.empty, by decide!, by decide!,
    by decide!, by decide!, by decide!, by decide!,
    C3_sharing hostAllOk storeV1 w1 w2 mountedV envVC slotsVC 0
      (Reachable.prepare hostAllOk [] w1 (some envV) Reachable.empty) (by decide!) (by decide!)
      (by decide!) (by decide!) (by decide!) (by decide!)⟩

/-- C3 (as stated, refuted): `w1` has successfully prepared `v`; the request of `w2` names
`V` (the same volume up to letter case) and also `c`, whose mount fails. `prepare` for
`w2` does not succeed and leaves `w2` without any entry. -/
theorem C3_counterexample :
    (prepare hostAllOk [] w1 (some envV)).future = Future.ready none ∧
      (w1, mountedV) ∈ storeV1 ∧
      parseVariables envVC emptySlots = some slotsVC ∧
      to_lower_copy (slotMount w2 slotsVC 0).volumedriver = to_lower_copy mountedV.volumedriver ∧
      to_lower_copy (slotMount w2 slotsVC 0).volumename = to_lower_copy mountedV.volumename ∧
      (prepare hostFailingOnC storeV1 w2 (some envVC)).future =
        Future.failed "prepare() failed during mount attempt" ∧
      mountsOf (prepare hostFailingOnC storeV1 w2 (some envVC)).infos w2 = [] := by
  decide!

/-! ### cleanup: the store afterwards -/

theorem mountsOf_eq_nil_iff (infos : containermountmap) (containerId : ContainerID) :
    mountsOf infos containerId = [] ↔ infos.any (fun ent => ent.1 == containerId) = false := by
  unfold mountsOf
  rw [List.map_eq_nil_iff, List.filter_eq_nil_iff, List.any_eq_false]

theorem mountsOf_filter_ne_self (infos : containermountmap) (containerId : ContainerID) :
    mountsOf (infos.filter (fun ent => ent.1 != containerId)) containerId = [] := by
  rw [mountsOf_eq_nil_iff, List.any_eq_false]
  intro ent hent hkey
  have h1 := (List.mem_filter.1 hent).2
  rw [beq_iff_eq] at hkey
  rw [bne_iff_ne] at h1
  exact h1 hkey

theorem mountsOf_filter_ne_other (infos : containermountmap) (containerId other : ContainerID)
    (hne : other ≠ containerId) :
    mountsOf (infos.filter (fun ent => ent.1 != containerId)) other = mountsOf infos other := by
  unfold mountsOf
  rw [List.filter_filter]
  congr 1
  apply List.filter_congr
  intro ent _
  by_cases hk : ent.1 = other
  · have h1 : (ent.1 != containerId) = true := by
      rw [bne_iff_ne, hk]; exact hne
    rw [h1, Bool.and_true]
  · have h1 : (ent.1 == other) = false := by rw [beq_eq_false_iff_ne]; exact hk
    rw [h1, Bool.false_and]

/-- The three ways `cleanup` ends. -/
theorem cleanup_cases (host : Host) (infos : containermountmap) (containerId : ContainerID) :
    (mountsOf infos containerId = [] ∧
        cleanup host infos containerId = ⟨Future.ready (), infos, none, []⟩) ∨
      (mountsOf infos containerId ≠ [] ∧
        (cleanup host infos containerId).future =
          Future.failed "cleanup() failed during unmount attempt" ∧
        (cleanup host infos containerId).infos = infos ∧
        (cleanup host infos containerId).checkpointed = none) ∨
      (mountsOf infos containerId ≠ [] ∧
        (cleanup host infos containerId).future = Future.ready () ∧
        (cleanup host infos containerId).infos =
          infos.filter (fun ent => ent.1 != containerId) ∧
        (cleanup host infos containerId).checkpointed =
          some ((infos.filter (fun ent => ent.1 != containerId)).map Prod.snd)) := by
  unfold cleanup
  by_cases hany : infos.any (fun ent => ent.1 == containerId) = true
  · have hne : mountsOf infos containerId ≠ [] := by
      rw [ne_eq, mountsOf_eq_nil_iff, hany]; simp
    simp only [hany, Bool.not_true, Bool.false_eq_true, if_false]
    cases hm : unmountLoop host infos (mountsOf infos containerId) with
    | mk ok calls =>
      cases ok with
      | false => exact Or.inr (Or.inl ⟨hne, rfl, rfl, rfl⟩)
      | true => exact Or.inr (Or.inr ⟨hne, rfl, rfl, rfl⟩)
  · have hfalse : infos.any (fun ent => ent.1 == containerId) = false :=
      Bool.eq_false_iff.2 hany
    left
    refine ⟨(mountsOf_eq_nil_iff infos containerId).2 hfalse, ?_⟩
    simp only [hfalse, Bool.not_false, if_true]

/-- C11: after a successful `cleanup` of a workload the store has no entry for it, and
every other workload holds the same list of records as before. -/
theorem C11_cleanup_postcondition_frame (host : Host) (infos : containermountmap)
    (containerId other : ContainerID)
    (hok : (cleanup host infos containerId).future = Future.ready ()) :
    mountsOf (cleanup host infos containerId).infos containerId = [] ∧
      (other ≠ containerId →
        mountsOf (cleanup host infos containerId).infos other = mountsOf infos other) := by
  rcases cleanup_cases host infos containerId with ⟨hnil, heq⟩ | ⟨_, hfail, _, _⟩ |
    ⟨_, _, hinfos, _⟩
  · rw [heq]
    exact ⟨hnil, fun _ => rfl⟩
  · rw [hfail] at hok
    cases hok
  · rw [hinfos]
    exact ⟨mountsOf_filter_ne_self infos containerId,
      fun hne => mountsOf_filter_ne_other infos containerId other hne⟩

theorem C11_cleanup_postcondition_frame_witness :
    (cleanup hostAllOk storeA1B2 w1).future = Future.ready () ∧
      mountsOf (cleanup hostAllOk storeA1B2 w1).infos w1 = [] ∧
      (w2 ≠ w1 → mountsOf (cleanup hostAllOk storeA1B2 w1).infos w2 = mountsOf storeA1B2 w2) :=
  ⟨by decide!, C11_cleanup_postcondition_frame hostAllOk storeA1B2 w1 w2 (by decide!)⟩

/-- C12: `cleanup` of a workload without entries succeeds, invokes no unmount, writes no
checkpoint and leaves the store as it is; so a second `cleanup` right after a successful
one, under any behaviour of the outside world, is such a no-op. -/
theorem C12_cleanup_idempotent (host again : Host) (infos : containermountmap)
    (containerId : ContainerID) :
    (mountsOf infos containerId = [] →
        cleanup host infos containerId = ⟨Future.ready (), infos, none, []⟩) ∧
      ((cleanup host infos containerId).future = Future.ready () →
        cleanup again (cleanup host infos containerId).infos containerId =
          ⟨Future.ready (), (cleanup host infos containerId).infos, none, []⟩) := by
  have hnoop : ∀ (h : Host) (store : containermountmap), mountsOf store containerId = [] →
      cleanup h store containerId = ⟨Future.ready (), store, none, []⟩ := by
    intro h store hnil
    rcases cleanup_cases h store containerId with ⟨_, heq⟩ | ⟨hne, _⟩ | ⟨hne, _⟩
    · exact heq
    · exact absurd hnil hne
    · exact absurd hnil hne
  refine ⟨hnoop host infos, fun hok => hnoop again _ ?_⟩
  rcases cleanup_cases host infos containerId with ⟨hnil, heq⟩ | ⟨_, hfail, _, _⟩ |
    ⟨_, _, hinfos, _⟩
  · rw [heq]; exact hnil
  · rw [hfail] at hok
    cases hok
  · rw [hinfos]
    exact mountsOf_filter_ne_self infos containerId

theorem C12_cleanup_idempotent_witness :
    (cleanup hostAllOk storeAB w1).future = Future.ready () ∧
      (cleanup hostNoShell (cleanup hostAllOk storeAB w1).infos w1).future = Future.ready () ∧
      (cleanup hostNoShell (cleanup hostAllOk storeAB w1).infos w1).calls = [] ∧
      (cleanup hostNoShell (cleanup hostAllOk storeAB w1).infos w1).infos =
        (cleanup hostAllOk storeAB w1).infos :=
  ⟨by decide!,
    by rw [(C12_cleanup_idempotent hostAllOk hostNoShell storeAB w1).2 (by decide!)],
    by rw [(C12_cleanup_idempotent hostAllOk hostNoShell storeAB w1).2 (by decide!)],
    by rw [(C12_cleanup_idempotent hostAllOk hostNoShell storeAB w1).2 (by decide!)]⟩

/-! ### prepare: validation of the environment -/

theorem startsWith_append (pre suffix : String) : startsWith (pre ++ suffix) pre = true := by
  unfold startsWith
  rw [String.data_append, List.isPrefixOf_iff_prefix]
  exact List.prefix_append _ _

/-- A variable of one of the three families with a prohibited character in its value
ends the loop over the environment with the failure. -/
theorem parseVariable_none (slots : Slots) (var : Variable)
    (hname : startsWith var.name VOL_NAME_ENV_VAR_NAME = true ∨
      startsWith var.name VOL_DRIVER_ENV_VAR_NAME = true ∨
      startsWith var.name VOL_OPTS_ENV_VAR_NAME = true)
    (hbad : containsProhibitedChars var.value = true) : parseVariable slots var = none := by
  unfold parseVariable
  by_cases h1 : startsWith var.name VOL_NAME_ENV_VAR_NAME = true
  · rw [if_pos h1, if_pos hbad]
  · rw [if_neg h1]
    by_cases h2 : startsWith var.name VOL_DRIVER_ENV_VAR_NAME = true
    · rw [if_pos h2, if_pos hbad]
    · rw [if_neg h2]
      rcases hname with h | h | h
      · exact absurd h h1
      · exact absurd h h2
      · rw [if_pos h, if_pos hbad]

theorem parseVariables_none (var : Variable)
    (hname : startsWith var.name VOL_NAME_ENV_VAR_NAME = true ∨
      startsWith var.name VOL_DRIVER_ENV_VAR_NAME = true ∨
      startsWith var.name VOL_OPTS_ENV_VAR_NAME = true)
    (hbad : containsProhibitedChars var.value = true) :
    ∀ (vars : List Variable) (slots : Slots), var ∈ vars → parseVariables vars slots = none := by
  intro vars
  induction vars with
  | nil => intro slots h; simp at h
  | cons v rest ih =>
    intro slots hmem
    unfold parseVariables
    cases hv : parseVariable slots v with
    | none => rfl
    | some slots1 =>
      simp only []
      rcases List.mem_cons.1 hmem with h | h
      · subst h
        rw [parseVariable_none slots var hname hbad] at hv
        cases hv
      · exact ih slots1 h

/-- C13: if a variable named `DVDI_VOLUME_NAME` or `DVDI_VOLUME_DRIVER`, with or without
a suffix (a digit 1-9 or anything else), has a value with a prohibited character,
`prepare` returns the failure, invokes neither mount nor unmount, writes no checkpoint and
leaves the store as it is. -/
theorem C13_prepare_rejects_input (host : Host) (infos : containermountmap)
    (containerId : ContainerID) (vars : List Variable) (var : Variable) (suffix : String)
    (hmem : var ∈ vars)
    (hname : var.name = VOL_NAME_ENV_VAR_NAME ++ suffix ∨
      var.name = VOL_DRIVER_ENV_VAR_NAME ++ suffix)
    (hbad : containsProhibitedChars var.value = true) :
    (prepare host infos containerId (some vars)).future =
        Future.failed "prepare() failed due to illegal environment variable" ∧
      (prepare host infos containerId (some vars)).calls = [] ∧
      (prepare host infos containerId (some vars)).checkpointed = none ∧
      (prepare host infos containerId (some vars)).infos = infos := by
  have hstart : startsWith var.name VOL_NAME_ENV_VAR_NAME = true ∨
      startsWith var.name VOL_DRIVER_ENV_VAR_NAME = true ∨
      startsWith var.name VOL_OPTS_ENV_VAR_NAME = true := by
    rcases hname with h | h
    · exact Or.inl (by rw [h]; exact startsWith_append _ _)
    · exact Or.inr (Or.inl (by rw [h]; exact startsWith_append _ _))
  have hparse := parseVariables_none var hstart hbad vars emptySlots hmem
  unfold prepare
  simp only [hparse, and_self]

theorem C13_prepare_rejects_input_witness :
    (⟨"DVDI_VOLUME_DRIVER2", "rex$ray"⟩ : Variable) ∈ envBadDriver ∧
      ("DVDI_VOLUME_DRIVER2" = VOL_NAME_ENV_VAR_NAME ++ "2" ∨
        "DVDI_VOLUME_DRIVER2" = VOL_DRIVER_ENV_VAR_NAME ++ "2") ∧
      containsProhibitedChars "rex$ray" = true ∧
      (prepare hostAllOk storeAB w2 (some envBadDriver)).future =
        Future.failed "prepare() failed due to illegal environment variable" ∧
      (prepare hostAllOk storeAB w2 (some envBadDriver)).calls = [] ∧
      (prepare hostAllOk storeAB w2 (some envBadDriver)).checkpointed = none ∧
      (prepare hostAllOk storeAB w2 (some envBadDriver)).infos = storeAB :=
  ⟨by decide!, by decide!, by decide!,
    C13_prepare_rejects_input hostAllOk storeAB w2 envBadDriver ⟨"DVDI_VOLUME_DRIVER2", "rex$ray"⟩
      "2" (by decide!) (by decide!) (by decide!)⟩

/-- C14: two records whose drivers are equal after lowering and whose names are equal
after lowering have the same identity, whatever their other three fields are. -/
theorem C14_identity_case_insensitive (a b : ExternalMount)
    (hdriver : to_lower_copy a.volumedriver = to_lower_copy b.volumedriver)
    (hvolume : to_lower_copy a.volumename = to_lower_copy b.volumename) :
    getExternalMountId a = getExternalMountId b :=
  getExternalMountId_congr a b hdriver hvolume

theorem C14_identity_case_insensitive_witness :
    to_lower_copy "RexRay" = to_lower_copy "rexray" ∧
      to_lower_copy "VolA" = to_lower_copy "vola" ∧
      getExternalMountId ⟨"w1", "RexRay", "VolA", "size=5", "/var/lib/rexray/volumes/x"⟩ =
        getExternalMountId ⟨"w2", "rexray", "vola", "", ""⟩ :=
  ⟨by decide!, by decide!,
    C14_identity_case_insensitive ⟨"w1", "RexRay", "VolA", "size=5", "/var/lib/rexray/volumes/x"⟩
      ⟨"w2", "rexray", "vola", "", ""⟩ (by decide!) (by decide!)⟩

/-- C20: with no checkpoint file, and with a file that does not parse, `recover` returns
success, invokes no unmount, writes no checkpoint and leaves the store as it is. -/
theorem C20_recover_without_checkpoint (host : Host) (infos : containermountmap)
    (stateErrors : Nat) (states : List ContainerID) :
    recover host infos stateErrors MountFile.absent states =
        ⟨Future.ready (), infos, none, []⟩ ∧
      recover host infos stateErrors MountFile.invalid states =
        ⟨Future.ready (), infos, none, []⟩ := by
  unfold recover
  constructor <;> split <;> rfl

/-- C16: a successful `prepare` of a command with an environment, and a successful
`cleanup` of a workload that held entries, hand to the checkpoint write exactly the
records of the resulting store, one per entry and in its order. -/
theorem C16_checkpoint_is_store (host : Host) (infos : containermountmap)
    (containerId : ContainerID) (vars : List Variable) :
    ((prepare host infos containerId (some vars)).future = Future.ready none →
        (prepare host infos containerId (some vars)).checkpointed =
          some ((prepare host infos containerId (some vars)).infos.map Prod.snd)) ∧
      ((cleanup host infos containerId).future = Future.ready () →
        mountsOf infos containerId ≠ [] →
          (cleanup host infos containerId).checkpointed =
            some ((cleanup host infos containerId).infos.map Prod.snd)) := by
  constructor
  · unfold prepare
    cases hp : parseVariables vars emptySlots with
    | none => intro h; simp only [hp] at h; cases h
    | some slots =>
      simp only [hp]
      cases hm : mountLoop host containerId
          (buildRequests infos containerId slots).unconnectedExternalMounts [] with
      | mk r calls =>
        cases r with
        | none => intro h; cases h
        | some successful => intro _; rfl
  · intro hok hheld
    rcases cleanup_cases host infos containerId with ⟨hnil, _⟩ | ⟨_, hfail, _, _⟩ |
      ⟨_, _, hinfos, hcp⟩
    · exact absurd hnil hheld
    · rw [hfail] at hok
      cases hok
    · rw [hcp, hinfos]

/-! ### The answer of the checkpoint write -/

theorem mount_host_congr (h1 h2 : Host) (hsys : h1.system = h2.system)
    (hshell : h1.shell = h2.shell) (em : ExternalMount) : mount h1 em = mount h2 em := by
  unfold mount
  rw [hsys, hshell]

theorem unmount_host_congr (h1 h2 : Host) (hsys : h1.system = h2.system)
    (hshell : h1.shell = h2.shell) (em : ExternalMount) : unmount h1 em = unmount h2 em := by
  unfold unmount
  rw [hsys, hshell]

theorem revertMounts_host_congr (h1 h2 : Host) (hsys : h1.system = h2.system)
    (hshell : h1.shell = h2.shell) (l : List ExternalMount) :
    revertMounts h1 l = revertMounts h2 l := by
  induction l with
  | nil => rfl
  | cons u rest ih =>
    rw [revertMounts, revertMounts, ih, unmount_host_congr h1 h2 hsys hshell]

theorem mountLoop_host_congr (h1 h2 : Host) (hsys : h1.system = h2.system)
    (hshell : h1.shell = h2.shell) (containerId : ContainerID) :
    ∀ l successful : List ExternalMount,
      mountLoop h1 containerId l successful = mountLoop h2 containerId l successful := by
  intro l
  induction l with
  | nil => intro successful; rfl
  | cons iter rest ih =>
    intro successful
    rw [mountLoop, mountLoop, mount_host_congr h1 h2 hsys hshell,
      revertMounts_host_congr h1 h2 hsys hshell]
    simp only [ih]

theorem unmountLoop_host_congr (h1 h2 : Host) (hsys : h1.system = h2.system)
    (hshell : h1.shell = h2.shell) (infos : containermountmap) (l : List ExternalMount) :
    unmountLoop h1 infos l = unmountLoop h2 infos l := by
  induction l with
  | nil => rfl
  | cons iter rest ih =>
    rw [unmountLoop, unmountLoop, unmount_host_congr h1 h2 hsys hshell]
    simp only [ih]

theorem unmountOrphans_host_congr (h1 h2 : Host) (hsys : h1.system = h2.system)
    (hshell : h1.shell = h2.shell) (l : List ExternalMount) :
    unmountOrphans h1 l = unmountOrphans h2 l := by
  induction l with
  | nil => rfl
  | cons iter rest ih =>
    rw [unmountOrphans, unmountOrphans, unmount_host_congr h1 h2 hsys hshell]
    simp only [ih]

/-- C17 (amended): the answer of the checkpoint write is not looked at: whatever it is,
`prepare`, `cleanup` and `recover` return the same result, leave the same store, hand over
the same records and make the same invocations. -/
theorem C17_checkpoint_answer_ignored (host : Host) (written : List ExternalMount → Bool)
    (infos : containermountmap) (containerId : ContainerID)
    (environment : Option (List Variable)) (stateErrors : Nat) (file : MountFile)
    (states : List ContainerID) :
    prepare { host with checkpoint := written } infos containerId environment =
        prepare host infos containerId environment ∧
      cleanup { host with checkpoint := written } infos containerId =
        cleanup host infos containerId ∧
      recover { host with checkpoint := written } infos stateErrors file states =
        recover host infos stateErrors file states := by
  refine ⟨?_, ?_, ?_⟩
  · unfold prepare
    simp only [mountLoop_host_congr { host with checkpoint := written } host rfl rfl]
  · unfold cleanup
    simp only [unmountLoop_host_congr { host with checkpoint := written } host rfl rfl]
  · unfold recover
    simp only [unmountOrphans_host_congr { host with checkpoint := written } host rfl rfl]

/-- C17 (as stated, refuted): the checkpoint write reports an error for every record list,
and `prepare`, `cleanup` and `recover`, each of which performs a write, return success. -/
theorem C17_counterexample :
    (prepare hostCheckpointFails [] w1 (some envV)).checkpointed = some [mountedV] ∧
      hostCheckpointFails.checkpoint [mountedV] = false ∧
      (prepare hostCheckpointFails [] w1 (some envV)).future = Future.ready none ∧
      (cleanup hostCheckpointFails storeV1 w1).checkpointed = some [] ∧
      hostCheckpointFails.checkpoint [] = false ∧
      (cleanup hostCheckpointFails storeV1 w1).future = Future.ready () ∧
      (recover hostCheckpointFails [] 0 (MountFile.parsed [mountedV]) [w1]).checkpointed =
        some [mountedV] ∧
      (recover hostCheckpointFails [] 0 (MountFile.parsed [mountedV]) [w1]).future =
        Future.ready () := by
  decide!

/-! ### recover: hard failure and scrubbing -/

theorem unmountOrphans_false_of_failed (host : Host) (em : ExternalMount)
    (hfail : unmount host em = false) :
    ∀ l, Call.unmount em ∈ (unmountOrphans host l).2 → (unmountOrphans host l).1 = false := by
  intro l
  induction l with
  | nil => intro h; simp [unmountOrphans] at h
  | cons iter rest ih =>
    intro h
    unfold unmountOrphans at h ⊢
    by_cases hu : unmount host iter = true
    · simp only [hu, Bool.not_true, Bool.false_eq_true, if_false, List.mem_cons,
        Call.unmount.injEq] at h ⊢
      rcases h with h | h
      · subst h
        rw [hfail] at hu
        cases hu
      · exact ih h
    · simp [hu]

theorem recover_parsed_rest (host : Host) (infos : containermountmap)
    (mountlist : List ExternalMount) (states : List ContainerID) :
    (recover host infos 0 (MountFile.parsed mountlist) states).checkpointed =
        some ((recoverStates (originalContainerMounts mountlist) states (infos, [])).2.map
          Prod.snd) ∧
      ((unmountOrphans host ((eraseInUse (legacyMountsOf (originalContainerMounts mountlist))
          (recoverStates (originalContainerMounts mountlist) states (infos, [])).2).map
            Prod.snd)).1 = false →
        (recover host infos 0 (MountFile.parsed mountlist) states).future =
          Future.failed "recover() failed during unmount attempt") := by
  unfold recover
  simp only [ne_eq, not_true_eq_false, if_false]
  split
  · exact ⟨rfl, fun _ => rfl⟩
  · rename_i h
    refine ⟨rfl, fun hf => ?_⟩
    rw [h] at hf
    cases hf

theorem containsProhibitedChars_empty : containsProhibitedChars "" = false := by
  decide!

/-! ### The identity as a hash -/

theorem hash_combine_value_lt (seed v : Nat) (h : seed < 2 ^ 64) :
    hash_combine_value seed v < 2 ^ 64 := by
  unfold hash_combine_value
  exact Nat.xor_lt_two_pow h (Nat.mod_lt _ (by norm_num))

theorem hash_range_lt (cs : List Char) : hash_range cs < 2 ^ 64 := by
  unfold hash_range
  have hgen : ∀ (l : List Nat) (seed : Nat), seed < 2 ^ 64 →
      l.foldl (fun seed byte => hash_combine_value seed (hash_value byte)) seed < 2 ^ 64 := by
    intro l
    induction l with
    | nil => intro seed h; exact h
    | cons byte rest ih =>
      intro seed h
      exact ih _ (hash_combine_value_lt seed (hash_value byte) h)
  exact hgen (bytes cs) 0 (by norm_num)

/-- One step of `hash_combine` is injective in the hash value it mixes in. -/
theorem hash_combine_value_inj (seed v1 v2 : Nat) (h1 : v1 < 2 ^ 64) (h2 : v2 < 2 ^ 64)
    (h : hash_combine_value seed v1 = hash_combine_value seed v2) : v1 = v2 := by
  unfold hash_combine_value at h
  have hx := Nat.xor_right_injective h
  simp only at hx
  generalize (seed <<< 6) % 2 ^ 64 = a at hx
  generalize seed >>> 2 = b at hx
  omega

/-- C15 (amended): for two records with the same lowered driver, the identities are
equal exactly when the 64-bit hashes of the lowered names are equal. -/
theorem C15_identity_up_to_name_hash (a b : ExternalMount)
    (hdriver : to_lower_copy a.volumedriver = to_lower_copy b.volumedriver) :
    getExternalMountId a = getExternalMountId b ↔
      hash_range (to_lower_copy a.volumename).data =
        hash_range (to_lower_copy b.volumename).data := by
  unfold getExternalMountId hash_combine
  simp only []
  rw [hdriver]
  constructor
  · intro h
    exact hash_combine_value_inj _ _ _ (hash_range_lt _) (hash_range_lt _) h
  · intro h
    rw [h]

theorem C15_identity_up_to_name_hash_witness :
    to_lower_copy "RexRay" = to_lower_copy "rexray" ∧
      (getExternalMountId ⟨"w1", "RexRay", "volaz", "", ""⟩ =
          getExternalMountId ⟨"w2", "rexray", "volb9", "", ""⟩ ↔
        hash_range (to_lower_copy "volaz").data = hash_range (to_lower_copy "volb9").data) :=
  ⟨by decide!,
    C15_identity_up_to_name_hash ⟨"w1", "RexRay", "volaz", "", ""⟩
      ⟨"w2", "rexray", "volb9", "", ""⟩ (by decide!)⟩

/-- C15 (as stated, refuted): the volumes `volaz` and `volb9` of the driver `rexray` have
different lowered names and the same identity; after `w1` prepared `volaz`, `prepare` of
`volb9` for `w2` invokes no mount and gives `w2` the record of `volaz`. -/
theorem C15_counterexample :
    getExternalMountId ⟨"w1", "rexray", "volaz", "", ""⟩ =
        getExternalMountId ⟨"w2", "rexray", "volb9", "", ""⟩ ∧
      to_lower_copy "volaz" ≠ to_lower_copy "volb9" ∧
      (prepare hostAllOk [] w1 (some envVolaz)).infos = [(w1, mountedVolaz)] ∧
      (prepare hostAllOk [(w1, mountedVolaz)] w2 (some envVolb9)).calls = [] ∧
      (prepare hostAllOk [(w1, mountedVolaz)] w2 (some envVolb9)).infos =
        [(w1, mountedVolaz), (w2, mountedVolaz)] := by
  decide!

/-! ### The validator and the two executor methods -/

theorem prohibitedchars_take : prohibitedchars.take NUM_PROHIBITED = specProhibited := by
  decide!

theorem list_contains_iff (l : List Char) (c : Char) : l.contains c = true ↔ c ∈ l :=
  List.elem_iff

/-- C23: `containsProhibitedChars s` holds exactly when some character of `s` is one of
the 26 prohibited characters of the specification; it fails for the empty string and
holds for a string with an embedded NUL. -/
theorem C23_validator (s : String) :
    (containsProhibitedChars s = true ↔ ∃ c ∈ s.data, c ∈ specProhibited) ∧
      specProhibited.length = 26 ∧ specProhibited.Nodup ∧
      containsProhibitedChars "" = false ∧
      containsProhibitedChars (String.mk ['a', Char.ofNat 0, 'b']) = true := by
  refine ⟨?_, by decide!, by decide!, by decide!, by decide!⟩
  unfold containsProhibitedChars
  rw [prohibitedchars_take, List.any_eq_true]
  constructor
  · rintro ⟨c, hc, hin⟩
    exact ⟨c, hc, (list_contains_iff _ _).1 hin⟩
  · rintro ⟨c, hc, hin⟩
    exact ⟨c, hc, (list_contains_iff _ _).2 hin⟩

theorem trim_of_all_whitespace (out : String)
    (h : ∀ c ∈ out.data, c ∈ WHITESPACE) : trim out = "" := by
  unfold trim
  have h1 : out.data.dropWhile (fun c => WHITESPACE.contains c) = [] := by
    rw [List.dropWhile_eq_nil_iff]
    intro c hc
    exact (list_contains_iff _ _).2 (h c hc)
  rw [h1]
  rfl

/-- C24: with a command processor, an invocation that yields output and a non-empty
trimmed output, `mount` returns the trimmed output; without a command processor, on an
invocation error and on an output that is empty after trimming (so on an empty or
all-whitespace output) it returns the empty string. -/
theorem C24_mount_result (host : Host) (em : ExternalMount) :
    (∀ out, host.system em = true → host.shell (mountCommand em) = Except.ok out →
        trim out ≠ "" → mount host em = trim out) ∧
      (host.system em = false → mount host em = "") ∧
      (∀ err, host.shell (mountCommand em) = Except.error err → mount host em = "") ∧
      (∀ out, host.shell (mountCommand em) = Except.ok out → trim out = "" →
        mount host em = "") ∧
      (∀ out, host.shell (mountCommand em) = Except.ok out →
        (∀ c ∈ out.data, c ∈ WHITESPACE) → mount host em = "") := by
  have hempty : ∀ out, host.shell (mountCommand em) = Except.ok out → trim out = "" →
      mount host em = "" := by
    intro out hout htrim
    unfold mount
    split
    · rw [hout]
      simp only []
      rw [if_pos ((isEmpty_data_iff _).2 htrim)]
    · rfl
  refine ⟨?_, ?_, ?_, hempty, ?_⟩
  · intro out hsys hout htrim
    unfold mount
    rw [if_pos hsys, hout]
    simp only []
    rw [if_neg (fun h => htrim ((isEmpty_data_iff _).1 h))]
  · intro hsys
    unfold mount
    rw [hsys]
    rfl
  · intro err herr
    unfold mount
    split
    · rw [herr]
    · rfl
  · intro out hout hws
    exact hempty out hout (trim_of_all_whitespace out hws)

/-- C25: `unmount` returns `false` exactly when there is no command processor; with one
it returns `true` whatever the unmount command answers. -/
theorem C25_unmount_tolerant (host : Host) (em : ExternalMount) :
    (unmount host em = false ↔ host.system em = false) ∧
      (host.system em = true → unmount host em = true) := by
  constructor
  · constructor
    · intro h
      cases hs : host.system em with
      | false => rfl
      | true => rw [unmount_of_system host em hs] at h; cases h
    · intro hs
      unfold unmount
      rw [hs]
      rfl
  · exact unmount_of_system host em

/-- C27 (code defect): after `w1` and then `w2` prepared the same volume `v`, the store
reached holds for `w2` the record of `w1`, whose container id is `w1`. -/
theorem C27_shared_entry_names_first_owner :
    (prepare hostAllOk [] w1 (some envV)).future = Future.ready none ∧
      (prepare hostAllOk storeV1 w2 (some envV)).future = Future.ready none ∧
      storeV12 = [(w1, mountedV), (w2, mountedV)] ∧
      mountedV.containerid = "w1" ∧ stringify w2 = "w2" ∧
      mountedV.containerid ≠ stringify w2 := by
  decide!

/-- C28: if a variable whose name starts with `DVDI_VOLUME_OPTS` has a value with a
prohibited character, `prepare` returns the failure with no invocation, no checkpoint and
the store as it was, whether or not the variable fills a slot and whether or not that
slot has a volume name. -/
theorem C28_prepare_validates_options (host : Host) (infos : containermountmap)
    (containerId : ContainerID) (vars : List Variable) (var : Variable) (suffix : String)
    (hmem : var ∈ vars) (hname : var.name = VOL_OPTS_ENV_VAR_NAME ++ suffix)
    (hbad : containsProhibitedChars var.value = true) :
    (prepare host infos containerId (some vars)).future =
        Future.failed "prepare() failed due to illegal environment variable" ∧
      (prepare host infos containerId (some vars)).calls = [] ∧
      (prepare host infos containerId (some vars)).checkpointed = none ∧
      (prepare host infos containerId (some vars)).infos = infos := by
  have hstart : startsWith var.name VOL_NAME_ENV_VAR_NAME = true ∨
      startsWith var.name VOL_DRIVER_ENV_VAR_NAME = true ∨
      startsWith var.name VOL_OPTS_ENV_VAR_NAME = true :=
    Or.inr (Or.inr (by rw [hname]; exact startsWith_append _ _))
  have hparse := parseVariables_none var hstart hbad vars emptySlots hmem
  unfold prepare
  simp only [hparse, and_self]

theorem C28_prepare_validates_options_witness :
    (⟨"DVDI_VOLUME_OPTS3", "size=5 iops=100"⟩ : Variable) ∈ envBadOpts ∧
      "DVDI_VOLUME_OPTS3" = VOL_OPTS_ENV_VAR_NAME ++ "3" ∧
      containsProhibitedChars "size=5 iops=100" = true ∧
      (prepare hostAllOk storeAB w2 (some envBadOpts)).future =
        Future.failed "prepare() failed due to illegal environment variable" ∧
      (prepare hostAllOk storeAB w2 (some envBadOpts)).calls = [] ∧
      (prepare hostAllOk storeAB w2 (some envBadOpts)).checkpointed = none ∧
      (prepare hostAllOk storeAB w2 (some envBadOpts)).infos = storeAB :=
  ⟨by decide!, by decide!, by decide!,
    C28_prepare_validates_options hostAllOk storeAB w2 envBadOpts
      ⟨"DVDI_VOLUME_OPTS3", "size=5 iops=100"⟩ "3" (by decide!) (by decide!) (by decide!)⟩

theorem C24_mount_result_witness :
    mount hostPadded reqA = "/var/lib/rexray/volumes/a" ∧ mount hostShellError reqA = "" ∧
      mount hostNoShell reqA = "" :=
  ⟨((C24_mount_result hostPadded reqA).1 "  /var/lib/rexray/volumes/a \n" (by decide!)
      rfl (by decide!)).trans (by decide!),
    (C24_mount_result hostShellError reqA).2.2.1 "exit status 1" rfl,
    (C24_mount_result hostNoShell reqA).2.1 (by decide!)⟩

theorem C25_unmount_tolerant_witness :
    unmount hostShellError mountedA = true ∧ unmount hostNoShell mountedA = false :=
  ⟨(C25_unmount_tolerant hostShellError mountedA).2 (by decide!),
    (C25_unmount_tolerant hostNoShell mountedA).1.2 (by decide!)⟩

/-! ### No prohibited character in a command -/

theorem getD_mem_or_default (l : List String) (i : Nat) (d : String) :
    l.getD i d = d ∨ l.getD i d ∈ l := by
  induction l generalizing i with
  | nil => left; rfl
  | cons a rest ih =>
    cases i with
    | zero => right; exact List.mem_cons_self _ _
    | succ n =>
      rcases ih n with h | h
      · left; simpa using h
      · right
        have : (a :: rest).getD (n + 1) d = rest.getD n d := by simp
        rw [this]
        exact List.mem_cons_of_mem _ h

theorem clean_set (l : List String) (i : Nat) (v : String)
    (hl : ∀ s ∈ l, containsProhibitedChars s = false) (hv : containsProhibitedChars v = false) :
    ∀ s ∈ l.set i v, containsProhibitedChars s = false := by
  intro s hs
  rcases List.mem_or_eq_of_mem_set hs with h | h
  · exact hl s h
  · rw [h]; exact hv

theorem cleanSlots_empty : CleanSlots emptySlots := by
  have h : ∀ s ∈ List.replicate ARRAY_SIZE "", containsProhibitedChars s = false := by
    intro s hs
    rw [(List.mem_replicate.1 hs).2]
    exact containsProhibitedChars_empty
  exact ⟨h, h, h⟩

theorem cleanSlots_parseVariable (slots slots1 : Slots) (var : Variable)
    (h : CleanSlots slots) (hp : parseVariable slots var = some slots1) : CleanSlots slots1 := by
  unfold parseVariable at hp
  split at hp
  · split at hp
    · cases hp
    · rename_i hclean
      have hv : containsProhibitedChars var.value = false := Bool.eq_false_iff.2 hclean
      split at hp
      · cases hp
        exact ⟨h.1, clean_set _ _ _ h.2.1 hv, h.2.2⟩
      · cases hp; exact h
  · split at hp
    · split at hp
      · cases hp
      · rename_i hclean
        have hv : containsProhibitedChars var.value = false := Bool.eq_false_iff.2 hclean
        split at hp
        · cases hp
          exact ⟨clean_set _ _ _ h.1 hv, h.2.1, h.2.2⟩
        · cases hp; exact h
    · split at hp
      · split at hp
        · cases hp
        · rename_i hclean
          have hv : containsProhibitedChars var.value = false := Bool.eq_false_iff.2 hclean
          split at hp
          · cases hp
            exact ⟨h.1, h.2.1, clean_set _ _ _ h.2.2 hv⟩
          · cases hp; exact h
      · cases hp; exact h

theorem cleanSlots_parseVariables :
    ∀ (vars : List Variable) (slots slots1 : Slots), CleanSlots slots →
      parseVariables vars slots = some slots1 → CleanSlots slots1 := by
  intro vars
  induction vars with
  | nil =>
    intro slots slots1 h hp
    unfold parseVariables at hp
    cases hp
    exact h
  | cons v rest ih =>
    intro slots slots1 h hp
    unfold parseVariables at hp
    cases hv : parseVariable slots v with
    | none => simp only [hv] at hp; cases hp
    | some s1 =>
      simp only [hv] at hp
      exact ih s1 slots1 (cleanSlots_parseVariable slots s1 v h hv) hp

/-- The record built for a slot of clean arrays is clean in driver, name and options. -/
theorem slotMount_clean (containerId : ContainerID) (slots : Slots) (i : Nat)
    (h : CleanSlots slots) : CleanCall (Call.mount (slotMount containerId slots i)) := by
  have hget : ∀ l : List String, (∀ s ∈ l, containsProhibitedChars s = false) →
      containsProhibitedChars (l.getD i "") = false := by
    intro l hl
    rcases getD_mem_or_default l i "" with hd | hd
    · rw [hd]; exact containsProhibitedChars_empty
    · exact hl _ hd
  refine ⟨?_, hget _ h.2.1, hget _ h.2.2⟩
  unfold slotMount
  simp only []
  split
  · decide!
  · exact hget _ h.1

theorem requestStep_unconnected (infos : containermountmap) (containerId : ContainerID)
    (slots : Slots) (acc : Requests) (i : Nat)
    (h : ∀ m ∈ acc.unconnectedExternalMounts, ∃ k, m = slotMount containerId slots k) :
    ∀ m ∈ (requestStep infos containerId slots acc i).unconnectedExternalMounts,
      ∃ k, m = slotMount containerId slots k := by
  unfold requestStep
  split
  · exact h
  · simp only []
    split
    · exact h
    · split
      · exact h
      · intro m hm
        rcases List.mem_append.1 hm with h1 | h1
        · exact h m h1
        · exact ⟨i, List.mem_singleton.1 h1⟩

theorem buildRequests_unconnected (infos : containermountmap) (containerId : ContainerID)
    (slots : Slots) :
    ∀ m ∈ (buildRequests infos containerId slots).unconnectedExternalMounts,
      ∃ k, m = slotMount containerId slots k := by
  unfold buildRequests
  have hgen : ∀ (l : List Nat) (acc : Requests),
      (∀ m ∈ acc.unconnectedExternalMounts, ∃ k, m = slotMount containerId slots k) →
        ∀ m ∈ (l.foldl (requestStep infos containerId slots) acc).unconnectedExternalMounts,
          ∃ k, m = slotMount containerId slots k := by
    intro l
    induction l with
    | nil => intro acc h; exact h
    | cons i rest ih =>
      intro acc h
      exact ih _ (requestStep_unconnected infos containerId slots acc i h)
  exact hgen _ _ (fun m hm => absurd hm (List.not_mem_nil m))

theorem revertMounts_calls (host : Host) (call : Call) :
    ∀ l : List ExternalMount, call ∈ revertMounts host l → ∃ em ∈ l, call = Call.unmount em := by
  intro l
  induction l with
  | nil => intro h; simp [revertMounts] at h
  | cons u rest ih =>
    intro h
    unfold revertMounts at h
    split at h
    · exact ⟨u, List.mem_cons_self _ _, List.mem_singleton.1 h⟩
    · rcases List.mem_cons.1 h with h1 | h1
      · exact ⟨u, List.mem_cons_self _ _, h1⟩
      · obtain ⟨em, hem, heq⟩ := ih h1
        exact ⟨em, List.mem_cons_of_mem _ hem, heq⟩

/-- An invocation of the mount loop is a mount of a listed record, or an unmount of a
record mounted before or of the fresh record of a listed one. -/
theorem mountLoop_calls (host : Host) (containerId : ContainerID) (call : Call) :
    ∀ (l successful : List ExternalMount), call ∈ (mountLoop host containerId l successful).2 →
      (∃ em ∈ l, call = Call.mount em) ∨
        ∃ em, call = Call.unmount em ∧
          (em ∈ successful ∨ ∃ m ∈ l, ∃ p, em = newmount containerId m p) := by
  intro l
  induction l with
  | nil => intro successful h; simp [mountLoop] at h
  | cons iter rest ih =>
    intro successful h
    unfold mountLoop at h
    simp only [] at h
    split at h
    · rcases List.mem_cons.1 h with h1 | h1
      · exact Or.inl ⟨iter, List.mem_cons_self _ _, h1⟩
      · rcases ih _ h1 with ⟨em, hem, heq⟩ | ⟨em, heq, hem⟩
        · exact Or.inl ⟨em, List.mem_cons_of_mem _ hem, heq⟩
        · right
          refine ⟨em, heq, ?_⟩
          rcases hem with hs | ⟨m, hm, p, hp⟩
          · rcases List.mem_append.1 hs with h2 | h2
            · exact Or.inl h2
            · exact Or.inr ⟨iter, List.mem_cons_self _ _, _, List.mem_singleton.1 h2⟩
          · exact Or.inr ⟨m, List.mem_cons_of_mem _ hm, p, hp⟩
    · rcases List.mem_cons.1 h with h1 | h1
      · exact Or.inl ⟨iter, List.mem_cons_self _ _, h1⟩
      · obtain ⟨em, hem, heq⟩ := revertMounts_calls host call _ h1
        exact Or.inr ⟨em, heq, Or.inl hem⟩

theorem prepare_calls_clean (host : Host) (infos : containermountmap)
    (containerId : ContainerID) (environment : Option (List Variable)) :
    ∀ call ∈ (prepare host infos containerId environment).calls, CleanCall call := by
  intro call hcall
  cases environment with
  | none => simp [prepare] at hcall
  | some vars =>
    cases hparse : parseVariables vars emptySlots with
    | none =>
      unfold prepare at hcall
      simp only [hparse] at hcall
      exact absurd hcall (List.not_mem_nil call)
    | some slots =>
      have hslots := cleanSlots_parseVariables vars emptySlots slots cleanSlots_empty hparse
      rw [(prepare_parsed host infos containerId vars slots hparse).1] at hcall
      have hunc : ∀ m ∈ (buildRequests infos containerId slots).unconnectedExternalMounts,
          CleanCall (Call.mount m) := by
        intro m hm
        obtain ⟨k, hk⟩ := buildRequests_unconnected infos containerId slots m hm
        rw [hk]
        exact slotMount_clean containerId slots k hslots
      rcases mountLoop_calls host containerId call _ _ hcall with ⟨em, hem, heq⟩ |
        ⟨em, heq, hem⟩
      · rw [heq]; exact hunc em hem
      · rw [heq]
        rcases hem with hs | ⟨m, hm, p, hp⟩
        · exact absurd hs (List.not_mem_nil em)
        · rw [hp]
          exact ⟨(hunc m hm).1, (hunc m hm).2.1⟩

theorem prepare_store_clean (host : Host) (infos : containermountmap)
    (containerId : ContainerID) (environment : Option (List Variable))
    (h : CleanStore infos) : CleanStore (prepare host infos containerId environment).infos := by
  cases environment with
  | none => exact h
  | some vars =>
    cases hparse : parseVariables vars emptySlots with
    | none =>
      unfold prepare
      simp only [hparse]
      exact h
    | some slots =>
      have hslots := cleanSlots_parseVariables vars emptySlots slots cleanSlots_empty hparse
      obtain ⟨_, hres⟩ := prepare_parsed host infos containerId vars slots hparse
      cases hm : (mountLoop host containerId
          (buildRequests infos containerId slots).unconnectedExternalMounts []).1 with
      | none =>
        have hsame : (prepare host infos containerId (some vars)).infos = infos := by
          unfold prepare
          simp only [hparse]
          cases hm2 : mountLoop host containerId
              (buildRequests infos containerId slots).unconnectedExternalMounts [] with
          | mk r calls =>
            rw [hm2] at hm
            cases hm
            rfl
        rw [hsame]
        exact h
      | some res =>
        rw [(hres res hm).2]
        have hresult := mountLoop_result host containerId _ [] res hm
        have hok := buildRequests_ok infos containerId slots
        intro ent hent
        rcases List.mem_append.1 hent with h1 | h1
        · rcases List.mem_append.1 h1 with h2 | h2
          · exact h ent h2
          · obtain ⟨m, hm1, rfl⟩ := List.mem_map.1 h2
            obtain ⟨c, hc⟩ := hok.prev_in m hm1
            exact h (c, m) hc
        · obtain ⟨r, hr, rfl⟩ := List.mem_map.1 h1
          rw [hresult, List.nil_append] at hr
          obtain ⟨m, hm1, rfl⟩ := List.mem_map.1 hr
          obtain ⟨k, hk⟩ := buildRequests_unconnected infos containerId slots m hm1
          have hclean := slotMount_clean containerId slots k hslots
          rw [← hk] at hclean
          exact ⟨hclean.1, hclean.2.1⟩

theorem cleanup_calls_clean (host : Host) (infos : containermountmap)
    (containerId : ContainerID) (h : CleanStore infos) :
    ∀ call ∈ (cleanup host infos containerId).calls, CleanCall call := by
  intro call hcall
  by_cases hany : infos.any (fun ent => ent.1 == containerId) = true
  · rw [(cleanup_calls host infos containerId hany).1] at hcall
    obtain ⟨em, heq, hem, _⟩ := unmountLoop_calls host infos call _ hcall
    rw [heq]
    exact h (containerId, em) ((mem_mountsOf infos containerId em).1 hem)
  · unfold cleanup at hcall
    simp only [hany, Bool.not_false, if_true] at hcall
    exact absurd hcall (List.not_mem_nil call)

theorem scrub_clean (m : ExternalMount) :
    containsProhibitedChars (scrub m).volumedriver = false ∧
      containsProhibitedChars (scrub m).volumename = false := by
  unfold scrub
  cases hd : containsProhibitedChars m.volumedriver <;>
    cases hn : containsProhibitedChars m.volumename <;>
    simp [hd, hn, containsProhibitedChars_empty]

theorem legacy_values (original : List (String × ExternalMount)) :
    ∀ m : externalmountmap,
      ∀ ent ∈ original.foldl (fun legacyMounts elem =>
          legacyMounts.put (getExternalMountId elem.2) elem.2) m,
        ent ∈ m ∨ ∃ elem ∈ original, ent.2 = elem.2 := by
  induction original with
  | nil => intro m ent h; exact Or.inl h
  | cons elem rest ih =>
    intro m ent h
    rw [List.foldl_cons] at h
    rcases ih _ ent h with h1 | ⟨e, he, heq⟩
    · unfold externalmountmap.put at h1
      rcases List.mem_append.1 h1 with h2 | h2
      · exact Or.inl (List.mem_filter.1 h2).1
      · rw [List.mem_singleton] at h2
        exact Or.inr ⟨elem, List.mem_cons_self _ _, by rw [h2]⟩
    · exact Or.inr ⟨e, List.mem_cons_of_mem _ he, heq⟩

theorem recoverStates_entries (original : List (String × ExternalMount)) :
    ∀ (states : List ContainerID) (acc : containermountmap × externalmountmap),
      ∀ ent ∈ (recoverStates original states acc).1,
        ent ∈ acc.1 ∨ ∃ elem ∈ original, ent.2 = elem.2 := by
  intro states
  induction states with
  | nil => intro acc ent h; exact Or.inl h
  | cons state rest ih =>
    intro acc ent h
    unfold recoverStates at h
    split at h
    · rcases ih _ ent h with h1 | h1
      · rw [reattach_fst] at h1
        rcases List.mem_append.1 h1 with h2 | h2
        · exact Or.inl h2
        · obtain ⟨m, hm, rfl⟩ := List.mem_map.1 h2
          obtain ⟨elem, helem, rfl⟩ := List.mem_map.1 hm
          exact Or.inr ⟨elem, (List.mem_filter.1 helem).1, rfl⟩
      · exact Or.inr h1
    · exact ih _ ent h

theorem unmountOrphans_calls (host : Host) (call : Call) :
    ∀ l : List ExternalMount, call ∈ (unmountOrphans host l).2 →
      ∃ em ∈ l, call = Call.unmount em := by
  intro l
  induction l with
  | nil => intro h; simp [unmountOrphans] at h
  | cons iter rest ih =>
    intro h
    unfold unmountOrphans at h
    split at h
    · exact ⟨iter, List.mem_cons_self _ _, List.mem_singleton.1 h⟩
    · rcases List.mem_cons.1 h with h1 | h1
      · exact ⟨iter, List.mem_cons_self _ _, h1⟩
      · obtain ⟨em, hem, heq⟩ := ih h1
        exact ⟨em, List.mem_cons_of_mem _ hem, heq⟩

theorem recover_not_parsed (host : Host) (infos : containermountmap) (stateErrors : Nat)
    (file : MountFile) (states : List ContainerID)
    (h : stateErrors ≠ 0 ∨ file = MountFile.absent ∨ file = MountFile.invalid) :
    recover host infos stateErrors file states = ⟨Future.ready (), infos, none, []⟩ := by
  unfold recover
  by_cases he : stateErrors ≠ 0
  · rw [if_pos he]
  · rw [if_neg he]
    rcases h with h | h | h
    · exact absurd h he
    · rw [h]
    · rw [h]

/-! ### prepare: reading the environment -/

theorem digitChar_facts (i : Nat) (h1 : 1 ≤ i) (h9 : i ≤ 9) :
    isdigit (digitChar i) = true ∧ atoi_digit (digitChar i) = i := by
  interval_cases i <;> decide!

theorem digit_of_isdigit (d : Char) (h : isdigit d = true) :
    d = digitChar (atoi_digit d) ∧ atoi_digit d ≤ 9 := by
  unfold isdigit Char.isDigit at h
  simp only [Bool.and_eq_true, decide_eq_true_eq] at h
  obtain ⟨h1, h2⟩ := h
  have h1n : 48 ≤ d.toNat := h1
  have h2n : d.toNat ≤ 57 := h2
  unfold atoi_digit digitChar
  have h0 : '0'.toNat = 48 := rfl
  rw [h0]
  constructor
  · have : 48 + (d.toNat - 48) = d.toNat := by omega
    rw [this, Char.ofNat_toNat]
  · omega

theorem slotVariableName_startsWith (family : String) (i : Nat) :
    startsWith (slotVariableName family i) family = true := by
  unfold slotVariableName
  split
  · have h := startsWith_append family ""
    rw [String.append_empty] at h
    exact h
  · exact startsWith_append _ _

/-- The variable named for a slot fills that slot. -/
theorem slotIndex_of_name (family : String) (i : Nat) (hi : i < 10) :
    slotIndex (slotVariableName family i) family.data.length = some i := by
  unfold slotVariableName slotIndex
  by_cases h0 : i = 0
  · subst h0
    simp
  · obtain ⟨hd, ha⟩ := digitChar_facts i (by omega) (by omega)
    rw [if_neg h0, String.data_append]
    have hlen : (family.data ++ (String.mk [digitChar i]).data).length =
        family.data.length + 1 := by simp
    have hget : (family.data ++ (String.mk [digitChar i]).data).getD family.data.length
        (Char.ofNat 0) = digitChar i := by
      rw [List.getD_append_right _ _ _ _ (le_refl _)]
      simp
    rw [hlen, if_neg (by omega), if_pos rfl]
    simp only [hget, hd, ha, if_true]
    rw [if_pos h0]

/-- A variable of the family that fills a slot is the variable named for that slot. -/
theorem name_of_slotIndex (family name : String) (idx : Nat)
    (hstart : startsWith name family = true)
    (h : slotIndex name family.data.length = some idx) :
    idx < 10 ∧ name = slotVariableName family idx := by
  unfold startsWith at hstart
  rw [List.isPrefixOf_iff_prefix] at hstart
  obtain ⟨rest, hrest⟩ := hstart
  have hlen : name.data.length = family.data.length + rest.length := by
    rw [← hrest, List.length_append]
  unfold slotIndex at h
  split at h
  · rename_i h0
    cases h
    have hnil : rest = [] := List.eq_nil_of_length_eq_zero (by omega)
    rw [hnil, List.append_nil] at hrest
    refine ⟨by omega, ?_⟩
    unfold slotVariableName
    rw [if_pos rfl]
    exact String.ext hrest.symm
  · split at h
    · rename_i h1
      have hone : rest.length = 1 := by omega
      obtain ⟨d, hd⟩ := List.length_eq_one.1 hone
      rw [hd] at hrest
      have hget : name.data.getD family.data.length (Char.ofNat 0) = d := by
        rw [← hrest, List.getD_append_right _ _ _ _ (le_refl _)]
        simp
      simp only [hget] at h
      split at h
      · rename_i hdig
        split at h
        · rename_i hne
          cases h
          obtain ⟨hdc, h9⟩ := digit_of_isdigit d hdig
          refine ⟨by omega, ?_⟩
          unfold slotVariableName
          rw [if_neg hne]
          apply String.ext
          rw [String.data_append, ← hrest, ← hdc]
        · cases h
      · cases h
    · cases h

theorem not_startsWith_two (name a b : String) (hab : a.data.isPrefixOf b.data = false)
    (hba : b.data.isPrefixOf a.data = false) (ha : startsWith name a = true) :
    startsWith name b = false := by
  rw [Bool.eq_false_iff]
  intro hb
  unfold startsWith at ha hb
  rw [List.isPrefixOf_iff_prefix] at ha hb
  rcases List.prefix_or_prefix_of_prefix ha hb with h | h
  · rw [← List.isPrefixOf_iff_prefix, hab] at h
    cases h
  · rw [← List.isPrefixOf_iff_prefix, hba] at h
    cases h

theorem name_ne_of_not_startsWith (family name : String) (i : Nat)
    (h : startsWith name family = false) : name ≠ slotVariableName family i := by
  intro heq
  rw [heq, slotVariableName_startsWith] at h
  cases h

theorem getD_set (l : List String) (idx i : Nat) (v : String) (hidx : idx < l.length) :
    (l.set idx v).getD i "" = if idx = i then v else l.getD i "" := by
  rw [List.getD_eq_getElem?_getD, List.getD_eq_getElem?_getD, List.getElem?_set]
  by_cases h : idx = i
  · rw [if_pos h, if_pos h, if_pos hidx]
    rfl
  · rw [if_neg h, if_neg h]

/-- Writing the value of a variable of the family into the array of the family. -/
theorem family_set (family name value : String) (l : List String) (idx i : Nat)
    (hl : l.length = ARRAY_SIZE) (hstart : startsWith name family = true)
    (hidx : slotIndex name family.data.length = some idx) (hi : i < 10) :
    (l.set idx value).getD i "" =
      if name = slotVariableName family i then value else l.getD i "" := by
  obtain ⟨hlt, hname⟩ := name_of_slotIndex family name idx hstart hidx
  rw [getD_set l idx i value (by rw [hl]; exact hlt)]
  by_cases h : idx = i
  · rw [if_pos h, if_pos (by rw [← h]; exact hname)]
  · rw [if_neg h, if_neg]
    intro hn
    rw [hn, slotIndex_of_name family i hi] at hidx
    cases hidx
    exact h rfl

theorem family_none (family name : String) (i : Nat)
    (hidx : slotIndex name family.data.length = none) (hi : i < 10) :
    name ≠ slotVariableName family i := by
  intro hn
  rw [hn, slotIndex_of_name family i hi] at hidx
  cases hidx

theorem families_apart :
    VOL_NAME_ENV_VAR_NAME.data.isPrefixOf VOL_DRIVER_ENV_VAR_NAME.data = false ∧
      VOL_DRIVER_ENV_VAR_NAME.data.isPrefixOf VOL_NAME_ENV_VAR_NAME.data = false ∧
      VOL_NAME_ENV_VAR_NAME.data.isPrefixOf VOL_OPTS_ENV_VAR_NAME.data = false ∧
      VOL_OPTS_ENV_VAR_NAME.data.isPrefixOf VOL_NAME_ENV_VAR_NAME.data = false ∧
      VOL_DRIVER_ENV_VAR_NAME.data.isPrefixOf VOL_OPTS_ENV_VAR_NAME.data = false ∧
      VOL_OPTS_ENV_VAR_NAME.data.isPrefixOf VOL_DRIVER_ENV_VAR_NAME.data = false := by
  decide!

/-- One step of the loop over a clean environment: the slot a variable is named for takes
its value, every other slot of the three arrays keeps its own. -/
theorem parseVariable_clean (slots : Slots) (var : Variable) (hw : WellSized slots)
    (hclean : (startsWith var.name VOL_NAME_ENV_VAR_NAME = true ∨
      startsWith var.name VOL_DRIVER_ENV_VAR_NAME = true ∨
      startsWith var.name VOL_OPTS_ENV_VAR_NAME = true) →
        containsProhibitedChars var.value = false) :
    ∃ slots1, parseVariable slots var = some slots1 ∧ WellSized slots1 ∧
      ∀ i, i < 10 →
        (slots1.volumeNames.getD i "" =
            if var.name = slotVariableName VOL_NAME_ENV_VAR_NAME i then var.value
            else slots.volumeNames.getD i "") ∧
          (slots1.deviceDriverNames.getD i "" =
            if var.name = slotVariableName VOL_DRIVER_ENV_VAR_NAME i then var.value
            else slots.deviceDriverNames.getD i "") ∧
          (slots1.mountOptions.getD i "" =
            if var.name = slotVariableName VOL_OPTS_ENV_VAR_NAME i then var.value
            else slots.mountOptions.getD i "") := by
  obtain ⟨hnd, hdn, hno, hon, hdo, hod⟩ := families_apart
  have hc : (startsWith var.name VOL_NAME_ENV_VAR_NAME = true ∨
      startsWith var.name VOL_DRIVER_ENV_VAR_NAME = true ∨
      startsWith var.name VOL_OPTS_ENV_VAR_NAME = true) →
        ¬ containsProhibitedChars var.value = true := by
    intro h; rw [hclean h]; simp
  unfold parseVariable
  by_cases h1 : startsWith var.name VOL_NAME_ENV_VAR_NAME = true
  · have hD := not_startsWith_two var.name _ _ hnd hdn h1
    have hO := not_startsWith_two var.name _ _ hno hon h1
    rw [if_pos h1, if_neg (hc (Or.inl h1))]
    cases hidx : slotIndex var.name VOL_NAME_ENV_VAR_NAME.data.length with
    | none =>
      refine ⟨slots, rfl, hw, fun i hi => ⟨?_, ?_, ?_⟩⟩
      · rw [if_neg (family_none _ _ i hidx hi)]
      · rw [if_neg (name_ne_of_not_startsWith _ _ i hD)]
      · rw [if_neg (name_ne_of_not_startsWith _ _ i hO)]
    | some idx =>
      refine ⟨_, rfl, ⟨hw.1, by simp only [List.length_set]; exact hw.2.1, hw.2.2⟩,
        fun i hi => ⟨?_, ?_, ?_⟩⟩
      · exact family_set _ _ _ _ idx i hw.2.1 h1 hidx hi
      · rw [if_neg (name_ne_of_not_startsWith _ _ i hD)]
      · rw [if_neg (name_ne_of_not_startsWith _ _ i hO)]
  · have hN : startsWith var.name VOL_NAME_ENV_VAR_NAME = false := Bool.eq_false_iff.2 h1
    rw [if_neg h1]
    by_cases h2 : startsWith var.name VOL_DRIVER_ENV_VAR_NAME = true
    · have hO := not_startsWith_two var.name _ _ hdo hod h2
      rw [if_pos h2, if_neg (hc (Or.inr (Or.inl h2)))]
      cases hidx : slotIndex var.name VOL_DRIVER_ENV_VAR_NAME.data.length with
      | none =>
        refine ⟨slots, rfl, hw, fun i hi => ⟨?_, ?_, ?_⟩⟩
        · rw [if_neg (name_ne_of_not_startsWith _ _ i hN)]
        · rw [if_neg (family_none _ _ i hidx hi)]
        · rw [if_neg (name_ne_of_not_startsWith _ _ i hO)]
      | some idx =>
        refine ⟨_, rfl, ⟨by simp only [List.length_set]; exact hw.1, hw.2.1, hw.2.2⟩,
          fun i hi => ⟨?_, ?_, ?_⟩⟩
        · rw [if_neg (name_ne_of_not_startsWith _ _ i hN)]
        · exact family_set _ _ _ _ idx i hw.1 h2 hidx hi
        · rw [if_neg (name_ne_of_not_startsWith _ _ i hO)]
    · have hD : startsWith var.name VOL_DRIVER_ENV_VAR_NAME = false := Bool.eq_false_iff.2 h2
      rw [if_neg h2]
      by_cases h3 : startsWith var.name VOL_OPTS_ENV_VAR_NAME = true
      · rw [if_pos h3, if_neg (hc (Or.inr (Or.inr h3)))]
        cases hidx : slotIndex var.name VOL_OPTS_ENV_VAR_NAME.data.length with
        | none =>
          refine ⟨slots, rfl, hw, fun i hi => ⟨?_, ?_, ?_⟩⟩
          · rw [if_neg (name_ne_of_not_startsWith _ _ i hN)]
          · rw [if_neg (name_ne_of_not_startsWith _ _ i hD)]
          · rw [if_neg (family_none _ _ i hidx hi)]
        | some idx =>
          refine ⟨_, rfl, ⟨hw.1, hw.2.1, by simp only [List.length_set]; exact hw.2.2⟩,
            fun i hi => ⟨?_, ?_, ?_⟩⟩
          · rw [if_neg (name_ne_of_not_startsWith _ _ i hN)]
          · rw [if_neg (name_ne_of_not_startsWith _ _ i hD)]
          · exact family_set _ _ _ _ idx i hw.2.2 h3 hidx hi
      · have hO : startsWith var.name VOL_OPTS_ENV_VAR_NAME = false := Bool.eq_false_iff.2 h3
        rw [if_neg h3]
        refine ⟨slots, rfl, hw, fun i hi => ⟨?_, ?_, ?_⟩⟩
        · rw [if_neg (name_ne_of_not_startsWith _ _ i hN)]
        · rw [if_neg (name_ne_of_not_startsWith _ _ i hD)]
        · rw [if_neg (name_ne_of_not_startsWith _ _ i hO)]

theorem wellSized_empty : WellSized emptySlots := by
  unfold WellSized emptySlots
  simp

theorem emptySlots_getD (i : Nat) :
    emptySlots.volumeNames.getD i "" = "" ∧ emptySlots.deviceDriverNames.getD i "" = "" ∧
      emptySlots.mountOptions.getD i "" = "" := by
  have h : (List.replicate ARRAY_SIZE "").getD i "" = "" := by
    rcases getD_mem_or_default (List.replicate ARRAY_SIZE "") i "" with h | h
    · exact h
    · exact (List.mem_replicate.1 h).2
  exact ⟨h, h, h⟩

/-- The loop over a clean environment ends with every slot holding the value of the last
variable named for it, or what it held before. -/
theorem parseVariables_clean :
    ∀ (vars : List Variable) (slots0 : Slots), WellSized slots0 →
      (∀ v ∈ vars, (startsWith v.name VOL_NAME_ENV_VAR_NAME = true ∨
        startsWith v.name VOL_DRIVER_ENV_VAR_NAME = true ∨
        startsWith v.name VOL_OPTS_ENV_VAR_NAME = true) →
          containsProhibitedChars v.value = false) →
        ∃ slots, parseVariables vars slots0 = some slots ∧ WellSized slots ∧
          ∀ i, i < 10 →
            (slots.volumeNames.getD i "" =
                vars.foldl (fun acc v =>
                  if v.name = slotVariableName VOL_NAME_ENV_VAR_NAME i then v.value else acc)
                  (slots0.volumeNames.getD i "")) ∧
              (slots.deviceDriverNames.getD i "" =
                vars.foldl (fun acc v =>
                  if v.name = slotVariableName VOL_DRIVER_ENV_VAR_NAME i then v.value else acc)
                  (slots0.deviceDriverNames.getD i "")) ∧
              (slots.mountOptions.getD i "" =
                vars.foldl (fun acc v =>
                  if v.name = slotVariableName VOL_OPTS_ENV_VAR_NAME i then v.value else acc)
                  (slots0.mountOptions.getD i "")) := by
  intro vars
  induction vars with
  | nil =>
    intro slots0 hw _
    exact ⟨slots0, rfl, hw, fun i _ => ⟨rfl, rfl, rfl⟩⟩
  | cons v rest ih =>
    intro slots0 hw hclean
    obtain ⟨slots1, hp1, hw1, h1⟩ :=
      parseVariable_clean slots0 v hw (hclean v (List.mem_cons_self _ _))
    obtain ⟨slots, hp, hws, hs⟩ :=
      ih slots1 hw1 (fun u hu => hclean u (List.mem_cons_of_mem _ hu))
    refine ⟨slots, ?_, hws, fun i hi => ?_⟩
    · rw [parseVariables, hp1]
      exact hp
    · obtain ⟨a1, a2, a3⟩ := h1 i hi
      obtain ⟨b1, b2, b3⟩ := hs i hi
      rw [b1, b2, b3, a1, a2, a3]
      exact ⟨rfl, rfl, rfl⟩

theorem filter_map_eq_filterMap {α β : Type} (l : List α) (p : α → Bool) (f : α → β)
    (g : α → Option β) (h : ∀ a ∈ l, g a = if p a = true then some (f a) else none) :
    (l.filter p).map f = l.filterMap g := by
  induction l with
  | nil => rfl
  | cons a rest ih =>
    have ha := h a (List.mem_cons_self _ _)
    have hrest := ih (fun b hb => h b (List.mem_cons_of_mem _ hb))
    by_cases hp : p a = true
    · rw [if_pos hp] at ha
      rw [List.filter_cons_of_pos hp, List.map_cons, List.filterMap_cons_some ha, hrest]
    · rw [if_neg hp] at ha
      rw [List.filter_cons_of_neg hp, List.filterMap_cons_none ha, hrest]

theorem requested_subset_candidates (infos : containermountmap) (containerId : ContainerID)
    (slots : Slots) :
    ∀ m ∈ (buildRequests infos containerId slots).requestedExternalMounts,
      m ∈ candidateMounts containerId slots := by
  have hstep : ∀ (acc : Requests) (i : Nat), i < ARRAY_SIZE →
      (∀ m ∈ acc.requestedExternalMounts, m ∈ candidateMounts containerId slots) →
        ∀ m ∈ (requestStep infos containerId slots acc i).requestedExternalMounts,
          m ∈ candidateMounts containerId slots := by
    intro acc i hi hacc
    unfold requestStep
    split
    · exact hacc
    · rename_i hne
      have hcand : slotMount containerId slots i ∈ candidateMounts containerId slots := by
        unfold candidateMounts
        refine List.mem_map.2 ⟨i, List.mem_filter.2 ⟨List.mem_range.2 hi, ?_⟩, rfl⟩
        simpa using hne
      simp only []
      split
      · exact hacc
      · split <;>
        · intro m hm
          rcases List.mem_append.1 hm with h1 | h1
          · exact hacc m h1
          · rw [List.mem_singleton.1 h1]; exact hcand
  have hgen : ∀ (l : List Nat) (acc : Requests), (∀ i ∈ l, i < ARRAY_SIZE) →
      (∀ m ∈ acc.requestedExternalMounts, m ∈ candidateMounts containerId slots) →
        ∀ m ∈ (l.foldl (requestStep infos containerId slots) acc).requestedExternalMounts,
          m ∈ candidateMounts containerId slots := by
    intro l
    induction l with
    | nil => intro acc _ h; exact h
    | cons i rest ih =>
      intro acc hl h
      exact ih _ (fun j hj => hl j (List.mem_cons_of_mem _ hj))
        (hstep acc i (hl i (List.mem_cons_self _ _)) h)
  exact hgen _ _ (fun i hi => List.mem_range.1 hi) (fun m hm => absurd hm (List.not_mem_nil m))

/-- C21: for an environment whose volume variables (the ones the loop reads) have values
free of prohibited characters the loop over the environment succeeds, and the records the
loop over the slots builds are, as triples of driver, name and options, the candidates of
the reference definition; the requested mounts kept after the duplicate check are among
them and cover their identities. -/
theorem C21_request_parsing (infos : containermountmap) (containerId : ContainerID)
    (vars : List Variable)
    (hclean : ∀ v ∈ vars, (startsWith v.name VOL_NAME_ENV_VAR_NAME = true ∨
        startsWith v.name VOL_DRIVER_ENV_VAR_NAME = true ∨
        startsWith v.name VOL_OPTS_ENV_VAR_NAME = true) →
          containsProhibitedChars v.value = false) :
    ∃ slots, parseVariables vars emptySlots = some slots ∧
      (candidateMounts containerId slots).map
          (fun m => (m.volumedriver, m.volumename, m.options)) = referenceCandidates vars ∧
      (∀ m ∈ (buildRequests infos containerId slots).requestedExternalMounts,
        m ∈ candidateMounts containerId slots) ∧
      (∀ m ∈ candidateMounts containerId slots,
        ∃ r ∈ (buildRequests infos containerId slots).requestedExternalMounts,
          getExternalMountId r = getExternalMountId m) := by
  obtain ⟨slots, hparse, _, hs⟩ := parseVariables_clean vars emptySlots wellSized_empty hclean
  refine ⟨slots, hparse, ?_, requested_subset_candidates infos containerId slots, ?_⟩
  · unfold candidateMounts referenceCandidates
    rw [List.map_map]
    apply filter_map_eq_filterMap
    intro i hi
    obtain ⟨hN, hD, hO⟩ := hs i (List.mem_range.1 hi)
    obtain ⟨eN, eD, eO⟩ := emptySlots_getD i
    rw [eN] at hN
    rw [eD] at hD
    rw [eO] at hO
    have rN : referenceSlotValue vars "DVDI_VOLUME_NAME" i = slots.volumeNames.getD i "" :=
      hN.symm
    have rD : referenceSlotValue vars "DVDI_VOLUME_DRIVER" i =
        slots.deviceDriverNames.getD i "" := hD.symm
    have rO : referenceSlotValue vars "DVDI_VOLUME_OPTS" i = slots.mountOptions.getD i "" :=
      hO.symm
    rw [rN, rD, rO]
    by_cases hn : slots.volumeNames.getD i "" = ""
    · have hb : (!(slots.volumeNames.getD i "").data.isEmpty) = false := by
        rw [(isEmpty_data_iff _).2 hn]; rfl
      rw [if_pos hn, hb, if_neg (by simp)]
    · have hb : (!(slots.volumeNames.getD i "").data.isEmpty) = true := by
        have : (slots.volumeNames.getD i "").data.isEmpty = false :=
          Bool.eq_false_iff.2 (fun h => hn ((isEmpty_data_iff _).1 h))
        rw [this]; rfl
      rw [if_neg hn, hb, if_pos rfl]
      unfold slotMount
      simp only [Function.comp_apply]
      by_cases hd : slots.deviceDriverNames.getD i "" = ""
      · rw [if_pos hd, if_pos ((isEmpty_data_iff _).2 hd)]
        rfl
      · rw [if_neg hd, if_neg (fun h => hd ((isEmpty_data_iff _).1 h))]
  · intro m hm
    unfold candidateMounts at hm
    obtain ⟨i, hi, rfl⟩ := List.mem_map.1 hm
    obtain ⟨hrange, hne⟩ := List.mem_filter.1 hi
    have hname : slots.volumeNames.getD i "" ≠ "" := by
      intro h
      rw [(isEmpty_data_iff _).2 h] at hne
      cases hne
    exact foldl_requestStep_requested infos containerId slots i hname
      (List.range ARRAY_SIZE) ⟨[], [], []⟩ hrange

theorem C21_request_parsing_witness :
    (∀ v ∈ envMixed, (startsWith v.name VOL_NAME_ENV_VAR_NAME = true ∨
        startsWith v.name VOL_DRIVER_ENV_VAR_NAME = true ∨
        startsWith v.name VOL_OPTS_ENV_VAR_NAME = true) →
          containsProhibitedChars v.value = false) ∧
      referenceCandidates envMixed =
        [("rexray", "a", ""), ("rexray", "b", "size=5"), ("nfs", "c", "")] ∧
      ∃ slots, parseVariables envMixed emptySlots = some slots ∧
        (candidateMounts w1 slots).map (fun m => (m.volumedriver, m.volumename, m.options)) =
          referenceCandidates envMixed ∧
        (∀ m ∈ (buildRequests storeAB w1 slots).requestedExternalMounts,
          m ∈ candidateMounts w1 slots) ∧
        (∀ m ∈ candidateMounts w1 slots,
          ∃ r ∈ (buildRequests storeAB w1 slots).requestedExternalMounts,
            getExternalMountId r = getExternalMountId m) :=
  ⟨by decide!, by decide!, C21_request_parsing storeAB w1 envMixed (by decide!)⟩

/-! ### prepare: duplicates within one request -/

theorem identityCount_append (l : List ExternalMount) (m : ExternalMount)
    (id : ExternalMountID) :
    identityCount (l ++ [m]) id =
      identityCount l id + (if getExternalMountId m = id then 1 else 0) := by
  simp only [identityCount, List.countP_append, List.countP_cons, List.countP_nil, beq_iff_eq,
    Nat.zero_add]

theorem identityCount_cons (m : ExternalMount) (l : List ExternalMount)
    (id : ExternalMountID) :
    identityCount (m :: l) id =
      identityCount l id + (if getExternalMountId m = id then 1 else 0) := by
  simp only [identityCount, List.countP_cons, beq_iff_eq]

theorem identityCount_eq_zero (l : List ExternalMount) (id : ExternalMountID)
    (h : ∀ r ∈ l, getExternalMountId r ≠ id) : identityCount l id = 0 := by
  unfold identityCount
  rw [List.countP_eq_zero]
  intro r hr hp
  exact h r hr (beq_iff_eq.1 hp)

theorem identityCount_pos (l : List ExternalMount) (id : ExternalMountID) (r : ExternalMount)
    (hr : r ∈ l) (hid : getExternalMountId r = id) : 0 < identityCount l id := by
  unfold identityCount
  rw [List.countP_pos_iff]
  exact ⟨r, hr, beq_iff_eq.2 hid⟩

theorem requestStep_requested_cases (infos : containermountmap) (containerId : ContainerID)
    (slots : Slots) (acc : Requests) (i : Nat) (m : ExternalMount)
    (hm : m ∈ (requestStep infos containerId slots acc i).requestedExternalMounts) :
    m ∈ acc.requestedExternalMounts ∨
      (m = slotMount containerId slots i ∧ slots.volumeNames.getD i "" ≠ "" ∧
        ∀ r ∈ acc.requestedExternalMounts,
          getExternalMountId r ≠ getExternalMountId (slotMount containerId slots i)) := by
  unfold requestStep at hm
  split at hm
  · exact Or.inl hm
  · rename_i hne
    simp only [] at hm
    split at hm
    · exact Or.inl hm
    · rename_i hdup
      have hnew : ∀ r ∈ acc.requestedExternalMounts,
          getExternalMountId r ≠ getExternalMountId (slotMount containerId slots i) := by
        intro r hr heq
        apply hdup
        rw [List.any_eq_true]
        exact ⟨r, hr, beq_iff_eq.2 heq⟩
      have hname : slots.volumeNames.getD i "" ≠ "" :=
        fun h => hne ((isEmpty_data_iff _).2 h)
      split at hm <;>
      · rcases List.mem_append.1 hm with h1 | h1
        · exact Or.inl h1
        · exact Or.inr ⟨List.mem_singleton.1 h1, hname, hnew⟩

/-- Each identity is requested at most once, and each requested record is either to be
mounted or already connected. -/
theorem requestStep_counts (infos : containermountmap) (containerId : ContainerID)
    (slots : Slots) (id : ExternalMountID) (acc : Requests) (i : Nat)
    (h : identityCount acc.prevConnectedExternalMounts id +
          identityCount acc.unconnectedExternalMounts id =
        identityCount acc.requestedExternalMounts id ∧
      identityCount acc.requestedExternalMounts id ≤ 1) :
    identityCount (requestStep infos containerId slots acc i).prevConnectedExternalMounts id +
          identityCount (requestStep infos containerId slots acc i).unconnectedExternalMounts id =
        identityCount (requestStep infos containerId slots acc i).requestedExternalMounts id ∧
      identityCount (requestStep infos containerId slots acc i).requestedExternalMounts id ≤ 1 := by
  unfold requestStep
  split
  · exact h
  · simp only []
    split
    · exact h
    · rename_i hdup
      have hzero : getExternalMountId (slotMount containerId slots i) = id →
          identityCount acc.requestedExternalMounts id = 0 := by
        intro hx
        apply identityCount_eq_zero
        intro r hr heq
        apply hdup
        rw [List.any_eq_true]
        exact ⟨r, hr, beq_iff_eq.2 (heq.trans hx.symm)⟩
      split
      · rename_i ent hfind
        have hfound := List.find?_some hfind
        have hident : getExternalMountId ent.2 =
            getExternalMountId (slotMount containerId slots i) := beq_iff_eq.1 hfound
        simp only []
        rw [identityCount_append, identityCount_append, hident]
        by_cases hx : getExternalMountId (slotMount containerId slots i) = id
        · rw [if_pos hx]
          have := hzero hx
          omega
        · rw [if_neg hx]
          omega
      · simp only []
        rw [identityCount_append, identityCount_append]
        by_cases hx : getExternalMountId (slotMount containerId slots i) = id
        · rw [if_pos hx]
          have := hzero hx
          omega
        · rw [if_neg hx]
          omega

/-- Each previously connected record is the first entry of its identity in the store. -/
theorem requestStep_prev_found (infos : containermountmap) (containerId : ContainerID)
    (slots : Slots) (acc : Requests) (i : Nat)
    (h : ∀ m ∈ acc.prevConnectedExternalMounts, ∃ ent,
      infos.find? (fun e => getExternalMountId e.2 == getExternalMountId m) = some ent ∧
        ent.2 = m) :
    ∀ m ∈ (requestStep infos containerId slots acc i).prevConnectedExternalMounts, ∃ ent,
      infos.find? (fun e => getExternalMountId e.2 == getExternalMountId m) = some ent ∧
        ent.2 = m := by
  unfold requestStep
  split
  · exact h
  · simp only []
    split
    · exact h
    · split
      · rename_i ent hfind
        have hfound := List.find?_some hfind
        have hident : getExternalMountId ent.2 =
            getExternalMountId (slotMount containerId slots i) := beq_iff_eq.1 hfound
        intro m hm
        rcases List.mem_append.1 hm with h1 | h1
        · exact h m h1
        · rw [List.mem_singleton.1 h1, hident]
          exact ⟨ent, hfind, rfl⟩
      · exact h

theorem foldl_requestStep_inv (infos : containermountmap) (containerId : ContainerID)
    (slots : Slots) (P : Requests → Prop)
    (hstep : ∀ acc i, P acc → P (requestStep infos containerId slots acc i)) :
    ∀ (l : List Nat) (acc : Requests), P acc →
      P (l.foldl (requestStep infos containerId slots) acc) := by
  intro l
  induction l with
  | nil => intro acc h; exact h
  | cons i rest ih =>
    intro acc h
    exact ih _ (hstep acc i h)

/-- Each requested record was built from the first slot of its identity. -/
theorem requested_first_slot (infos : containermountmap) (containerId : ContainerID)
    (slots : Slots) :
    ∀ n, ∀ m ∈ ((List.range n).foldl (requestStep infos containerId slots)
        ⟨[], [], []⟩).requestedExternalMounts,
      ∃ k, k < n ∧ slots.volumeNames.getD k "" ≠ "" ∧ m = slotMount containerId slots k ∧
        ∀ h, h < k → slots.volumeNames.getD h "" ≠ "" →
          getExternalMountId (slotMount containerId slots h) ≠
            getExternalMountId (slotMount containerId slots k) := by
  intro n
  induction n with
  | zero =>
    intro m hm
    rw [List.range_zero, List.foldl_nil] at hm
    exact absurd hm (List.not_mem_nil m)
  | succ n ih =>
    intro m hm
    rw [List.range_succ, List.foldl_append, List.foldl_cons, List.foldl_nil] at hm
    rcases requestStep_requested_cases _ _ _ _ _ _ hm with h1 | ⟨h1, hname, hnew⟩
    · obtain ⟨k, hk, rest⟩ := ih m h1
      exact ⟨k, Nat.lt_succ_of_lt hk, rest⟩
    · refine ⟨n, Nat.lt_succ_self n, hname, h1, ?_⟩
      intro h hh hhname heq
      obtain ⟨r, hr, hrid⟩ := foldl_requestStep_requested infos containerId slots h hhname
        (List.range n) ⟨[], [], []⟩ (List.mem_range.2 hh)
      exact hnew r hr (hrid.trans heq)

theorem mountCallsOf_cons_unmount (em : ExternalMount) (calls : List Call)
    (id : ExternalMountID) :
    mountCallsOf (Call.unmount em :: calls) id = mountCallsOf calls id := by
  simp only [mountCallsOf, List.countP_cons, Bool.false_eq_true, if_false, Nat.add_zero]

theorem mountCallsOf_cons_mount (em : ExternalMount) (calls : List Call)
    (id : ExternalMountID) :
    mountCallsOf (Call.mount em :: calls) id =
      mountCallsOf calls id + (if getExternalMountId em = id then 1 else 0) := by
  simp only [mountCallsOf, List.countP_cons, beq_iff_eq]

theorem mountCallsOf_revertMounts (host : Host) (id : ExternalMountID) :
    ∀ l, mountCallsOf (revertMounts host l) id = 0 := by
  intro l
  induction l with
  | nil => rfl
  | cons m rest ih =>
    unfold revertMounts
    split
    · rw [mountCallsOf_cons_unmount]; rfl
    · rw [mountCallsOf_cons_unmount]; exact ih

/-- The mount loop invokes at most one mount per record handed to it. -/
theorem mountLoop_mountCalls (host : Host) (containerId : ContainerID)
    (id : ExternalMountID) :
    ∀ (l successful : List ExternalMount),
      mountCallsOf (mountLoop host containerId l successful).2 id ≤ identityCount l id := by
  intro l
  induction l with
  | nil => intro successful; exact Nat.zero_le _
  | cons iter rest ih =>
    intro successful
    unfold mountLoop
    simp only []
    rw [identityCount_cons]
    split
    · simp only []
      rw [mountCallsOf_cons_mount]
      have := ih (successful ++ [newmount containerId iter (mount host iter)])
      omega
    · simp only []
      rw [mountCallsOf_cons_mount, mountCallsOf_revertMounts]
      omega

/-- A `prepare` that returns the ready future went through the whole mount loop. -/
theorem prepare_ready_mounted (host : Host) (infos : containermountmap)
    (containerId : ContainerID) (vars : List Variable) (slots : Slots)
    (hparse : parseVariables vars emptySlots = some slots)
    (hready : (prepare host infos containerId (some vars)).future = Future.ready none) :
    ∃ res, (mountLoop host containerId
      (buildRequests infos containerId slots).unconnectedExternalMounts []).1 = some res := by
  unfold prepare at hready
  simp only [hparse] at hready
  rcases hm : mountLoop host containerId
      (buildRequests infos containerId slots).unconnectedExternalMounts [] with ⟨res, calls⟩
  rw [hm] at hready
  cases res with
  | none => simp at hready
  | some res => exact ⟨res, rfl⟩

theorem filter_eq_singleton {α : Type} (p : α → Bool) (l : List α) (a : α)
    (hc : l.countP p = 1) (ha : a ∈ l) (hp : p a = true) : l.filter p = [a] := by
  have hlen : (l.filter p).length = 1 := by
    rw [← List.countP_eq_length_filter]
    exact hc
  have hmem : a ∈ l.filter p := List.mem_filter.2 ⟨ha, hp⟩
  obtain ⟨b, hb⟩ := List.length_eq_one.1 hlen
  rw [hb] at hmem ⊢
  rw [List.mem_singleton.1 hmem]

theorem countP_keyed (containerId : ContainerID) (id : ExternalMountID) :
    ∀ l : List ExternalMount,
      (l.map (fun m => (containerId, m))).countP (fun e => getExternalMountId e.2 == id) =
        identityCount l id := by
  intro l
  induction l with
  | nil => rfl
  | cons m rest ih =>
    rw [List.map_cons, List.countP_cons, identityCount_cons, ih]
    simp only [beq_iff_eq]

theorem identityCount_newmount (host : Host) (containerId : ContainerID)
    (id : ExternalMountID) :
    ∀ l : List ExternalMount,
      identityCount (l.map (fun m => newmount containerId m (mount host m))) id =
        identityCount l id := by
  intro l
  induction l with
  | nil => rfl
  | cons m rest ih =>
    rw [List.map_cons, identityCount_cons, identityCount_cons, ih,
      getExternalMountId_newmount]

theorem added_count (host : Host) (containerId : ContainerID) (id : ExternalMountID)
    (prev unc : List ExternalMount) :
    (prev.map (fun m => (containerId, m)) ++
        (unc.map (fun m => newmount containerId m (mount host m))).map
          (fun m => (containerId, m))).countP
        (fun e => getExternalMountId e.2 == id) =
      identityCount prev id + identityCount unc id := by
  rw [List.countP_append, countP_keyed, countP_keyed, identityCount_newmount]

/-! ### recover: the loop over the parsed list -/

theorem recoverMount_fst (m : ExternalMount) : (recoverMount m).1 = scrub m := by
  unfold recoverMount
  simp only [if_true]
  split <;> rfl

theorem recoverMount_snd (m : ExternalMount) :
    (recoverMount m).2 =
      if (scrub m).containerid ≠ "" ∧ (scrub m).volumename ≠ "" then some (scrub m).containerid
      else none := by
  unfold recoverMount
  simp only [if_true]
  by_cases hk : (scrub m).containerid ≠ "" ∧ (scrub m).volumename ≠ ""
  · have h1 : (scrub m).containerid.data.isEmpty = false := by
      rw [Bool.eq_false_iff]; exact fun h => hk.1 ((isEmpty_data_iff _).1 h)
    have h2 : (scrub m).volumename.data.isEmpty = false := by
      rw [Bool.eq_false_iff]; exact fun h => hk.2 ((isEmpty_data_iff _).1 h)
    rw [if_pos hk]
    simp [h1, h2]
  · have : (scrub m).containerid.data.isEmpty = true ∨
        (scrub m).volumename.data.isEmpty = true := by
      by_cases h1 : (scrub m).containerid = ""
      · exact Or.inl ((isEmpty_data_iff _).2 h1)
      · by_cases h2 : (scrub m).volumename = ""
        · exact Or.inr ((isEmpty_data_iff _).2 h2)
        · exact absurd ⟨h1, h2⟩ hk
    rw [if_neg hk]
    rcases this with h | h <;> simp [h]

theorem retained_cons (m : ExternalMount) (rest : List ExternalMount) :
    retained (m :: rest) =
      if (scrub m).containerid ≠ "" ∧ (scrub m).volumename ≠ "" then scrub m :: retained rest
      else retained rest := by
  unfold retained
  by_cases hk : (scrub m).containerid ≠ "" ∧ (scrub m).volumename ≠ ""
  · have hk1 : decide ((scrub m).containerid ≠ "" ∧ (scrub m).volumename ≠ "") = true :=
      decide_eq_true hk
    simp only [List.map_cons, List.filter_cons, hk1, if_true, if_pos hk]
  · have hk1 : decide ((scrub m).containerid ≠ "" ∧ (scrub m).volumename ≠ "") = false :=
      decide_eq_false hk
    simp only [List.map_cons, List.filter_cons, hk1, Bool.false_eq_true, if_false, if_neg hk]

/-- The keys put by the loop are the container ids of the kept records, in order. -/
theorem recoverLoop_keys :
    ∀ (l : List ExternalMount) (acc : List String × Option ExternalMount),
      (recoverLoop l acc).1 = acc.1 ++ (retained l).map (fun m => m.containerid) := by
  intro l
  induction l with
  | nil => intro acc; simp [recoverLoop, retained]
  | cons m rest ih =>
    intro acc
    unfold recoverLoop
    rw [recoverMount_snd, retained_cons]
    by_cases hk : (scrub m).containerid ≠ "" ∧ (scrub m).volumename ≠ ""
    · rw [if_pos hk, if_pos hk]
      simp only []
      rw [ih, List.map_cons, List.append_assoc]
      rfl
    · rw [if_neg hk, if_neg hk]
      simp only []
      rw [ih]

theorem recoverLoop_append (a b : List ExternalMount) :
    ∀ acc : List String × Option ExternalMount,
      recoverLoop (a ++ b) acc = recoverLoop b (recoverLoop a acc) := by
  induction a with
  | nil => intro acc; rfl
  | cons m rest ih =>
    intro acc
    rw [List.cons_append]
    simp only [recoverLoop]
    split
    · rw [ih]
    · rw [ih]

/-- After the loop the object at the address of the loop-local is the last record, as
scrubbed. -/
theorem recoverLoop_last (front : List ExternalMount) (last : ExternalMount)
    (acc : List String × Option ExternalMount) :
    (recoverLoop (front ++ [last]) acc).2 = some (scrub last) := by
  rw [recoverLoop_append]
  unfold recoverLoop
  split
  · unfold recoverLoop
    simp only []
    rw [recoverMount_fst]
  · unfold recoverLoop
    simp only []
    rw [recoverMount_fst]

theorem original_nil : originalContainerMounts [] = [] := rfl

/-- Read after the loop, `originalContainerMounts` pairs the container id of each kept
record with the last record of the list, as scrubbed. -/
theorem original_eq (front : List ExternalMount) (last : ExternalMount) :
    originalContainerMounts (front ++ [last]) =
      (retained (front ++ [last])).map (fun m => (m.containerid, scrub last)) := by
  unfold originalContainerMounts
  have hk := recoverLoop_keys (front ++ [last]) ([], none)
  have hl := recoverLoop_last front last ([], none)
  rcases hr : recoverLoop (front ++ [last]) ([], none) with ⟨keys, slot⟩
  rw [hr] at hk hl
  simp only [List.nil_append] at hk hl
  subst hk
  subst hl
  simp only [List.map_map]
  rfl

/-- Every value of `originalContainerMounts` is one and the same record, a scrubbed
one. -/
theorem original_alias (mountlist : List ExternalMount) :
    ∃ last, ∀ elem ∈ originalContainerMounts mountlist, elem.2 = scrub last := by
  rcases List.eq_nil_or_concat mountlist with h | ⟨front, last, h⟩
  · subst h
    exact ⟨⟨"", "", "", "", ""⟩, fun elem helem => absurd helem (List.not_mem_nil elem)⟩
  · subst h
    refine ⟨last, fun elem helem => ?_⟩
    rw [List.concat_eq_append, original_eq] at helem
    obtain ⟨m, _, rfl⟩ := List.mem_map.1 helem
    rfl

theorem legacy_keyed (original : List (String × ExternalMount)) :
    KeyedById (legacyMountsOf original) ∧
      ∀ k, k ∈ (legacyMountsOf original).map Prod.fst ↔
        ∃ elem ∈ original, getExternalMountId elem.2 = k := by
  obtain ⟨h1, h2⟩ := legacy_fold original []
    ⟨List.nodup_nil, fun ent h => absurd h (List.not_mem_nil ent)⟩
  refine ⟨h1, fun k => ?_⟩
  have h3 := h2 k
  simp only [List.map_nil, List.not_mem_nil, false_or] at h3
  exact h3

/-- A key in use is not left among the orphans. -/
theorem eraseInUse_not_mem (legacyMounts inUseMounts : externalmountmap)
    (ent : ExternalMountID × ExternalMount) (hent : ent ∈ eraseInUse legacyMounts inUseMounts) :
    ent.1 ∉ inUseMounts.map Prod.fst := by
  intro hin
  have hc := countP_key_eraseInUse inUseMounts ent.1 legacyMounts
  rw [if_pos hin, List.countP_eq_zero] at hc
  exact hc ent hent (beq_self_eq_true _)

/-- The identities that `recover` marks as in use include those of the records of every
listed container. -/
theorem reattach_inUse (state : ContainerID) :
    ∀ (l : List ExternalMount) (acc : containermountmap × externalmountmap),
      (∀ k ∈ acc.2.map Prod.fst, k ∈ (reattach state l acc).2.map Prod.fst) ∧
        ∀ iter ∈ l, getExternalMountId iter ∈ (reattach state l acc).2.map Prod.fst := by
  intro l
  induction l with
  | nil => intro acc; exact ⟨fun k hk => hk, fun iter h => absurd h (List.not_mem_nil iter)⟩
  | cons m rest ih =>
    intro acc
    rw [reattach]
    obtain ⟨h1, h2⟩ := ih (acc.1 ++ [(state, m)], acc.2.put (getExternalMountId m) m)
    constructor
    · intro k hk
      exact h1 k ((mem_keys_put _ _ _ _).2 (Or.inr hk))
    · intro iter hiter
      rcases List.mem_cons.1 hiter with h | h
      · subst h
        exact h1 _ ((mem_keys_put _ _ _ _).2 (Or.inl rfl))
      · exact h2 iter h

theorem recoverStates_inUse (original : List (String × ExternalMount)) :
    ∀ (states : List ContainerID) (acc : containermountmap × externalmountmap),
      (∀ k ∈ acc.2.map Prod.fst, k ∈ (recoverStates original states acc).2.map Prod.fst) ∧
        ∀ state ∈ states, ∀ elem ∈ original, elem.1 = state.value →
          getExternalMountId elem.2 ∈ (recoverStates original states acc).2.map Prod.fst := by
  intro states
  induction states with
  | nil =>
    intro acc
    exact ⟨fun k hk => hk, fun state h => absurd h (List.not_mem_nil state)⟩
  | cons s rest ih =>
    intro acc
    unfold recoverStates
    split
    · obtain ⟨h1, h2⟩ := ih (reattach s
        ((original.filter (fun elem => elem.1 == s.value)).map Prod.snd) acc)
      obtain ⟨r1, r2⟩ := reattach_inUse s
        ((original.filter (fun elem => elem.1 == s.value)).map Prod.snd) acc
      constructor
      · intro k hk
        exact h1 k (r1 k hk)
      · intro state hstate elem helem hkey
        rcases List.mem_cons.1 hstate with h | h
        · subst h
          apply h1
          apply r2
          exact List.mem_map.2 ⟨elem, List.mem_filter.2 ⟨helem, by simpa using hkey⟩, rfl⟩
        · exact h2 state h elem helem hkey
    · rename_i hany
      obtain ⟨h1, h2⟩ := ih acc
      refine ⟨h1, ?_⟩
      intro state hstate elem helem hkey
      rcases List.mem_cons.1 hstate with h | h
      · subst h
        exact absurd (List.any_eq_true.2 ⟨elem, helem, by simpa using hkey⟩) hany
      · exact h2 state h elem helem hkey

/-- Without a listed container that has a key in `originalContainerMounts`, the loop over
`states` changes nothing. -/
theorem recoverStates_unlisted (original : List (String × ExternalMount)) :
    ∀ (states : List ContainerID) (acc : containermountmap × externalmountmap),
      (∀ state ∈ states, ∀ elem ∈ original, elem.1 ≠ state.value) →
        recoverStates original states acc = acc := by
  intro states
  induction states with
  | nil => intro acc _; rfl
  | cons s rest ih =>
    intro acc h
    unfold recoverStates
    split
    · rename_i hany
      obtain ⟨elem, helem, hkey⟩ := List.any_eq_true.1 hany
      exact absurd (by simpa using hkey) (h s (List.mem_cons_self _ _) elem helem)
    · exact ih acc (fun state hstate => h state (List.mem_cons_of_mem _ hstate))

/-- What an invocation of the loop over the orphans was made for: a record of
`legacyMounts` whose key is not in use. -/
theorem recover_call_orphan (host : Host) (infos : containermountmap)
    (mountlist : List ExternalMount) (states : List ContainerID) (call : Call)
    (hcall : call ∈ (recover host infos 0 (MountFile.parsed mountlist) states).calls) :
    ∃ ent ∈ legacyMountsOf (originalContainerMounts mountlist), call = Call.unmount ent.2 ∧
      ent.1 = getExternalMountId ent.2 ∧
      ent.1 ∉ (recoverStates (originalContainerMounts mountlist) states (infos, [])).2.map
        Prod.fst := by
  rw [recover_parsed_calls] at hcall
  obtain ⟨em, hem, heq⟩ := unmountOrphans_calls host call _ hcall
  obtain ⟨ent, hent, rfl⟩ := List.mem_map.1 hem
  exact ⟨ent, eraseInUse_subset _ _ ent hent, heq,
    ((legacy_keyed _).1.2 ent (eraseInUse_subset _ _ ent hent)).symm,
    eraseInUse_not_mem _ _ ent hent⟩

/-- C18 (code defect): when an orphan unmount invoked by `recover` reports the hard
failure, `recover` takes the `return Failure` with the store as it was before the call,
but none of the pointers it put into `originalContainerMounts` was handed to the store:
each of them is deleted when `recover` leaves, and each is the address of the loop-local,
a stack object destroyed before. -/
theorem C18_recover_hard_failure (host : Host) (infos : containermountmap)
    (mountlist : List ExternalMount) (states : List ContainerID) (em : ExternalMount)
    (hcall : Call.unmount em ∈ (recover host infos 0 (MountFile.parsed mountlist) states).calls)
    (hfail : unmount host em = false) :
    (recover host infos 0 (MountFile.parsed mountlist) states).future =
        Future.failed "recover() failed during unmount attempt" ∧
      (recover host infos 0 (MountFile.parsed mountlist) states).infos = infos ∧
      releasedPointers mountlist states ≠ [] ∧
      releasedPointers mountlist states = (originalContainerMounts mountlist).map Prod.fst := by
  obtain ⟨ent, hent, _, hkey, hnot⟩ :=
    recover_call_orphan host infos mountlist states _ hcall
  have hfut : (recover host infos 0 (MountFile.parsed mountlist) states).future =
      Future.failed "recover() failed during unmount attempt" := by
    rw [recover_parsed_calls] at hcall
    exact (recover_parsed_rest host infos mountlist states).2
      (unmountOrphans_false_of_failed host em hfail _ hcall)
  obtain ⟨last, halias⟩ := original_alias mountlist
  unfold legacyMountsOf at hent
  rcases legacy_values _ [] ent hent with h1 | ⟨elem, helem, hval⟩
  · exact absurd h1 (List.not_mem_nil ent)
  · have hunlisted : ∀ state ∈ states, ∀ elem1 ∈ originalContainerMounts mountlist,
        elem1.1 ≠ state.value := by
      intro state hstate elem1 helem1 hk
      apply hnot
      have hin := (recoverStates_inUse (originalContainerMounts mountlist) states
        (infos, [])).2 state hstate elem1 helem1 hk
      rw [halias elem1 helem1, ← halias elem helem, ← hval, ← hkey] at hin
      exact hin
    have hall : releasedPointers mountlist states =
        (originalContainerMounts mountlist).map Prod.fst := by
      unfold releasedPointers
      rw [List.filter_eq_self]
      intro key hkeymem
      obtain ⟨elem1, helem1, rfl⟩ := List.mem_map.1 hkeymem
      rw [Bool.not_eq_true', Bool.eq_false_iff]
      intro hany
      obtain ⟨state, hstate, hk⟩ := List.any_eq_true.1 hany
      exact hunlisted state hstate elem1 helem1 (beq_iff_eq.1 hk).symm
    refine ⟨hfut, ?_, ?_, hall⟩
    · rw [recover_parsed_infos, recoverStates_unlisted _ states _ hunlisted]
    · rw [hall]
      intro hnil
      have : elem.1 ∈ (originalContainerMounts mountlist).map Prod.fst :=
        List.mem_map.2 ⟨elem, helem, rfl⟩
      rw [hnil] at this
      exact absurd this (List.not_mem_nil _)

theorem C18_recover_hard_failure_witness :
    Call.unmount orphanU ∈
        (recover hostNoShell [] 0 (MountFile.parsed [orphanU]) [w1]).calls ∧
      unmount hostNoShell orphanU = false ∧
      (recover hostNoShell [] 0 (MountFile.parsed [orphanU]) [w1]).future =
        Future.failed "recover() failed during unmount attempt" ∧
      (recover hostNoShell [] 0 (MountFile.parsed [orphanU]) [w1]).infos = [] ∧
      releasedPointers [orphanU] [w1] ≠ [] ∧
      releasedPointers [orphanU] [w1] = (originalContainerMounts [orphanU]).map Prod.fst :=
  ⟨by decide!, by decide!,
    C18_recover_hard_failure hostNoShell [] [orphanU] [w1] orphanU (by decide!) (by decide!)⟩

/-! ### recover: scrubbing -/

theorem cleanStore_of_reachable (infos : containermountmap) (h : Reachable infos) :
    CleanStore infos := by
  induction h with
  | empty => intro ent hent; exact absurd hent (List.not_mem_nil ent)
  | prepare host infos containerId environment _ ih =>
    exact prepare_store_clean host infos containerId environment ih
  | cleanup host infos containerId _ ih =>
    intro ent hent
    exact ih ent (cleanup_infos_subset host infos containerId ent hent)

/-- C26 (the part that holds): every command `prepare` invokes, on any store, carries a
driver, a name and options free of prohibited characters, and in any store reached from the
empty store by `prepare` and `cleanup` calls every unmount `cleanup` invokes carries a
driver and a name free of prohibited characters. -/
theorem C26_no_prohibited_char_in_command (infos : containermountmap)
    (hreach : Reachable infos) (host : Host) (containerId : ContainerID)
    (environment : Option (List Variable)) :
    (∀ store, ∀ call ∈ (prepare host store containerId environment).calls, CleanCall call) ∧
      (∀ call ∈ (cleanup host infos containerId).calls, CleanCall call) :=
  ⟨fun store => prepare_calls_clean host store containerId environment,
    cleanup_calls_clean host infos containerId (cleanStore_of_reachable infos hreach)⟩

theorem C26_no_prohibited_char_in_command_witness :
    Reachable (prepare hostAllOk [] w1 (some envABC)).infos ∧
      (cleanup hostAllOk (prepare hostAllOk [] w1 (some envABC)).infos w1).calls ≠ [] ∧
      (∀ store, ∀ call ∈ (prepare hostFailingOnC store w2 (some envABC)).calls,
        CleanCall call) ∧
      (∀ call ∈ (cleanup hostAllOk (prepare hostAllOk [] w1 (some envABC)).infos w1).calls,
        CleanCall call) :=
  ⟨Reachable.prepare hostAllOk [] w1 (some envABC) Reachable.empty, by decide!,
    C26_no_prohibited_char_in_command _
      (Reachable.prepare hostAllOk [] w1 (some envABC) Reachable.empty) hostFailingOnC w2
      (some envABC) |>.1,
    C26_no_prohibited_char_in_command _
      (Reachable.prepare hostAllOk [] w1 (some envABC) Reachable.empty) hostAllOk w1
      (some envABC) |>.2⟩

theorem C16_checkpoint_is_store_witness :
    (prepare hostAllOk storeV1 w2 (some envVC)).future = Future.ready none ∧
      (prepare hostAllOk storeV1 w2 (some envVC)).checkpointed =
        some ((prepare hostAllOk storeV1 w2 (some envVC)).infos.map Prod.snd) ∧
      (cleanup hostAllOk storeAB w1).future = Future.ready () ∧
      mountsOf storeAB w1 ≠ [] ∧
      (cleanup hostAllOk storeAB w1).checkpointed =
        some ((cleanup hostAllOk storeAB w1).infos.map Prod.snd) ∧
      (cleanup hostAllOk storeA1B2 w1).future = Future.ready () ∧
      mountsOf storeA1B2 w1 ≠ [] ∧
      (cleanup hostAllOk storeA1B2 w1).checkpointed =
        some ((cleanup hostAllOk storeA1B2 w1).infos.map Prod.snd) ∧
      (cleanup hostAllOk storeA1B2 w1).infos.map Prod.snd ≠ [] :=
  ⟨by decide!, (C16_checkpoint_is_store hostAllOk storeV1 w2 envVC).1 (by decide!),
    by decide!, by decide!,
    (C16_checkpoint_is_store hostAllOk storeAB w1 envVC).2 (by decide!) (by decide!),
    by decide!, by decide!,
    (C16_checkpoint_is_store hostAllOk storeA1B2 w1 envVC).2 (by decide!) (by decide!),
    by decide!⟩

theorem mountLoop_success_calls (host : Host) (containerId : ContainerID) :
    ∀ (l successful res : List ExternalMount),
      (mountLoop host containerId l successful).1 = some res →
        (mountLoop host containerId l successful).2 = l.map Call.mount := by
  intro l
  induction l with
  | nil => intro successful res _; rfl
  | cons iter rest ih =>
    intro successful res h
    unfold mountLoop at h ⊢
    simp only [] at h ⊢
    split at h
    · rename_i hm
      rw [if_pos hm]
      simp only []
      rw [ih _ res h, List.map_cons]
    · cases h

theorem mountCallsOf_map (l : List ExternalMount) (id : ExternalMountID) :
    mountCallsOf (l.map Call.mount) id = identityCount l id := by
  induction l with
  | nil => rfl
  | cons m rest ih => rw [List.map_cons, mountCallsOf_cons_mount, identityCount_cons, ih]

/-- C22 (amended): let two slots `i < j` of one request name volumes of equal identity.
Then `prepare` invokes at most one mount for that identity, and none when the store
already holds an entry of that identity. A successful `prepare` appends to the store
entries of the workload among which exactly one has the identity of slot `i`, which is
also the only one of the identity of slot `j`. When the store held an entry of that
identity, the added entry has the driver, name, options and mountpoint of the first such
entry of the store; otherwise exactly one mount was invoked for the identity and the added
entry is the record built from the first slot `k` (at most `i`) that carries the identity,
with the mountpoint the mount returned. -/
theorem C22_duplicates_keep_first (host : Host) (infos : containermountmap)
    (containerId : ContainerID) (vars : List Variable) (slots : Slots) (i j : Nat)
    (hparse : parseVariables vars emptySlots = some slots)
    (hij : i < j) (hj : j < ARRAY_SIZE)
    (hi : slots.volumeNames.getD i "" ≠ "") (_hjn : slots.volumeNames.getD j "" ≠ "")
    (hid : getExternalMountId (slotMount containerId slots i) =
      getExternalMountId (slotMount containerId slots j)) :
    mountCallsOf (prepare host infos containerId (some vars)).calls
        (getExternalMountId (slotMount containerId slots i)) ≤ 1 ∧
      ((∃ ent ∈ infos, getExternalMountId ent.2 =
          getExternalMountId (slotMount containerId slots i)) →
        mountCallsOf (prepare host infos containerId (some vars)).calls
          (getExternalMountId (slotMount containerId slots i)) = 0) ∧
      ((prepare host infos containerId (some vars)).future = Future.ready none →
        ∃ k entry added, k ≤ i ∧ slots.volumeNames.getD k "" ≠ "" ∧
          getExternalMountId (slotMount containerId slots k) =
            getExternalMountId (slotMount containerId slots i) ∧
          (∀ h, h < k → slots.volumeNames.getD h "" ≠ "" →
            getExternalMountId (slotMount containerId slots h) ≠
              getExternalMountId (slotMount containerId slots i)) ∧
          (prepare host infos containerId (some vars)).infos = infos ++ added ∧
          (∀ e ∈ added, e.1 = containerId) ∧
          added.filter (fun e => getExternalMountId e.2 ==
              getExternalMountId (slotMount containerId slots i)) = [entry] ∧
          added.filter (fun e => getExternalMountId e.2 ==
              getExternalMountId (slotMount containerId slots j)) = [entry] ∧
          (∀ ent, infos.find? (fun ent => getExternalMountId ent.2 ==
              getExternalMountId (slotMount containerId slots i)) = some ent →
            entry.2.volumedriver = ent.2.volumedriver ∧
              entry.2.volumename = ent.2.volumename ∧ entry.2.options = ent.2.options ∧
              entry.2.mountpoint = ent.2.mountpoint) ∧
          (infos.find? (fun ent => getExternalMountId ent.2 ==
              getExternalMountId (slotMount containerId slots i)) = none →
            entry.2 = newmount containerId (slotMount containerId slots k)
                (mount host (slotMount containerId slots k)) ∧
              mountCallsOf (prepare host infos containerId (some vars)).calls
                (getExternalMountId (slotMount containerId slots i)) = 1)) := by
  obtain ⟨hcalls, hres⟩ := prepare_parsed host infos containerId vars slots hparse
  have hok := buildRequests_ok infos containerId slots
  have hcount : identityCount
        (buildRequests infos containerId slots).prevConnectedExternalMounts
          (getExternalMountId (slotMount containerId slots i)) +
        identityCount (buildRequests infos containerId slots).unconnectedExternalMounts
          (getExternalMountId (slotMount containerId slots i)) =
      identityCount (buildRequests infos containerId slots).requestedExternalMounts
        (getExternalMountId (slotMount containerId slots i)) ∧
      identityCount (buildRequests infos containerId slots).requestedExternalMounts
        (getExternalMountId (slotMount containerId slots i)) ≤ 1 :=
    foldl_requestStep_inv infos containerId slots _
      (requestStep_counts infos containerId slots
        (getExternalMountId (slotMount containerId slots i)))
      (List.range ARRAY_SIZE) ⟨[], [], []⟩ ⟨rfl, Nat.zero_le _⟩
  have hprev : ∀ m ∈ (buildRequests infos containerId slots).prevConnectedExternalMounts,
      ∃ ent, infos.find? (fun e => getExternalMountId e.2 == getExternalMountId m) = some ent ∧
        ent.2 = m :=
    foldl_requestStep_inv infos containerId slots _
      (requestStep_prev_found infos containerId slots)
      (List.range ARRAY_SIZE) ⟨[], [], []⟩ (fun m hm => absurd hm (List.not_mem_nil m))
  obtain ⟨r, hr, hrid⟩ := foldl_requestStep_requested infos containerId slots i hi
    (List.range ARRAY_SIZE) ⟨[], [], []⟩ (List.mem_range.2 (Nat.lt_trans hij hj))
  have hr1 : r ∈ (buildRequests infos containerId slots).requestedExternalMounts := hr
  have hpos := identityCount_pos _ _ r hr1 hrid
  obtain ⟨k, _, hkname, hrk, hfirst⟩ :=
    requested_first_slot infos containerId slots ARRAY_SIZE r hr
  have hkid : getExternalMountId (slotMount containerId slots k) =
      getExternalMountId (slotMount containerId slots i) := by
    rw [← hrk]; exact hrid
  have hki : k ≤ i := by
    rcases Nat.lt_or_ge i k with h | h
    · exact absurd hkid.symm (hfirst i h hi)
    · exact h
  have hle := mountLoop_mountCalls host containerId
    (getExternalMountId (slotMount containerId slots i))
    (buildRequests infos containerId slots).unconnectedExternalMounts []
  refine ⟨?_, ?_, ?_⟩
  · rw [hcalls]
    omega
  · rintro ⟨ent, hent, hentid⟩
    have hzero : identityCount (buildRequests infos containerId slots).unconnectedExternalMounts
        (getExternalMountId (slotMount containerId slots i)) = 0 := by
      apply identityCount_eq_zero
      intro m hm hmid
      exact hok.unc_fresh m hm ent hent (hentid.trans hmid.symm)
    rw [hcalls]
    omega
  · intro hready
    obtain ⟨res, hsome⟩ := prepare_ready_mounted host infos containerId vars slots hparse hready
    obtain ⟨_, hinfos⟩ := hres res hsome
    have hresult := mountLoop_result host containerId _ [] res hsome
    rw [List.nil_append] at hresult
    rw [hresult, List.append_assoc] at hinfos
    have hfilter : (List.map (fun m => (containerId, m))
          (buildRequests infos containerId slots).prevConnectedExternalMounts ++
        List.map (fun m => (containerId, m))
          (List.map (fun m => newmount containerId m (mount host m))
            (buildRequests infos containerId slots).unconnectedExternalMounts)).filter
        (fun e => getExternalMountId e.2 ==
          getExternalMountId (slotMount containerId slots i)) =
        [(containerId,
          match infos.find? (fun ent => getExternalMountId ent.2 ==
              getExternalMountId (slotMount containerId slots i)) with
          | some ent => ent.2
          | none => newmount containerId (slotMount containerId slots k)
              (mount host (slotMount containerId slots k)))] := by
      apply filter_eq_singleton
      · rw [added_count]
        omega
      · split
        · rename_i ent hfind
          have hfound := List.find?_some hfind
          have hentid : getExternalMountId ent.2 =
              getExternalMountId (slotMount containerId slots i) := beq_iff_eq.1 hfound
          have hentmem : ent ∈ infos := List.mem_of_find?_eq_some hfind
          rcases hok.req_cov r hr1 with hunc | ⟨p, hp, hpid⟩
          · exact absurd (hentid.trans hrid.symm) (hok.unc_fresh r hunc ent hentmem)
          · obtain ⟨ent1, hfind1, hent1⟩ := hprev p hp
            rw [hpid, hrid, hfind] at hfind1
            have hee : ent = ent1 := Option.some.inj hfind1
            apply List.mem_append_left
            refine List.mem_map.2 ⟨p, hp, ?_⟩
            rw [hee, hent1]
        · rename_i hfind
          have hnone := List.find?_eq_none.1 hfind
          rcases hok.req_cov r hr1 with hunc | ⟨p, hp, hpid⟩
          · apply List.mem_append_right
            refine List.mem_map.2 ⟨newmount containerId r (mount host r), ?_, ?_⟩
            · exact List.mem_map.2 ⟨r, hunc, rfl⟩
            · rw [hrk]
          · obtain ⟨c, hc⟩ := hok.prev_in p hp
            exact absurd (beq_iff_eq.2 (hpid.trans hrid)) (hnone (c, p) hc)
      · split
        · rename_i ent hfind
          have hfound := List.find?_some hfind
          exact hfound
        · apply beq_iff_eq.2
          rw [getExternalMountId_newmount]
          exact hkid
    refine ⟨k, _, _, hki, hkname, hkid, ?_, hinfos, ?_, hfilter, ?_, ?_, ?_⟩
    · intro h hh hhname
      rw [← hkid]
      exact hfirst h hh hhname
    · intro e he
      rcases List.mem_append.1 he with h1 | h1
      · obtain ⟨m, _, rfl⟩ := List.mem_map.1 h1
        rfl
      · obtain ⟨m, _, rfl⟩ := List.mem_map.1 h1
        rfl
    · rw [← hid]
      exact hfilter
    · intro ent hfind
      simp only [hfind, and_self]
    · intro hfind
      simp only [hfind, true_and]
      have hnone := List.find?_eq_none.1 hfind
      have hprevzero : identityCount
          (buildRequests infos containerId slots).prevConnectedExternalMounts
          (getExternalMountId (slotMount containerId slots i)) = 0 := by
        apply identityCount_eq_zero
        intro p hp hpid
        obtain ⟨c, hc⟩ := hok.prev_in p hp
        exact hnone (c, p) hc (beq_iff_eq.2 hpid)
      rw [hcalls, mountLoop_success_calls host containerId _ [] res hsome, mountCallsOf_map]
      omega

theorem C22_duplicates_keep_first_witness :
    parseVariables envDupShared emptySlots = some slotsDupShared ∧ 0 < 1 ∧ 1 < ARRAY_SIZE ∧
      slotsDupShared.volumeNames.getD 0 "" ≠ "" ∧ slotsDupShared.volumeNames.getD 1 "" ≠ "" ∧
      getExternalMountId (slotMount w2 slotsDupShared 0) =
        getExternalMountId (slotMount w2 slotsDupShared 1) ∧
      (∃ ent ∈ storeV1, getExternalMountId ent.2 =
        getExternalMountId (slotMount w2 slotsDupShared 0)) ∧
      (prepare hostAllOk storeV1 w2 (some envDupShared)).future = Future.ready none ∧
      mountCallsOf (prepare hostAllOk storeV1 w2 (some envDupShared)).calls
        (getExternalMountId (slotMount w2 slotsDupShared 0)) = 0 ∧
      ∃ k entry added, k ≤ 0 ∧ slotsDupShared.volumeNames.getD k "" ≠ "" ∧
        getExternalMountId (slotMount w2 slotsDupShared k) =
          getExternalMountId (slotMount w2 slotsDupShared 0) ∧
        (∀ h, h < k → slotsDupShared.volumeNames.getD h "" ≠ "" →
          getExternalMountId (slotMount w2 slotsDupShared h) ≠
            getExternalMountId (slotMount w2 slotsDupShared 0)) ∧
        (prepare hostAllOk storeV1 w2 (some envDupShared)).infos = storeV1 ++ added ∧
        (∀ e ∈ added, e.1 = w2) ∧
        added.filter (fun e => getExternalMountId e.2 ==
            getExternalMountId (slotMount w2 slotsDupShared 0)) = [entry] ∧
        added.filter (fun e => getExternalMountId e.2 ==
            getExternalMountId (slotMount w2 slotsDupShared 1)) = [entry] ∧
        (∀ ent, storeV1.find? (fun ent => getExternalMountId ent.2 ==
            getExternalMountId (slotMount w2 slotsDupShared 0)) = some ent →
          entry.2.volumedriver = ent.2.volumedriver ∧
            entry.2.volumename = ent.2.volumename ∧ entry.2.options = ent.2.options ∧
            entry.2.mountpoint = ent.2.mountpoint) ∧
        (storeV1.find? (fun ent => getExternalMountId ent.2 ==
            getExternalMountId (slotMount w2 slotsDupShared 0)) = none →
          entry.2 = newmount w2 (slotMount w2 slotsDupShared k)
              (mount hostAllOk (slotMount w2 slotsDupShared k)) ∧
            mountCallsOf (prepare hostAllOk storeV1 w2 (some envDupShared)).calls
              (getExternalMountId (slotMount w2 slotsDupShared 0)) = 1) :=
  ⟨by decide!, by decide!, by decide!, by decide!, by decide!, by decide!,
    ⟨(w1, mountedV), by decide!, by decide!⟩, by decide!,
    (C22_duplicates_keep_first hostAllOk storeV1 w2 envDupShared slotsDupShared 0 1
      (by decide!) (by decide!) (by decide!) (by decide!) (by decide!) (by decide!)).2.1
        ⟨(w1, mountedV), by decide!, by decide!⟩,
    (C22_duplicates_keep_first hostAllOk storeV1 w2 envDupShared slotsDupShared 0 1
      (by decide!) (by decide!) (by decide!) (by decide!) (by decide!) (by decide!)).2.2
        (by decide!)⟩

/-- C22 (as stated, refuted). First: slots 0, 1 and 2 of one request name one volume as
`V`, `v` and `v` with three different options; for the pair of slots 1 and 2 the one entry
a successful `prepare` adds carries the name and the options of slot 0, not those of slot 1.
Second: `w1` holds `v`; slots 0 and 1 of the request of `w2` name that volume as `V` with an
option and as `v` without one; the one entry a successful `prepare` adds for `w2` is the
record of `w1`, whose name and options are not those of slot 0 and are those of slot 1. -/
theorem C22_counterexample :
    (parseVariables envTriple emptySlots = some slotsTriple ∧
      slotsTriple.volumeNames.getD 1 "" ≠ "" ∧ slotsTriple.volumeNames.getD 2 "" ≠ "" ∧
      getExternalMountId (slotMount w1 slotsTriple 1) =
        getExternalMountId (slotMount w1 slotsTriple 2) ∧
      (prepare hostAllOk [] w1 (some envTriple)).future = Future.ready none ∧
      (prepare hostAllOk [] w1 (some envTriple)).infos =
        [(w1, ⟨"w1", "rexray", "V", "size=1", "/var/lib/rexray/volumes/x"⟩)] ∧
      (slotMount w1 slotsTriple 1).volumename = "v" ∧
      (slotMount w1 slotsTriple 1).options = "size=2") ∧
    (parseVariables envDupShared emptySlots = some slotsDupShared ∧
      slotsDupShared.volumeNames.getD 0 "" ≠ "" ∧ slotsDupShared.volumeNames.getD 1 "" ≠ "" ∧
      getExternalMountId (slotMount w2 slotsDupShared 0) =
        getExternalMountId (slotMount w2 slotsDupShared 1) ∧
      (prepare hostAllOk storeV1 w2 (some envDupShared)).future = Future.ready none ∧
      (prepare hostAllOk storeV1 w2 (some envDupShared)).calls = [] ∧
      (prepare hostAllOk storeV1 w2 (some envDupShared)).infos = [(w1, mountedV), (w2, mountedV)] ∧
      mountedV.volumename ≠ (slotMount w2 slotsDupShared 0).volumename ∧
      mountedV.options ≠ (slotMount w2 slotsDupShared 0).options ∧
      mountedV.volumename = (slotMount w2 slotsDupShared 1).volumename ∧
      mountedV.options = (slotMount w2 slotsDupShared 1).options) :=
  ⟨⟨by decide!, by decide!, by decide!, by decide!, by decide!, by decide!, by decide!,
      by decide!⟩,
    ⟨by decide!, by decide!, by decide!, by decide!, by decide!, by decide!, by decide!,
      by decide!, by decide!, by decide!, by decide!⟩⟩

end DockerVolumeDriverIsolator
